import Mathlib

/-!
AMM swap handlers (`x/ammswap/handler.go`): embedding and verification.

Amounts of type `sdk.Dec` are fixed-point decimals.  They are represented by the
integer number of smallest units they hold: the decimal `v` is the integer
`v * 10 ^ Precision`.  Addition, subtraction and comparison of decimals are the
integer ones; a decimal product or quotient rescales by `10 ^ Precision`.

A handler of the source returns an `sdk.Result` and mutates the store reached
through the keeper.  Its embedding takes the store as an explicit `State` and
returns `some (result, state after)`; `none` stands for a Go run-time panic
(which unwinds the handler without a result).  Events are observability only and
are not modelled.
-/

namespace Ammswap

/-! ## Constants declared outside the handler file -/

/-- Constants the handlers refer to and whose declarations are not part of the
    handler file: the number of fractional digits of `sdk.Dec`
    (`sdk.Precision`), the reserve denomination (`sdk.DefaultBondDenom`, which
    `common.NativeToken` also names), the prefix of share-token names
    (`types.PoolTokenPrefix`) and the address of the module account that holds
    the pooled coins (`types.ModuleName`). -/
structure Consts where
  Precision : Nat
  DefaultBondDenom : String
  PoolTokenPrefix : String
  ModuleAccount : String

/-- The reserve denomination under its second name, `common.NativeToken`. -/
def NativeToken (c : Consts) : String := c.DefaultBondDenom

/-! ## Decimals and decimal coins -/

/-- A decimal, held as its number of smallest units. -/
abbrev Dec := Int

/-- The decimal `1` (`sdk.OneDec`): `10 ^ Precision` smallest units. -/
def OneDec (c : Consts) : Dec := (10 : Int) ^ c.Precision

/-- The decimal with integer value `n` (`sdk.NewDec`). -/
def NewDec (c : Consts) (n : Int) : Dec := n * OneDec c

/-- The decimal `0` (`sdk.ZeroDec`). -/
def ZeroDec : Dec := 0

/-- A decimal coin (`sdk.DecCoin`). -/
structure DecCoin where
  Denom : String
  Amount : Dec
deriving DecidableEq, Repr

/-- A sequence of decimal coins (`sdk.DecCoins`). -/
abbrev DecCoins := List DecCoin

/-- Embedding of `sdk.NewDecCoinFromDec`: panics on a negative amount. -/
def NewDecCoinFromDec (denom : String) (amount : Dec) : Option DecCoin :=
  if amount < 0 then none else some { Denom := denom, Amount := amount }

/-- Embedding of `DecCoin.IsPositive`. -/
def DecCoin.IsPositive (coin : DecCoin) : Bool := decide (0 < coin.Amount)

/-- Embedding of `DecCoin.IsZero`. -/
def DecCoin.IsZero (coin : DecCoin) : Bool := decide (coin.Amount = 0)

/-- Embedding of `DecCoin.Add`: panics when the denominations differ. -/
def DecCoin.Add (coin coinB : DecCoin) : Option DecCoin :=
  if coin.Denom = coinB.Denom then
    some { Denom := coin.Denom, Amount := coin.Amount + coinB.Amount }
  else none

/-- Embedding of `DecCoin.Sub`: panics when the denominations differ. -/
def DecCoin.Sub (coin coinB : DecCoin) : Option DecCoin :=
  if coin.Denom = coinB.Denom then
    some { Denom := coin.Denom, Amount := coin.Amount - coinB.Amount }
  else none

/-- Embedding of `DecCoin.IsLT`: panics when the denominations differ. -/
def DecCoin.IsLT (coin other : DecCoin) : Option Bool :=
  if coin.Denom = other.Denom then some (decide (coin.Amount < other.Amount)) else none

/-- Modelled from the spec: `common.MulAndQuo(a, b, c)`, the helper of the
    repository's `x/common` package that is not part of the handler file.  It is
    `a * b / c` with the multiplication first and one truncating division
    (toward zero); in smallest units the two rescalings cancel.  A zero divisor
    panics. -/
def MulAndQuo (a b c : Dec) : Option Dec :=
  if c = 0 then none else some ((a * b).tdiv c)

/-! ## Store -/

/-- A pool (`types.SwapTokenPair`), with the fields the handlers read and
    write. -/
structure SwapTokenPair where
  QuotePooledCoin : DecCoin
  BasePooledCoin : DecCoin
  PoolTokenName : String
deriving DecidableEq, Repr

/-- Module parameters (`types.Params`): the fee rate of the spec's `Params`. -/
structure Params where
  FeeRate : Dec
deriving DecidableEq, Repr

/-- Token metadata held by the token keeper, with the fields the handlers and
    the keeper read. -/
structure Token where
  Symbol : String
  OriginalSymbol : String
  TokenType : Int
deriving DecidableEq, Repr

/-- The store the keeper reads and writes: the pair registry, the token
    registry, the total supply per denomination, the balances of the ledger
    (account, denomination) and the module parameters. -/
structure State where
  pairs : String → Option SwapTokenPair
  tokens : String → Option Token
  supply : String → Dec
  bal : String → String → Dec
  params : Params

/-- The part of `sdk.Context` the handlers read: the block time, in Unix
    seconds. -/
structure Context where
  BlockTime : Int

/-! ## Results -/

/-- Result codes used by the handlers (`sdk.CodeOK`, `sdk.CodeInternal`,
    `sdk.CodeInsufficientCoins`). -/
inductive CodeType where
  | CodeOK
  | CodeInternal
  | CodeInsufficientCoins
deriving DecidableEq, Repr

/-- An `sdk.Result`: code and log.  Where the source formats values into the
    log, only the fixed text is kept; where the log is the error text of a
    collaborator (`err.Error()`), a fixed description stands for it. -/
structure Result where
  Code : CodeType
  Log : String
deriving DecidableEq, Repr

/-- Embedding of `Result.IsOK`. -/
def Result.IsOK (r : Result) : Bool := decide (r.Code = CodeType.CodeOK)

/-- The successful result `sdk.Result{}` (events omitted). -/
def okResult : Result := { Code := CodeType.CodeOK, Log := "" }

/-! ## Keeper and ledger, modelled from the spec -/

/-- Modelled from the spec: `Keeper.GetSwapTokenPair`, the registry lookup
    `get(id) -> Pool | NotFound`; the keeper file is not part of the sources. -/
def GetSwapTokenPair (k : State) (tokenPairName : String) : Option SwapTokenPair :=
  k.pairs tokenPairName

/-- Modelled from the spec: `Keeper.SetSwapTokenPair`, the registry write
    `set(id, Pool)`. -/
def SetSwapTokenPair (k : State) (tokenPairName : String) (p : SwapTokenPair) : State :=
  { k with pairs := fun n => if n = tokenPairName then some p else k.pairs n }

/-- Modelled from the spec: `Keeper.GetPoolTokenInfo`, the token-registry
    lookup for a share token. -/
def GetPoolTokenInfo (k : State) (poolTokenName : String) : Option Token :=
  k.tokens poolTokenName

/-- Modelled from the spec: `Keeper.GetPoolTokenAmount`, the total supply of a
    share token. -/
def GetPoolTokenAmount (k : State) (poolTokenName : String) : Dec :=
  k.supply poolTokenName

/-- Modelled from the spec: `Keeper.GetParams`, the parameter store. -/
def GetParams (k : State) : Params := k.params

/-- Modelled from the spec: the ledger's balances (`balance_of`) after adding
    `x` to the balance of account `a` in denomination `d`. -/
def addBal (bal : String → String → Dec) (a d : String) (x : Dec) : String → String → Dec :=
  fun a' d' => if a' = a ∧ d' = d then bal a' d' + x else bal a' d'

/-- Modelled from the spec: the ledger's `transfer` for one coin.  The coin
    amount has to be positive (the contract of `coins`) and covered by the
    sender's balance; otherwise the transfer fails. -/
def sendCoin (bal : String → String → Dec) (src dst : String) (coin : DecCoin) :
    Option (String → String → Dec) :=
  if 0 < coin.Amount ∧ coin.Amount ≤ bal src coin.Denom then
    some (addBal (addBal bal src coin.Denom (-coin.Amount)) dst coin.Denom coin.Amount)
  else none

/-- Modelled from the spec: the ledger's `transfer(from, to, coins) -> ok |
    InsufficientFunds`, all coins or none. -/
def sendCoins (bal : String → String → Dec) (src dst : String) :
    DecCoins → Option (String → String → Dec)
  | [] => some bal
  | coin :: rest =>
    match sendCoin bal src dst coin with
    | none => none
    | some bal1 => sendCoins bal1 src dst rest

/-- Modelled from the spec: `Keeper.SendCoinsToPool`, a ledger transfer from
    the account to the pool (module) account. -/
def SendCoinsToPool (c : Consts) (k : State) (coins : DecCoins) (addr : String) : Option State :=
  match sendCoins k.bal addr c.ModuleAccount coins with
  | none => none
  | some bal1 => some { k with bal := bal1 }

/-- Modelled from the spec: `Keeper.SendCoinsFromPoolToAccount`, a ledger
    transfer from the pool (module) account to the account. -/
def SendCoinsFromPoolToAccount (c : Consts) (k : State) (coins : DecCoins) (addr : String) :
    Option State :=
  match sendCoins k.bal c.ModuleAccount addr coins with
  | none => none
  | some bal1 => some { k with bal := bal1 }

/-- Modelled from the spec: the ledger's `mint(to, coins)` for one coin: the
    total supply and the receiver's balance grow by the (positive) amount. -/
def mintCoin (k : State) (addr : String) (coin : DecCoin) : Option State :=
  if 0 < coin.Amount then
    some { k with
      supply := fun d => if d = coin.Denom then k.supply d + coin.Amount else k.supply d
      bal := addBal k.bal addr coin.Denom coin.Amount }
  else none

/-- Modelled from the spec: `Keeper.MintPoolCoinsToUser`, the ledger's
    `mint(to, coins) -> ok | Err`. -/
def MintPoolCoinsToUser (k : State) : DecCoins → String → Option State
  | [], _ => some k
  | coin :: rest, addr =>
    match mintCoin k addr coin with
    | none => none
    | some k1 => MintPoolCoinsToUser k1 rest addr

/-- Modelled from the spec: the ledger's `burn(from, coins)` for one coin: the
    holder's balance has to cover the (positive) amount; balance and total
    supply shrink by it. -/
def burnCoin (k : State) (addr : String) (coin : DecCoin) : Option State :=
  if 0 < coin.Amount ∧ coin.Amount ≤ k.bal addr coin.Denom then
    some { k with
      supply := fun d => if d = coin.Denom then k.supply d - coin.Amount else k.supply d
      bal := addBal k.bal addr coin.Denom (-coin.Amount) }
  else none

/-- Modelled from the spec: `Keeper.BurnPoolCoinsFromUser`, the ledger's
    `burn(from, coins) -> ok | Err`. -/
def BurnPoolCoinsFromUser (k : State) : DecCoins → String → Option State
  | [], _ => some k
  | coin :: rest, addr =>
    match burnCoin k addr coin with
    | none => none
    | some k1 => BurnPoolCoinsFromUser k1 rest addr

/-- Modelled from the spec: `common.HasSufficientCoins`, the balance check of
    the dispatcher: every requested coin is covered by the available balance. -/
def HasSufficientCoins (available : String → Dec) (amt : DecCoins) : Bool :=
  amt.all (fun coin => decide (coin.Amount ≤ available coin.Denom))

/-- Modelled from the spec: `Keeper.NewPoolToken`, the registration of a new
    share token (token kind 2, the pool-token kind) with total supply zero. -/
def NewPoolToken (k : State) (poolName : String) : State :=
  { k with tokens := fun n =>
      if n = poolName then
        some { Symbol := poolName, OriginalSymbol := poolName, TokenType := 2 }
      else k.tokens n }

/-- Modelled from the spec: `Keeper.IsTokenExist`, the token-registry check of
    pool creation (`exists(denom)` and `metadata(denom) -> kind`): an error text
    for a token that does not exist or is itself a share token, `none` (Go's
    `nil`) otherwise. -/
def IsTokenExist (k : State) (token : String) : Option String :=
  match k.tokens token with
  | none => some "Failed: token not exits"
  | some t =>
    if t.TokenType = 2 then some "Failed to create exchange with poll token" else none

/-! ## Messages -/

/-- The request `types.MsgCreateExchange`, with the fields the handler reads. -/
structure MsgCreateExchange where
  Token : String
  Sender : String
deriving DecidableEq, Repr

/-- The request `types.MsgAddLiquidity`, with the fields the handler reads. -/
structure MsgAddLiquidity where
  MinLiquidity : Dec
  MaxBaseAmount : DecCoin
  QuoteAmount : DecCoin
  Deadline : Int
  Sender : String
deriving DecidableEq, Repr

/-- The request `types.MsgRemoveLiquidity`, with the fields the handler reads. -/
structure MsgRemoveLiquidity where
  Liquidity : Dec
  MinBaseAmount : DecCoin
  MinQuoteAmount : DecCoin
  Deadline : Int
  Sender : String
deriving DecidableEq, Repr

/-- The request `types.MsgTokenToToken`, with the fields the handlers read. -/
structure MsgTokenToToken where
  SoldTokenAmount : DecCoin
  MinBoughtTokenAmount : DecCoin
  Deadline : Int
  Recipient : String
  Sender : String
deriving DecidableEq, Repr

/-- Modelled from the spec: `MsgAddLiquidity.GetSwapTokenPair`, the pair
    identifier `<token>_<reserve>` of the request's two denominations. -/
def MsgAddLiquidity.GetSwapTokenPair (msg : MsgAddLiquidity) : String :=
  msg.MaxBaseAmount.Denom ++ "_" ++ msg.QuoteAmount.Denom

/-- Modelled from the spec: `MsgRemoveLiquidity.GetSwapTokenPair`, the pair
    identifier `<token>_<reserve>` of the request's two denominations. -/
def MsgRemoveLiquidity.GetSwapTokenPair (msg : MsgRemoveLiquidity) : String :=
  msg.MinBaseAmount.Denom ++ "_" ++ msg.MinQuoteAmount.Denom

/-- Modelled from the spec: `MsgTokenToToken.GetSwapTokenPair`, the pair
    identifier `<token>_<reserve>`: the token is the bought denomination when the
    reserve token is sold and the sold denomination otherwise. -/
def MsgTokenToToken.GetSwapTokenPair (c : Consts) (msg : MsgTokenToToken) : String :=
  if msg.SoldTokenAmount.Denom = c.DefaultBondDenom then
    msg.MinBoughtTokenAmount.Denom ++ "_" ++ msg.SoldTokenAmount.Denom
  else
    msg.SoldTokenAmount.Denom ++ "_" ++ msg.MinBoughtTokenAmount.Denom

/-! ## Pricing engine, modelled from the spec -/

/-- A decimal product truncated to the precision (`Dec.MulTruncate`). -/
def MulTruncate (c : Consts) (a b : Dec) : Dec := (a * b).tdiv (OneDec c)

/-- Modelled from the spec: the constant-product price of `buy_amount`,
    `effective_in = sold_amount * (1 - fee_rate)` and
    `bought_amount = reserve_out * effective_in / (reserve_in + effective_in)`,
    multiplication first and the final quotient truncated; zero when
    `reserve_in` or `effective_in` is zero. -/
def GetInputPrice (c : Consts) (inputAmount inputReserve outputReserve feeRate : Dec) :
    Option Dec :=
  if inputReserve = 0 ∨ MulTruncate c inputAmount (OneDec c - feeRate) = 0 then some 0
  else
    MulAndQuo outputReserve (MulTruncate c inputAmount (OneDec c - feeRate))
      (inputReserve + MulTruncate c inputAmount (OneDec c - feeRate))

/-- Modelled from the spec: `keeper.CalculateTokenToBuy`, the PricingEngine's
    `buy_amount(pool, sold_amount, sold_is_quote, fee_rate)`; the keeper file is
    not part of the sources.  The quote reserve is the input reserve when the
    reserve token is sold, the base reserve otherwise. -/
def CalculateTokenToBuy (c : Consts) (swapTokenPair : SwapTokenPair) (sellToken : DecCoin)
    (buyTokenDenom : String) (params : Params) : Option DecCoin :=
  match
    (if sellToken.Denom = c.DefaultBondDenom then
      GetInputPrice c sellToken.Amount swapTokenPair.QuotePooledCoin.Amount
        swapTokenPair.BasePooledCoin.Amount params.FeeRate
    else
      GetInputPrice c sellToken.Amount swapTokenPair.BasePooledCoin.Amount
        swapTokenPair.QuotePooledCoin.Amount params.FeeRate) with
  | none => none
  | some amount => some { Denom := buyTokenDenom, Amount := amount }

/-! ## Handlers (`x/ammswap/handler.go`) -/

/-- Embedding of `coinSort`: keeps the coins with a positive amount and sorts
    them by denomination (`DecCoins.Sort`).  Denominations are compared as
    strings, character by character (`String.le_iff_toList_le`). -/
def coinSort (coins : DecCoins) : DecCoins :=
  (coins.filter (fun coin => coin.IsPositive)).insertionSort
    (fun a b => a.Denom.toList ≤ b.Denom.toList)

/-- A failed result that leaves the store as it is. -/
def failWith (code : CodeType) (log : String) (k : State) : Option (Result × State) :=
  some ({ Code := code, Log := log }, k)

/-- Embedding of `swapTokenNativeToken`: the two ledger transfers of one swap leg and the
    update of the pool's reserves. -/
def swapTokenNativeToken (c : Consts) (k : State) (swapTokenPair : SwapTokenPair)
    (tokenBuy : DecCoin) (msg : MsgTokenToToken) : Option (Result × State) :=
  match SendCoinsToPool c k [msg.SoldTokenAmount] msg.Sender with
  | none => failWith CodeType.CodeInsufficientCoins "insufficient Coins" k
  | some k1 =>
    match SendCoinsFromPoolToAccount c k1 [tokenBuy] msg.Recipient with
    | none => failWith CodeType.CodeInsufficientCoins "insufficient Coins" k1
    | some k2 =>
      if msg.SoldTokenAmount.Denom = c.DefaultBondDenom then
        match swapTokenPair.QuotePooledCoin.Add msg.SoldTokenAmount with
        | none => none
        | some quote =>
          match swapTokenPair.BasePooledCoin.Sub tokenBuy with
          | none => none
          | some base =>
            some (okResult, SetSwapTokenPair k2 (msg.GetSwapTokenPair c)
              { swapTokenPair with QuotePooledCoin := quote, BasePooledCoin := base })
      else
        match swapTokenPair.QuotePooledCoin.Sub tokenBuy with
        | none => none
        | some quote =>
          match swapTokenPair.BasePooledCoin.Add msg.SoldTokenAmount with
          | none => none
          | some base =>
            some (okResult, SetSwapTokenPair k2 (msg.GetSwapTokenPair c)
              { swapTokenPair with QuotePooledCoin := quote, BasePooledCoin := base })

/-- Embedding of `handleMsgTokenToNativeToken`: the direct swap. -/
def handleMsgTokenToNativeToken (c : Consts) (ctx : Context) (k : State)
    (msg : MsgTokenToToken) : Option (Result × State) :=
  if HasSufficientCoins (k.bal msg.Sender) [msg.SoldTokenAmount] = false then
    failWith CodeType.CodeInsufficientCoins "insufficient coins" k
  else if msg.Deadline < ctx.BlockTime then
    failWith CodeType.CodeInternal "Failed: block time exceeded deadline" k
  else
    match GetSwapTokenPair k (msg.GetSwapTokenPair c) with
    | none => failWith CodeType.CodeInternal "token pair not found" k
    | some swapTokenPair =>
      match CalculateTokenToBuy c swapTokenPair msg.SoldTokenAmount
          msg.MinBoughtTokenAmount.Denom (GetParams k) with
      | none => none
      | some tokenBuy =>
        if tokenBuy.IsZero then
          failWith CodeType.CodeInternal
            "Failed: selled token amount is too little to buy any token" k
        else if tokenBuy.Amount < msg.MinBoughtTokenAmount.Amount then
          failWith CodeType.CodeInternal "Failed: expected minimum token to buy" k
        else
          match swapTokenNativeToken c k swapTokenPair tokenBuy msg with
          | none => none
          | some (res, k1) =>
            if res.IsOK = false then some (res, k1) else some (okResult, k1)

/-- The request of the first leg of a routed swap (`msgOne`): the minimum
    bought amount is replaced by zero of the reserve token. -/
def msgOne (c : Consts) (msg : MsgTokenToToken) : MsgTokenToToken :=
  { msg with MinBoughtTokenAmount := { Denom := c.DefaultBondDenom, Amount := 0 } }

/-- The request of the second leg of a routed swap (`msgTwo`): the sold amount
    is replaced by the output of the first leg. -/
def msgTwo (msg : MsgTokenToToken) (tokenNative : DecCoin) : MsgTokenToToken :=
  { msg with SoldTokenAmount := tokenNative }

/-- Embedding of `handleMsgTokenToToken`: the routed swap, two legs through the
    reserve token. -/
def handleMsgTokenToToken (c : Consts) (ctx : Context) (k : State)
    (msg : MsgTokenToToken) : Option (Result × State) :=
  if msg.Deadline < ctx.BlockTime then
    failWith CodeType.CodeInternal "Failed: block time exceeded deadline" k
  else if HasSufficientCoins (k.bal msg.Sender) [msg.SoldTokenAmount] = false then
    failWith CodeType.CodeInsufficientCoins "insufficient coins" k
  else
    match GetSwapTokenPair k (msg.SoldTokenAmount.Denom ++ "_" ++ c.DefaultBondDenom) with
    | none => failWith CodeType.CodeInternal "token pair not found" k
    | some swapTokenPairOne =>
      match GetSwapTokenPair k
          (msg.MinBoughtTokenAmount.Denom ++ "_" ++ c.DefaultBondDenom) with
      | none => failWith CodeType.CodeInternal "token pair not found" k
      | some swapTokenPairTwo =>
        match CalculateTokenToBuy c swapTokenPairOne (msgOne c msg).SoldTokenAmount
            (msgOne c msg).MinBoughtTokenAmount.Denom (GetParams k) with
        | none => none
        | some tokenNative =>
          if tokenNative.IsZero then
            failWith CodeType.CodeInternal
              "Failed: selled token amount is too little to buy any token" k
          else
            match CalculateTokenToBuy c swapTokenPairTwo (msgTwo msg tokenNative).SoldTokenAmount
                (msgTwo msg tokenNative).MinBoughtTokenAmount.Denom (GetParams k) with
            | none => none
            | some tokenBuy =>
              if tokenBuy.IsZero then
                failWith CodeType.CodeInternal
                  "Failed: selled token amount is too little to buy any token" k
              else if tokenBuy.Amount < msg.MinBoughtTokenAmount.Amount then
                failWith CodeType.CodeInternal "Failed: expected minimum token to buy" k
              else
                match swapTokenNativeToken c k swapTokenPairOne tokenNative (msgOne c msg) with
                | none => none
                | some (res, k1) =>
                  if res.IsOK = false then some (res, k1)
                  else
                    match swapTokenNativeToken c k1 swapTokenPairTwo tokenBuy
                        (msgTwo msg tokenNative) with
                    | none => none
                    | some (res2, k2) =>
                      if res2.IsOK = false then some (res2, k2) else some (okResult, k2)

/-- Embedding of `handleMsgTokenToTokenExchange`: the routed handler when
    neither denomination is the reserve token, the direct one otherwise. -/
def handleMsgTokenToTokenExchange (c : Consts) (ctx : Context) (k : State)
    (msg : MsgTokenToToken) : Option (Result × State) :=
  if msg.SoldTokenAmount.Denom ≠ c.DefaultBondDenom ∧
      msg.MinBoughtTokenAmount.Denom ≠ c.DefaultBondDenom then
    handleMsgTokenToToken c ctx k msg
  else
    handleMsgTokenToNativeToken c ctx k msg

/-- Embedding of `handleMsgCreateExchange`. -/
def handleMsgCreateExchange (c : Consts) (k : State) (msg : MsgCreateExchange) :
    Option (Result × State) :=
  match IsTokenExist k msg.Token with
  | some err => failWith CodeType.CodeInternal err k
  | none =>
    match GetSwapTokenPair k (msg.Token ++ "_" ++ NativeToken c) with
    | some _ => failWith CodeType.CodeInternal "Failed: exchange already exists" k
    | none =>
      match GetPoolTokenInfo k (c.PoolTokenPrefix ++ msg.Token) with
      | some _ => failWith CodeType.CodeInternal "Failed: pool token already exists" k
      | none =>
        some (okResult,
          SetSwapTokenPair (NewPoolToken k (c.PoolTokenPrefix ++ msg.Token))
            (msg.Token ++ "_" ++ NativeToken c)
            { QuotePooledCoin := { Denom := NativeToken c, Amount := ZeroDec }
              BasePooledCoin := { Denom := msg.Token, Amount := ZeroDec }
              PoolTokenName := c.PoolTokenPrefix ++ msg.Token })

/-- The part of `handleMsgAddLiquidity` after the amounts are computed (source
    lines 151 to 197): the two threshold checks, the transfer to the pool, the
    reserve update and the mint.  `baseTokens` and `liquidity` are the values
    the branches before it assigned. -/
def addLiquidityFinish (c : Consts) (k : State) (msg : MsgAddLiquidity)
    (swapTokenPair : SwapTokenPair) (poolToken : Token) (baseTokens : DecCoin)
    (liquidity : Dec) : Option (Result × State) :=
  if msg.MaxBaseAmount.Amount < baseTokens.Amount then
    failWith CodeType.CodeInternal
      "The required base token amount are greater than MaxBaseAmount" k
  else if liquidity < msg.MinLiquidity then
    failWith CodeType.CodeInternal "The available liquidity is less than MinLiquidity" k
  else
    match SendCoinsToPool c k (coinSort [msg.QuoteAmount, baseTokens]) msg.Sender with
    | none => failWith CodeType.CodeInsufficientCoins "insufficient coins" k
    | some k1 =>
      match swapTokenPair.QuotePooledCoin.Add msg.QuoteAmount with
      | none => none
      | some quote =>
        match swapTokenPair.BasePooledCoin.Add baseTokens with
        | none => none
        | some base =>
          match NewDecCoinFromDec poolToken.Symbol liquidity with
          | none => none
          | some poolCoins =>
            match MintPoolCoinsToUser
                (SetSwapTokenPair k1 msg.GetSwapTokenPair
                  { swapTokenPair with QuotePooledCoin := quote, BasePooledCoin := base })
                [poolCoins] msg.Sender with
            | none =>
              failWith CodeType.CodeInternal "failed to mint pool token"
                (SetSwapTokenPair k1 msg.GetSwapTokenPair
                  { swapTokenPair with QuotePooledCoin := quote, BasePooledCoin := base })
            | some k3 => some (okResult, k3)

/-- Embedding of `handleMsgAddLiquidity`. -/
def handleMsgAddLiquidity (c : Consts) (ctx : Context) (k : State) (msg : MsgAddLiquidity) :
    Option (Result × State) :=
  if msg.Deadline < ctx.BlockTime then
    failWith CodeType.CodeInternal "Failed: block time exceeded deadline" k
  else
    match GetSwapTokenPair k msg.GetSwapTokenPair with
    | none => failWith CodeType.CodeInternal "token pair not found" k
    | some swapTokenPair =>
      match GetPoolTokenInfo k swapTokenPair.PoolTokenName with
      | none => failWith CodeType.CodeInternal "failed to get pool token" k
      | some poolToken =>
        if swapTokenPair.QuotePooledCoin.Amount = 0 ∧
            swapTokenPair.BasePooledCoin.Amount = 0 then
          addLiquidityFinish c k msg swapTokenPair poolToken
            { Denom := msg.MaxBaseAmount.Denom, Amount := msg.MaxBaseAmount.Amount }
            (NewDec c 1)
        else if swapTokenPair.BasePooledCoin.IsPositive ∧
            swapTokenPair.QuotePooledCoin.IsPositive then
          match MulAndQuo msg.QuoteAmount.Amount swapTokenPair.BasePooledCoin.Amount
              swapTokenPair.QuotePooledCoin.Amount with
          | none => none
          | some baseAmount =>
            if GetPoolTokenAmount k swapTokenPair.PoolTokenName = 0 then
              failWith CodeType.CodeInternal "unexpected totalSupply in pool token" k
            else
              match MulAndQuo msg.QuoteAmount.Amount
                  (GetPoolTokenAmount k swapTokenPair.PoolTokenName)
                  swapTokenPair.QuotePooledCoin.Amount with
              | none => none
              | some liquidity =>
                if liquidity = 0 then
                  failWith CodeType.CodeInternal "failed to add liquidity" k
                else
                  addLiquidityFinish c k msg swapTokenPair poolToken
                    { Denom := msg.MaxBaseAmount.Denom, Amount := baseAmount } liquidity
        else
          failWith CodeType.CodeInternal "invalid token pair" k

/-- Embedding of `handleMsgRemoveLiquidity`. -/
def handleMsgRemoveLiquidity (c : Consts) (ctx : Context) (k : State)
    (msg : MsgRemoveLiquidity) : Option (Result × State) :=
  if msg.Deadline < ctx.BlockTime then
    failWith CodeType.CodeInternal "Failed: block time exceeded deadline" k
  else
    match GetSwapTokenPair k msg.GetSwapTokenPair with
    | none => failWith CodeType.CodeInternal "token pair not found" k
    | some swapTokenPair =>
      if GetPoolTokenAmount k swapTokenPair.PoolTokenName < msg.Liquidity then
        failWith CodeType.CodeInsufficientCoins "insufficient pool token" k
      else
        match MulAndQuo swapTokenPair.BasePooledCoin.Amount msg.Liquidity
            (GetPoolTokenAmount k swapTokenPair.PoolTokenName) with
        | none => none
        | some baseDec =>
        match MulAndQuo swapTokenPair.QuotePooledCoin.Amount msg.Liquidity
            (GetPoolTokenAmount k swapTokenPair.PoolTokenName) with
        | none => none
        | some quoteDec =>
        match NewDecCoinFromDec swapTokenPair.BasePooledCoin.Denom baseDec with
        | none => none
        | some baseAmount =>
        match NewDecCoinFromDec swapTokenPair.QuotePooledCoin.Denom quoteDec with
        | none => none
        | some quoteAmount =>
        match baseAmount.IsLT msg.MinBaseAmount with
        | none => none
        | some true =>
          failWith CodeType.CodeInternal
            "Failed: The available base Amount are less than min base Amount" k
        | some false =>
        match quoteAmount.IsLT msg.MinQuoteAmount with
        | none => none
        | some true =>
          failWith CodeType.CodeInternal
            "Failed: available quote amount are less than least quote amount" k
        | some false =>
        match SendCoinsFromPoolToAccount c k (coinSort [baseAmount, quoteAmount])
            msg.Sender with
        | none => failWith CodeType.CodeInsufficientCoins "insufficient coins" k
        | some k1 =>
        match swapTokenPair.QuotePooledCoin.Sub quoteAmount with
        | none => none
        | some quote =>
        match swapTokenPair.BasePooledCoin.Sub baseAmount with
        | none => none
        | some base =>
        match NewDecCoinFromDec swapTokenPair.PoolTokenName msg.Liquidity with
        | none => none
        | some poolCoins =>
        match BurnPoolCoinsFromUser
            (SetSwapTokenPair k1 msg.GetSwapTokenPair
              { swapTokenPair with QuotePooledCoin := quote, BasePooledCoin := base })
            [poolCoins] msg.Sender with
        | none =>
          failWith CodeType.CodeInternal "failed to burn pool token"
            (SetSwapTokenPair k1 msg.GetSwapTokenPair
              { swapTokenPair with QuotePooledCoin := quote, BasePooledCoin := base })
        | some k3 => some (okResult, k3)

/-- The closed union of the requests `NewHandler` dispatches on. -/
inductive Msg where
  | AddLiquidity (msg : MsgAddLiquidity)
  | RemoveLiquidity (msg : MsgRemoveLiquidity)
  | CreateExchange (msg : MsgCreateExchange)
  | TokenToToken (msg : MsgTokenToToken)

/-- Embedding of `NewHandler`: the dispatch on the request type. -/
def NewHandler (c : Consts) (ctx : Context) (k : State) : Msg → Option (Result × State)
  | Msg.AddLiquidity msg => handleMsgAddLiquidity c ctx k msg
  | Msg.RemoveLiquidity msg => handleMsgRemoveLiquidity c ctx k msg
  | Msg.CreateExchange msg => handleMsgCreateExchange c k msg
  | Msg.TokenToToken msg => handleMsgTokenToTokenExchange c ctx k msg

/-! ## Auxiliary definitions used to state the results -/

/-- The pool a successful swap leg stores. -/
def swappedPair (c : Consts) (p : SwapTokenPair) (tokenBuy : DecCoin) (msg : MsgTokenToToken) :
    SwapTokenPair :=
  if msg.SoldTokenAmount.Denom = c.DefaultBondDenom then
    { p with
      QuotePooledCoin :=
        { Denom := p.QuotePooledCoin.Denom
          Amount := p.QuotePooledCoin.Amount + msg.SoldTokenAmount.Amount }
      BasePooledCoin :=
        { Denom := p.BasePooledCoin.Denom
          Amount := p.BasePooledCoin.Amount - tokenBuy.Amount } }
  else
    { p with
      QuotePooledCoin :=
        { Denom := p.QuotePooledCoin.Denom
          Amount := p.QuotePooledCoin.Amount - tokenBuy.Amount }
      BasePooledCoin :=
        { Denom := p.BasePooledCoin.Denom
          Amount := p.BasePooledCoin.Amount + msg.SoldTokenAmount.Amount } }

/-- The reserve a swap leg pays into (`reserve_in`): the quote reserve when the
    reserve token is sold, the base reserve otherwise. -/
def reserveIn (c : Consts) (p : SwapTokenPair) (soldDenom : String) : Dec :=
  if soldDenom = c.DefaultBondDenom then p.QuotePooledCoin.Amount else p.BasePooledCoin.Amount

/-- The reserve a swap leg pays out of (`reserve_out`): the base reserve when
    the reserve token is sold, the quote reserve otherwise. -/
def reserveOut (c : Consts) (p : SwapTokenPair) (soldDenom : String) : Dec :=
  if soldDenom = c.DefaultBondDenom then p.BasePooledCoin.Amount else p.QuotePooledCoin.Amount

/-! ## Example data -/

/-- Example constants: eight fractional digits, reserve token `tokt`. -/
def exConsts : Consts :=
  { Precision := 8, DefaultBondDenom := "tokt", PoolTokenPrefix := "ammswap_",
    ModuleAccount := "pool" }

/-- Example block time. -/
def exCtx : Context := { BlockTime := 100 }

/-- Example pool of token `xxb`: 1000 of each, in smallest units. -/
def exPool : SwapTokenPair :=
  { QuotePooledCoin := { Denom := "tokt", Amount := 100000000000 }
    BasePooledCoin := { Denom := "xxb", Amount := 100000000000 }
    PoolTokenName := "ammswap_xxb" }

/-- Example store: the pool `xxb_tokt` with one share outstanding, a fee rate of
    0.003, the module account holding the pooled coins and `alice` holding 500 of
    each token and the share. -/
def exState : State :=
  { pairs := fun n => if n = "xxb_tokt" then some exPool else none
    tokens := fun n =>
      if n = "xxb" then some { Symbol := "xxb", OriginalSymbol := "xxb", TokenType := 1 }
      else if n = "ammswap_xxb" then
        some { Symbol := "ammswap_xxb", OriginalSymbol := "ammswap_xxb", TokenType := 2 }
      else none
    supply := fun d => if d = "ammswap_xxb" then 100000000 else 0
    bal := fun a d =>
      if a = "pool" then (if d = "tokt" ∨ d = "xxb" then 100000000000 else 0)
      else if a = "alice" then
        (if d = "tokt" ∨ d = "xxb" then 50000000000
         else if d = "ammswap_xxb" then 100000000 else 0)
      else 0
    params := { FeeRate := 300000 } }

/-- Example direct swap: `alice` sells 100 of the reserve token for `xxb`, to
    `bob`. -/
def exSwapMsg : MsgTokenToToken :=
  { SoldTokenAmount := { Denom := "tokt", Amount := 10000000000 }
    MinBoughtTokenAmount := { Denom := "xxb", Amount := 9000000000 }
    Deadline := 200, Recipient := "bob", Sender := "alice" }

/-- The pool with `quoteAmount` added to the quote reserve and `baseAmount` to
    the base reserve: what a deposit stores. -/
def addedPair (p : SwapTokenPair) (quoteAmount baseAmount : Dec) : SwapTokenPair :=
  { p with
    QuotePooledCoin :=
      { Denom := p.QuotePooledCoin.Denom, Amount := p.QuotePooledCoin.Amount + quoteAmount }
    BasePooledCoin :=
      { Denom := p.BasePooledCoin.Denom, Amount := p.BasePooledCoin.Amount + baseAmount } }

/-- The pool with `quoteAmount` taken from the quote reserve and `baseAmount`
    from the base reserve: what a withdrawal stores. -/
def removedPair (p : SwapTokenPair) (quoteAmount baseAmount : Dec) : SwapTokenPair :=
  { p with
    QuotePooledCoin :=
      { Denom := p.QuotePooledCoin.Denom, Amount := p.QuotePooledCoin.Amount - quoteAmount }
    BasePooledCoin :=
      { Denom := p.BasePooledCoin.Denom, Amount := p.BasePooledCoin.Amount - baseAmount } }

/-- The reserve invariant of one pool: `(base_reserve == 0) == (quote_reserve == 0)`. -/
def SwapTokenPair.reserveInvariant (p : SwapTokenPair) : Bool :=
  decide (p.BasePooledCoin.Amount = 0) == decide (p.QuotePooledCoin.Amount = 0)

/-- The pool reserve invariant of a registry: every stored pool satisfies
    `(base_reserve == 0) == (quote_reserve == 0)`. -/
def PoolInvariant (k : State) : Prop :=
  ∀ n p, GetSwapTokenPair k n = some p → p.reserveInvariant = true

/-- The ranges the data model gives the stored amounts: reserves and share
    supplies are non-negative and the fee rate lies in `[0,1)`. -/
def WellFormed (c : Consts) (k : State) : Prop :=
  (∀ n p, GetSwapTokenPair k n = some p →
    0 ≤ p.BasePooledCoin.Amount ∧ 0 ≤ p.QuotePooledCoin.Amount) ∧
  (∀ d, 0 ≤ k.supply d) ∧ 0 ≤ (GetParams k).FeeRate ∧ (GetParams k).FeeRate < OneDec c

/-- The deposit amounts of a request are strictly positive (requests other than
    `AddLiquidity` carry no deposit). -/
def Msg.PositiveDeposit : Msg → Prop
  | Msg.AddLiquidity msg => 0 < msg.QuoteAmount.Amount ∧ 0 < msg.MaxBaseAmount.Amount
  | _ => True

/-- Example store with the pool `xxb_tokt` created and not yet funded: both
    reserves zero, no share outstanding; `alice` holds 500 of each token. -/
def exEmptyState : State :=
  { pairs := fun n =>
      if n = "xxb_tokt" then
        some
          { QuotePooledCoin := { Denom := "tokt", Amount := 0 }
            BasePooledCoin := { Denom := "xxb", Amount := 0 }
            PoolTokenName := "ammswap_xxb" }
      else none
    tokens := fun n =>
      if n = "xxb" then some { Symbol := "xxb", OriginalSymbol := "xxb", TokenType := 1 }
      else if n = "ammswap_xxb" then
        some { Symbol := "ammswap_xxb", OriginalSymbol := "ammswap_xxb", TokenType := 2 }
      else none
    supply := fun _ => 0
    bal := fun a d =>
      if a = "alice" then (if d = "tokt" ∨ d = "xxb" then 50000000000 else 0) else 0
    params := { FeeRate := 300000 } }

/-- Example first deposit: 500 of the reserve token and 500 of `xxb`. -/
def exFirstDeposit : MsgAddLiquidity :=
  { MinLiquidity := 100000000
    MaxBaseAmount := { Denom := "xxb", Amount := 50000000000 }
    QuoteAmount := { Denom := "tokt", Amount := 50000000000 }
    Deadline := 200, Sender := "alice" }

/-- Example first deposit with a zero base amount: 500 of the reserve token and
    nothing of `xxb`. -/
def exOneSidedDeposit : MsgAddLiquidity :=
  { MinLiquidity := 100000000
    MaxBaseAmount := { Denom := "xxb", Amount := 0 }
    QuoteAmount := { Denom := "tokt", Amount := 50000000000 }
    Deadline := 200, Sender := "alice" }

/-- Example direct swap whose recipient is the pool account itself. -/
def exSwapToPoolMsg : MsgTokenToToken :=
  { SoldTokenAmount := { Denom := "tokt", Amount := 10000000000 }
    MinBoughtTokenAmount := { Denom := "xxb", Amount := 9000000000 }
    Deadline := 200, Recipient := "pool", Sender := "alice" }

/-- Example store with two pools, `xxa_tokt` with reserves 1000 and 1000 and
    `xxb_tokt` with base reserve 2000 and quote reserve 1000; `alice` holds 500
    of each token. -/
def exTwoPools : State :=
  { pairs := fun n =>
      if n = "xxa_tokt" then
        some
          { QuotePooledCoin := { Denom := "tokt", Amount := 100000000000 }
            BasePooledCoin := { Denom := "xxa", Amount := 100000000000 }
            PoolTokenName := "ammswap_xxa" }
      else if n = "xxb_tokt" then
        some
          { QuotePooledCoin := { Denom := "tokt", Amount := 100000000000 }
            BasePooledCoin := { Denom := "xxb", Amount := 200000000000 }
            PoolTokenName := "ammswap_xxb" }
      else none
    tokens := fun n =>
      if n = "ammswap_xxa" then
        some { Symbol := "ammswap_xxa", OriginalSymbol := "ammswap_xxa", TokenType := 2 }
      else if n = "ammswap_xxb" then
        some { Symbol := "ammswap_xxb", OriginalSymbol := "ammswap_xxb", TokenType := 2 }
      else none
    supply := fun d => if d = "ammswap_xxa" ∨ d = "ammswap_xxb" then 100000000 else 0
    bal := fun a d =>
      if a = "pool" then
        (if d = "tokt" then 200000000000 else if d = "xxa" then 100000000000
         else if d = "xxb" then 200000000000 else 0)
      else if a = "alice" then
        (if d = "tokt" ∨ d = "xxa" ∨ d = "xxb" then 50000000000 else 0)
      else 0
    params := { FeeRate := 300000 } }

/-- Example routed swap: `alice` sells 100 of `xxa` for `xxb`, to `bob`. -/
def exRoutedMsg : MsgTokenToToken :=
  { SoldTokenAmount := { Denom := "xxa", Amount := 10000000000 }
    MinBoughtTokenAmount := { Denom := "xxb", Amount := 15000000000 }
    Deadline := 200, Recipient := "bob", Sender := "alice" }

/-- The pool `xxa_tokt` of the example with two pools. -/
def exPoolA : SwapTokenPair :=
  { QuotePooledCoin := { Denom := "tokt", Amount := 100000000000 }
    BasePooledCoin := { Denom := "xxa", Amount := 100000000000 }
    PoolTokenName := "ammswap_xxa" }

/-- The pool `xxb_tokt` of the example with two pools. -/
def exPoolB : SwapTokenPair :=
  { QuotePooledCoin := { Denom := "tokt", Amount := 100000000000 }
    BasePooledCoin := { Denom := "xxb", Amount := 200000000000 }
    PoolTokenName := "ammswap_xxb" }

/-- Example direct swap asking for more than the pool gives: `alice` sells 100
    of the reserve token and wants at least 95 of `xxb`. -/
def exSlippageMsg : MsgTokenToToken :=
  { SoldTokenAmount := { Denom := "tokt", Amount := 10000000000 }
    MinBoughtTokenAmount := { Denom := "xxb", Amount := 9500000000 }
    Deadline := 200, Recipient := "bob", Sender := "alice" }

/-- Example direct swap past its deadline by a sender who does not hold the sold
    amount: `alice` holds 500 of the reserve token and sells 1000, with deadline
    50 at block time 100. -/
def exLateDirectMsg : MsgTokenToToken :=
  { SoldTokenAmount := { Denom := "tokt", Amount := 100000000000 }
    MinBoughtTokenAmount := { Denom := "xxb", Amount := 0 }
    Deadline := 50, Recipient := "bob", Sender := "alice" }

/-- The routed counterpart of `exLateDirectMsg`: `alice` holds 500 of `xxa` and
    sells 1000 for `xxb`, with deadline 50 at block time 100. -/
def exLateRoutedMsg : MsgTokenToToken :=
  { SoldTokenAmount := { Denom := "xxa", Amount := 100000000000 }
    MinBoughtTokenAmount := { Denom := "xxb", Amount := 0 }
    Deadline := 50, Recipient := "bob", Sender := "alice" }

/-- The result every handler returns for a request past its deadline. -/
def deadlineResult : Result :=
  { Code := CodeType.CodeInternal, Log := "Failed: block time exceeded deadline" }

/-- Example store in which the pool account holds fewer coins than the registry
    records: the pool `xxb_tokt` has reserves 1000 and 1000 while the pool
    account holds 1000 of the reserve token and only 50 of `xxb`. -/
def exUnderfunded : State :=
  { exState with
    bal := fun a d =>
      if a = "pool" then (if d = "tokt" then 100000000000 else if d = "xxb" then 5000000000 else 0)
      else if a = "alice" then (if d = "tokt" ∨ d = "xxb" then 50000000000 else 0)
      else 0 }

/-- Example small deposit into the active example pool: 1500 smallest units of
    the reserve token (and up to 1500 of `xxb`). -/
def exSmallDeposit : MsgAddLiquidity :=
  { MinLiquidity := 1
    MaxBaseAmount := { Denom := "xxb", Amount := 1500 }
    QuoteAmount := { Denom := "tokt", Amount := 1500 }
    Deadline := 200, Sender := "alice" }

/-- Example withdrawal of one smallest unit of the share token. -/
def exSmallWithdrawal : MsgRemoveLiquidity :=
  { Liquidity := 1
    MinBaseAmount := { Denom := "xxb", Amount := 0 }
    MinQuoteAmount := { Denom := "tokt", Amount := 0 }
    Deadline := 200, Sender := "alice" }

/-- Example withdrawal of half the outstanding share of the example pool. -/
def exWithdrawal : MsgRemoveLiquidity :=
  { Liquidity := 50000000
    MinBaseAmount := { Denom := "xxb", Amount := 0 }
    MinQuoteAmount := { Denom := "tokt", Amount := 0 }
    Deadline := 200, Sender := "alice" }

/-- Example deposit into the active example pool that allows too little of the
    base token: 100 of the reserve token need 100 of `xxb`, the request allows
    50. -/
def exTightDeposit : MsgAddLiquidity :=
  { MinLiquidity := 1
    MaxBaseAmount := { Denom := "xxb", Amount := 5000000000 }
    QuoteAmount := { Denom := "tokt", Amount := 10000000000 }
    Deadline := 200, Sender := "alice" }

/-- The result of the supply check of `handleMsgRemoveLiquidity` (source lines
    219 to 224). -/
def supplyCheckResult : Result :=
  { Code := CodeType.CodeInsufficientCoins, Log := "insufficient pool token" }

/-! ## Querier (`x/ammswap/keeper/querier.go`) -/

/-- The decoded request of the buy-amount query (`types.QueryBuyAmountParams`),
    with the fields the querier reads. -/
structure QueryBuyAmountParams where
  SoldToken : DecCoin
  TokenToBuy : String
deriving DecidableEq, Repr

/-- Embedding of `queryBuyAmount`: the amount a swap of `SoldToken` for
    `TokenToBuy` would buy, in one hop when either is the reserve token and in
    two hops through the reserve token otherwise.  The request arrives decoded
    and the amount is returned as the decimal the source marshals; `Except.error`
    is the `sdk.Error` of a missing pair.  The state is returned as every keeper
    call leaves it. -/
def queryBuyAmount (c : Consts) (k : State) (queryParams : QueryBuyAmountParams) :
    Option (Except String Dec × State) :=
  if queryParams.SoldToken.Denom = c.DefaultBondDenom then
    match GetSwapTokenPair k (queryParams.TokenToBuy ++ "_" ++ queryParams.SoldToken.Denom) with
    | none => some (Except.error "incorrectly formatted request data", k)
    | some tokenPair =>
      match CalculateTokenToBuy c tokenPair queryParams.SoldToken queryParams.TokenToBuy
          (GetParams k) with
      | none => none
      | some tokenBuy => some (Except.ok tokenBuy.Amount, k)
  else if queryParams.TokenToBuy = c.DefaultBondDenom then
    match GetSwapTokenPair k (queryParams.SoldToken.Denom ++ "_" ++ queryParams.TokenToBuy) with
    | none => some (Except.error "incorrectly formatted request data", k)
    | some tokenPair =>
      match CalculateTokenToBuy c tokenPair queryParams.SoldToken queryParams.TokenToBuy
          (GetParams k) with
      | none => none
      | some tokenBuy => some (Except.ok tokenBuy.Amount, k)
  else
    match GetSwapTokenPair k (queryParams.SoldToken.Denom ++ "_" ++ c.DefaultBondDenom) with
    | none => some (Except.error "incorrectly formatted request data", k)
    | some tokenPair1 =>
      match GetSwapTokenPair k (queryParams.TokenToBuy ++ "_" ++ c.DefaultBondDenom) with
      | none => some (Except.error "incorrectly formatted request data", k)
      | some tokenPair2 =>
        match CalculateTokenToBuy c tokenPair1 queryParams.SoldToken c.DefaultBondDenom
            (GetParams k) with
        | none => none
        | some nativeToken =>
          match CalculateTokenToBuy c tokenPair2 nativeToken queryParams.TokenToBuy
              (GetParams k) with
          | none => none
          | some tokenBuy => some (Except.ok tokenBuy.Amount, k)

/-- Example store with the token `xxb` registered and no pool yet. -/
def exNoPool : State :=
  { pairs := fun _ => none
    tokens := fun n =>
      if n = "xxb" then some { Symbol := "xxb", OriginalSymbol := "xxb", TokenType := 1 }
      else none
    supply := fun _ => 0
    bal := fun a d =>
      if a = "alice" then (if d = "tokt" ∨ d = "xxb" then 50000000000 else 0) else 0
    params := { FeeRate := 300000 } }

/-- Example request to create the pool of `xxb`. -/
def exCreateMsg : MsgCreateExchange := { Token := "xxb", Sender := "alice" }

/-- Example request to create a pool of the share token `ammswap_xxb`. -/
def exCreateOnShareMsg : MsgCreateExchange := { Token := "ammswap_xxb", Sender := "alice" }

/-- Example routed swap whose sold and bought denominations are the same token:
    `alice` sells 100 of `xxb` for `xxb`, to herself. -/
def exSameTokenMsg : MsgTokenToToken :=
  { SoldTokenAmount := { Denom := "xxb", Amount := 10000000000 }
    MinBoughtTokenAmount := { Denom := "xxb", Amount := 1 }
    Deadline := 200, Recipient := "alice", Sender := "alice" }

/-- Example withdrawal of no share at all from the pool `xxb_tokt`. -/
def exZeroWithdrawal : MsgRemoveLiquidity :=
  { Liquidity := 0
    MinBaseAmount := { Denom := "xxb", Amount := 0 }
    MinQuoteAmount := { Denom := "tokt", Amount := 0 }
    Deadline := 200, Sender := "alice" }

/-- The total amount of denomination `d` in a list of coins. -/
def coinsAmountOf (coins : DecCoins) (d : String) : Dec :=
  (coins.map (fun coin => if coin.Denom = d then coin.Amount else 0)).sum

/-- Reserve bookkeeping matches coin movement between the states `k` and `k'`
    for the pool stored as `p` under `key` in `k`: for each of the two
    denominations of the pool, the change of the stored reserve is the net
    amount of that denomination that reached the pool account. -/
def ReserveMatchesLedger (c : Consts) (k k' : State) (key : String) (p : SwapTokenPair) :
    Prop :=
  ∃ p', GetSwapTokenPair k' key = some p' ∧
    p'.BasePooledCoin.Amount - p.BasePooledCoin.Amount =
      k'.bal c.ModuleAccount p.BasePooledCoin.Denom -
        k.bal c.ModuleAccount p.BasePooledCoin.Denom ∧
    p'.QuotePooledCoin.Amount - p.QuotePooledCoin.Amount =
      k'.bal c.ModuleAccount p.QuotePooledCoin.Denom -
        k.bal c.ModuleAccount p.QuotePooledCoin.Denom

/-! ## The deposit handler over an arbitrary ledger mint -/

/-- Embedding of the part of `handleMsgAddLiquidity` after the amounts are
    computed (source lines 151 to 197), with the ledger call
    `k.MintPoolCoinsToUser` as the parameter `mint`: when the external ledger
    refuses a mint is not decided by the handler.  With `MintPoolCoinsToUser`
    for `mint` it is `addLiquidityFinish`. -/
def addLiquidityFinishWith (mint : State → DecCoins → String → Option State) (c : Consts)
    (k : State) (msg : MsgAddLiquidity) (swapTokenPair : SwapTokenPair) (poolToken : Token)
    (baseTokens : DecCoin) (liquidity : Dec) : Option (Result × State) :=
  if msg.MaxBaseAmount.Amount < baseTokens.Amount then
    failWith CodeType.CodeInternal
      "The required base token amount are greater than MaxBaseAmount" k
  else if liquidity < msg.MinLiquidity then
    failWith CodeType.CodeInternal "The available liquidity is less than MinLiquidity" k
  else
    match SendCoinsToPool c k (coinSort [msg.QuoteAmount, baseTokens]) msg.Sender with
    | none => failWith CodeType.CodeInsufficientCoins "insufficient coins" k
    | some k1 =>
      match swapTokenPair.QuotePooledCoin.Add msg.QuoteAmount with
      | none => none
      | some quote =>
        match swapTokenPair.BasePooledCoin.Add baseTokens with
        | none => none
        | some base =>
          match NewDecCoinFromDec poolToken.Symbol liquidity with
          | none => none
          | some poolCoins =>
            match mint
                (SetSwapTokenPair k1 msg.GetSwapTokenPair
                  { swapTokenPair with QuotePooledCoin := quote, BasePooledCoin := base })
                [poolCoins] msg.Sender with
            | none =>
              failWith CodeType.CodeInternal "failed to mint pool token"
                (SetSwapTokenPair k1 msg.GetSwapTokenPair
                  { swapTokenPair with QuotePooledCoin := quote, BasePooledCoin := base })
            | some k3 => some (okResult, k3)

/-- Embedding of `handleMsgAddLiquidity` with the ledger call
    `k.MintPoolCoinsToUser` as the parameter `mint`.  With `MintPoolCoinsToUser`
    for `mint` it is `handleMsgAddLiquidity`. -/
def handleMsgAddLiquidityWith (mint : State → DecCoins → String → Option State) (c : Consts)
    (ctx : Context) (k : State) (msg : MsgAddLiquidity) : Option (Result × State) :=
  if msg.Deadline < ctx.BlockTime then
    failWith CodeType.CodeInternal "Failed: block time exceeded deadline" k
  else
    match GetSwapTokenPair k msg.GetSwapTokenPair with
    | none => failWith CodeType.CodeInternal "token pair not found" k
    | some swapTokenPair =>
      match GetPoolTokenInfo k swapTokenPair.PoolTokenName with
      | none => failWith CodeType.CodeInternal "failed to get pool token" k
      | some poolToken =>
        if swapTokenPair.QuotePooledCoin.Amount = 0 ∧
            swapTokenPair.BasePooledCoin.Amount = 0 then
          addLiquidityFinishWith mint c k msg swapTokenPair poolToken
            { Denom := msg.MaxBaseAmount.Denom, Amount := msg.MaxBaseAmount.Amount }
            (NewDec c 1)
        else if swapTokenPair.BasePooledCoin.IsPositive ∧
            swapTokenPair.QuotePooledCoin.IsPositive then
          match MulAndQuo msg.QuoteAmount.Amount swapTokenPair.BasePooledCoin.Amount
              swapTokenPair.QuotePooledCoin.Amount with
          | none => none
          | some baseAmount =>
            if GetPoolTokenAmount k swapTokenPair.PoolTokenName = 0 then
              failWith CodeType.CodeInternal "unexpected totalSupply in pool token" k
            else
              match MulAndQuo msg.QuoteAmount.Amount
                  (GetPoolTokenAmount k swapTokenPair.PoolTokenName)
                  swapTokenPair.QuotePooledCoin.Amount with
              | none => none
              | some liquidity =>
                if liquidity = 0 then
                  failWith CodeType.CodeInternal "failed to add liquidity" k
                else
                  addLiquidityFinishWith mint c k msg swapTokenPair poolToken
                    { Denom := msg.MaxBaseAmount.Denom, Amount := baseAmount } liquidity
        else
          failWith CodeType.CodeInternal "invalid token pair" k

/-- Example ledger mint that refuses every request. -/
def exRefusingMint : State → DecCoins → String → Option State :=
  fun _ _ _ => none

/-- Example withdrawal of the whole outstanding share of the example pool. -/
def exFullWithdrawal : MsgRemoveLiquidity :=
  { Liquidity := 100000000
    MinBaseAmount := { Denom := "xxb", Amount := 0 }
    MinQuoteAmount := { Denom := "tokt", Amount := 0 }
    Deadline := 200, Sender := "alice" }

/-- A request is not the withdrawal of a pool's whole share supply: a
    remove-liquidity request asks for strictly less than the total supply of
    the share token of its pool. -/
def Msg.PartialWithdrawal (k : State) : Msg → Prop
  | Msg.RemoveLiquidity msg =>
    ∀ p, GetSwapTokenPair k msg.GetSwapTokenPair = some p →
      msg.Liquidity < GetPoolTokenAmount k p.PoolTokenName
  | _ => True

/-- Both reserves of the pool stored under `n` are strictly positive. -/
def ActivePool (k : State) (n : String) : Prop :=
  ∃ p, GetSwapTokenPair k n = some p ∧
    0 < p.BasePooledCoin.Amount ∧ 0 < p.QuotePooledCoin.Amount

/-- Example corrupted store: the example pool with positive reserves and a
    share supply of zero. -/
def exNoSupply : State :=
  { exState with supply := fun _ => 0 }

/-- Example corrupted store: the pool `xxb_tokt` with a base reserve of zero
    and a quote reserve of 500. -/
def exOneSidedPool : State :=
  { exState with
    pairs := fun n =>
      if n = "xxb_tokt" then
        some
          { QuotePooledCoin := { Denom := "tokt", Amount := 50000000000 }
            BasePooledCoin := { Denom := "xxb", Amount := 0 }
            PoolTokenName := "ammswap_xxb" }
      else none }

/-- Example withdrawal of half the share of the example pool that asks for at
    least 600 of `xxb`; the redemption gives 500. -/
def exGreedyWithdrawal : MsgRemoveLiquidity :=
  { Liquidity := 50000000
    MinBaseAmount := { Denom := "xxb", Amount := 60000000000 }
    MinQuoteAmount := { Denom := "tokt", Amount := 0 }
    Deadline := 200, Sender := "alice" }

/-! ## The token eligibility check (`x/swap/keeper/swap.go`) -/

/-- Embedding of `sdk.Int`, the Cosmos SDK type `type Int struct { i *big.Int }`:
    a struct whose single field is a pointer to a big integer.  The pointer is
    represented by the address it holds. -/
structure SdkInt where
  i : Nat
deriving DecidableEq, Repr

/-- The big integers on the Go heap: the value behind each address, and the
    first address that is not allocated yet (every allocated address is below
    it). -/
structure BigIntHeap where
  value : Nat → Int
  next : Nat

/-- Embedding of `sdk.NewInt(n)` (`Int{big.NewInt(n)}`): allocates a new big
    integer with the value `n` and returns the struct that points to it. -/
def NewInt (h : BigIntHeap) (n : Int) : SdkInt × BigIntHeap :=
  ({ i := h.next },
    { value := fun a => if a = h.next then n else h.value a, next := h.next + 1 })

/-- Embedding of Go's `==` on two values of type `sdk.Int`: struct values are
    compared field by field, and the only field is the pointer, so `==` holds
    exactly when both structs point to the same big integer. -/
def SdkInt.goEq (a b : SdkInt) : Bool := decide (a.i = b.i)

/-- The value of an `sdk.Int`: the big integer its pointer refers to. -/
def SdkInt.val (h : BigIntHeap) (a : SdkInt) : Int := h.value a.i

/-- The token metadata `IsTokenExits` reads: the field `Type`.  The source
    compares it with `sdk.NewInt(2)` by `==`, an expression Go accepts only for
    a field of type `sdk.Int` (or an interface holding one). -/
structure TokenInfo where
  TokenType : SdkInt
deriving DecidableEq, Repr

/-- Modelled from the spec: the token keeper behind `k.tokenKeeper`, the
    TokenRegistry interface with `exists(denom)` and `metadata(denom)`. -/
structure TokenKeeper where
  tokens : String → Option TokenInfo

/-- Modelled from the spec: `tokenKeeper.TokenExist`, `exists(denom)`. -/
def TokenKeeper.TokenExist (tk : TokenKeeper) (token : String) : Bool :=
  (tk.tokens token).isSome

/-- Modelled from the spec: `tokenKeeper.GetTokenInfo`, `metadata(denom)`; the
    zero value for a token that is not registered. -/
def TokenKeeper.GetTokenInfo (tk : TokenKeeper) (token : String) : TokenInfo :=
  (tk.tokens token).getD { TokenType := { i := 0 } }

/-- Embedding of `Keeper.IsTokenExits`: the returned error (`none` is Go's
    `nil`) and the heap after the call. -/
def IsTokenExits (h : BigIntHeap) (tk : TokenKeeper) (token : String) :
    Option String × BigIntHeap :=
  if tk.TokenExist token = false then (some "Failed: token not exits", h)
  else
    if (tk.GetTokenInfo token).TokenType.goEq (NewInt h 2).1 then
      (some "Failed to create exchange with poll token", (NewInt h 2).2)
    else (none, (NewInt h 2).2)

/-- Every pointer held by the token keeper refers to an allocated big
    integer. -/
def TokenKeeper.Allocated (h : BigIntHeap) (tk : TokenKeeper) : Prop :=
  ∀ token t, tk.tokens token = some t → t.TokenType.i < h.next

/-- Example heap: the big integer 2 at address 0 and the big integer 1 at
    address 1. -/
def exHeap : BigIntHeap :=
  { value := fun a => if a = 0 then 2 else if a = 1 then 1 else 0, next := 2 }

/-- Example token keeper: the share token `ammswap_xxb` of type 2 and the token
    `xxb` of type 1. -/
def exTokenKeeper : TokenKeeper :=
  { tokens := fun n =>
      if n = "ammswap_xxb" then some { TokenType := { i := 0 } }
      else if n = "xxb" then some { TokenType := { i := 1 } }
      else none }

/-! ## Signature values (`x/evm/contracts.go`) -/

/-- The constant `secp256k1N`, the order of the secp256k1 group. -/
def secp256k1N : Int :=
  0xfffffffffffffffffffffffffffffffebaaedce6af48a03bbfd25e8cd0364141

/-- The constant `secp256k1halfN`, `new(big.Int).Div(secp256k1N, big.NewInt(2))`. -/
def secp256k1halfN : Int := secp256k1N / 2

/-- Embedding of `ValidateSignatureValues`; `v` is a byte, `r` and `s` are big
    integers and `common.Big1` is the big integer 1. -/
def ValidateSignatureValues (v : Nat) (r s : Int) : Bool :=
  if r < 1 ∨ s < 1 then false
  else if secp256k1halfN < s then false
  else decide (r < secp256k1N) && decide (s < secp256k1N) && (decide (v = 0) || decide (v = 1))

/-! ## The modular exponentiation contract (`x/evm/contracts.go`) -/

/-- A byte of a Go byte slice. -/
abbrev Byte := Fin 256

/-- Embedding of `big.Int.SetBytes`: the value of a byte string read as an
    unsigned big-endian integer. -/
def SetBytes (buf : List Byte) : Nat :=
  buf.foldl (fun acc b => acc * 256 + b.val) 0

/-- Embedding of `big.Int.Bytes` on a non-negative integer: its big-endian
    bytes without leading zeros (no byte for zero). -/
def Bytes (n : Nat) : List Byte :=
  (Nat.digits 256 n).reverse.map (fun d => Fin.ofNat d)

/-- Embedding of `big.Int.Uint64` on a non-negative integer: its low 64
    bits. -/
def Uint64 (n : Nat) : Nat := n % 2 ^ 64

/-- Embedding of the Go conversion `int(x)` of a `uint64` on a 64-bit
    platform: the same 64 bits read as a signed integer. -/
def intOfUint64 (n : Nat) : Int :=
  if n < 2 ^ 63 then (n : Int) else (n : Int) - 2 ^ 64

/-- Embedding of `big.Int.Exp(x, y, m)` on non-negative integers:
    `x ^ y mod m`, and `x ^ y` for the modulus zero. -/
def bigIntExp (x y m : Nat) : Nat :=
  if m = 0 then x ^ y else x ^ y % m

/-- Modelled from the spec: `common.RightPadBytes(slice, l)`, the helper of the
    repository's `x/evm/common` package that is not part of the contract file:
    the slice itself when it has `l` bytes or more, otherwise the slice
    followed by zero bytes up to the length `l`. -/
def RightPadBytes (slice : List Byte) (l : Int) : List Byte :=
  if l ≤ slice.length then slice
  else slice ++ List.replicate (l.toNat - slice.length) 0

/-- Modelled from the spec: `common.LeftPadBytes(slice, l)`, the helper of the
    repository's `x/evm/common` package that is not part of the contract file:
    the slice itself when it has `l` bytes or more, otherwise zero bytes
    followed by the slice, `l` bytes in all. -/
def LeftPadBytes (slice : List Byte) (l : Int) : List Byte :=
  if l ≤ slice.length then slice
  else List.replicate (l.toNat - slice.length) 0 ++ slice

/-- Modelled from the spec: `getData(data, start, size)`, the helper of the
    package that is not part of the contract file: the bytes
    `data[start:end]`, with `start` and `end = start + size` (in `uint64`
    arithmetic) both cut down to the length of `data`, zero-padded on the right
    to `size` bytes.  Slicing with `end` below `start` panics (`none`). -/
def getData (data : List Byte) (start size : Nat) : Option (List Byte) :=
  if min ((min start data.length + size) % 2 ^ 64) data.length < min start data.length then
    none
  else
    some (RightPadBytes
      ((data.take (min ((min start data.length + size) % 2 ^ 64) data.length)).drop
        (min start data.length))
      (intOfUint64 size))

/-- The part of `bigModExp.Run` after the header is read (source lines 241 to
    256): `input` is the input after the 96-byte header. -/
def bigModExp.runOperands (input : List Byte) (baseLen expLen modLen : Nat) :
    Option (Except String (List Byte)) :=
  if baseLen = 0 ∧ modLen = 0 then some (Except.ok [])
  else
    match getData input 0 baseLen with
    | none => none
    | some base =>
      match getData input baseLen expLen with
      | none => none
      | some exp =>
        match getData input ((baseLen + expLen) % 2 ^ 64) modLen with
        | none => none
        | some mod =>
          if SetBytes mod = 0 then
            some (Except.ok (LeftPadBytes [] (intOfUint64 modLen)))
          else
            some (Except.ok
              (LeftPadBytes (Bytes (bigIntExp (SetBytes base) (SetBytes exp) (SetBytes mod)))
                (intOfUint64 modLen)))

/-- Embedding of `bigModExp.Run`: `none` is a panic, `Except.ok` the returned
    byte string with a `nil` error. -/
def bigModExp.Run (input : List Byte) : Option (Except String (List Byte)) :=
  match getData input 0 32 with
  | none => none
  | some b =>
    match getData input 32 32 with
    | none => none
    | some e =>
      match getData input 64 32 with
      | none => none
      | some m =>
        bigModExp.runOperands (if 96 < input.length then input.drop 96 else [])
          (Uint64 (SetBytes b)) (Uint64 (SetBytes e)) (Uint64 (SetBytes m))

/-- The `size` bytes at offset `start` of the byte string `data` padded with
    zero bytes on the right. -/
def readPadded (data : List Byte) (start size : Nat) : List Byte :=
  (data.drop start ++ List.replicate size 0).take size

/-- Example input of `bigModExp.Run`: a 96-byte header declaring one byte each
    for base, exponent and modulus, followed by the bytes 3, 4 and 5. -/
def exModExpInput : List Byte :=
  List.replicate 31 0 ++ [1] ++ List.replicate 31 0 ++ [1] ++ List.replicate 31 0 ++ [1] ++
    [3, 4, 5]

/-- The length of the base the header of `input` declares: the first 32-byte
    word of the zero-right-padded input. -/
def modExpBaseLen (input : List Byte) : Nat := SetBytes (readPadded input 0 32)

/-- The length of the exponent the header of `input` declares: the second
    32-byte word. -/
def modExpExpLen (input : List Byte) : Nat := SetBytes (readPadded input 32 32)

/-- The length of the modulus the header of `input` declares: the third 32-byte
    word. -/
def modExpModLen (input : List Byte) : Nat := SetBytes (readPadded input 64 32)

/-- The base: the first `baseLen` bytes of the zero-right-padded input after
    the 96-byte header. -/
def modExpBase (input : List Byte) : Nat :=
  SetBytes (readPadded (input.drop 96) 0 (modExpBaseLen input))

/-- The exponent: the `expLen` bytes after the base. -/
def modExpExp (input : List Byte) : Nat :=
  SetBytes (readPadded (input.drop 96) (modExpBaseLen input) (modExpExpLen input))

/-- The modulus: the `modLen` bytes after the exponent. -/
def modExpMod (input : List Byte) : Nat :=
  SetBytes (readPadded (input.drop 96) (modExpBaseLen input + modExpExpLen input)
    (modExpModLen input))

/-- Example input of `bigModExp.Run` whose header declares a base and an
    exponent of no bytes and a modulus of `2^63` bytes; nothing follows the
    header. -/
def exLargeModLenInput : List Byte :=
  List.replicate 64 0 ++ List.replicate 24 0 ++ [128] ++ List.replicate 7 0

/-! ## Arithmetic of the pricing engine -/

theorem OneDec_pos (c : Consts) : 0 < OneDec c := by
  unfold OneDec; positivity

theorem tdiv_bounds {a b : Int} (ha : 0 ≤ a) (hb : 0 < b) :
    0 ≤ a.tdiv b ∧ a.tdiv b * b ≤ a ∧ a < (a.tdiv b + 1) * b := by
  refine ⟨Int.tdiv_nonneg ha hb.le, ?_, Int.lt_tdiv_add_one_mul_self a hb⟩
  rw [Int.tdiv_eq_ediv ha hb.le]
  exact Int.ediv_mul_le a hb.ne'

theorem MulTruncate_fee_bounds (c : Consts) {sold fee : Dec} (hs : 0 ≤ sold)
    (hf0 : 0 ≤ fee) (hf1 : fee < OneDec c) :
    0 ≤ MulTruncate c sold (OneDec c - fee) ∧ MulTruncate c sold (OneDec c - fee) ≤ sold := by
  have hS := OneDec_pos c
  have hprod : 0 ≤ sold * (OneDec c - fee) := mul_nonneg hs (by linarith)
  obtain ⟨h0, h1, h2⟩ := tdiv_bounds hprod hS
  refine ⟨h0, ?_⟩
  unfold MulTruncate
  by_contra hlt
  push_neg at hlt
  have : (sold + 1) * OneDec c ≤ (sold * (OneDec c - fee)).tdiv (OneDec c) * OneDec c :=
    mul_le_mul_of_nonneg_right (by linarith) hS.le
  nlinarith

theorem GetInputPrice_spec (c : Consts) {sold rin rout fee : Dec} (hin : 0 < rin)
    (hout : 0 < rout) (hf0 : 0 ≤ fee) (hf1 : fee < OneDec c) (hs : 0 ≤ sold) :
    ∃ bought, GetInputPrice c sold rin rout fee = some bought ∧ 0 ≤ bought ∧ bought < rout ∧
      rin * rout ≤ (rin + sold) * (rout - bought) := by
  obtain ⟨he0, he1⟩ := MulTruncate_fee_bounds c hs hf0 hf1
  unfold GetInputPrice
  by_cases hz : MulTruncate c sold (OneDec c - fee) = 0
  · refine ⟨0, by simp [hz], le_refl _, hout, ?_⟩
    nlinarith
  · have hne : rin ≠ 0 := hin.ne'
    have hden : 0 < rin + MulTruncate c sold (OneDec c - fee) := by linarith
    obtain ⟨h0, h1, h2⟩ := tdiv_bounds
      (mul_nonneg hout.le he0) hden
    have hlt : (rout * MulTruncate c sold (OneDec c - fee)).tdiv
        (rin + MulTruncate c sold (OneDec c - fee)) < rout := by nlinarith
    refine ⟨_, by simp [hz, hne, MulAndQuo, hden.ne'], h0, hlt, ?_⟩
    nlinarith [mul_nonneg (sub_nonneg.2 hlt.le) (sub_nonneg.2 he1)]

theorem swapTokenNativeToken_ok {c : Consts} {k k' : State} {p : SwapTokenPair}
    {tokenBuy : DecCoin} {msg : MsgTokenToToken} {res : Result}
    (h : swapTokenNativeToken c k p tokenBuy msg = some (res, k')) (hok : res.IsOK = true) :
    ∃ k1 k2, SendCoinsToPool c k [msg.SoldTokenAmount] msg.Sender = some k1 ∧
      SendCoinsFromPoolToAccount c k1 [tokenBuy] msg.Recipient = some k2 ∧
      k' = SetSwapTokenPair k2 (msg.GetSwapTokenPair c) (swappedPair c p tokenBuy msg) ∧
      (if msg.SoldTokenAmount.Denom = c.DefaultBondDenom then
        p.QuotePooledCoin.Denom = msg.SoldTokenAmount.Denom ∧
          p.BasePooledCoin.Denom = tokenBuy.Denom
      else
        p.QuotePooledCoin.Denom = tokenBuy.Denom ∧
          p.BasePooledCoin.Denom = msg.SoldTokenAmount.Denom) := by
  unfold swapTokenNativeToken at h
  cases h1 : SendCoinsToPool c k [msg.SoldTokenAmount] msg.Sender with
  | none =>
    simp only [h1, failWith, Option.some.injEq, Prod.mk.injEq] at h
    rw [← h.1] at hok
    simp [Result.IsOK] at hok
  | some k1 =>
    simp only [h1] at h
    cases h2 : SendCoinsFromPoolToAccount c k1 [tokenBuy] msg.Recipient with
    | none =>
      simp only [h2, failWith, Option.some.injEq, Prod.mk.injEq] at h
      rw [← h.1] at hok
      simp [Result.IsOK] at hok
    | some k2 =>
      simp only [h2] at h
      refine ⟨k1, k2, rfl, h2, ?_⟩
      unfold swappedPair
      by_cases hd : msg.SoldTokenAmount.Denom = c.DefaultBondDenom
      · simp only [hd, if_true, DecCoin.Add, DecCoin.Sub] at h ⊢
        by_cases hq : p.QuotePooledCoin.Denom = c.DefaultBondDenom
        · by_cases hb : p.BasePooledCoin.Denom = tokenBuy.Denom
          · simp only [hq, hb, if_true, Option.some.injEq, Prod.mk.injEq] at h
            simp [← h.2, hq, hb]
          · simp [hq, hb] at h
        · simp [hq] at h
      · simp only [hd, if_false, DecCoin.Add, DecCoin.Sub] at h ⊢
        by_cases hq : p.QuotePooledCoin.Denom = tokenBuy.Denom
        · by_cases hb : p.BasePooledCoin.Denom = msg.SoldTokenAmount.Denom
          · simp only [hq, hb, if_true, Option.some.injEq, Prod.mk.injEq] at h
            simp [← h.2, hq, hb]
          · simp [hq, hb] at h
        · simp [hq] at h


theorem failWith_not_ok {code : CodeType} {log : String} {k k' : State} {res : Result}
    (hcode : code ≠ CodeType.CodeOK) (h : failWith code log k = some (res, k'))
    (hok : res.IsOK = true) : False := by
  simp only [failWith, Option.some.injEq, Prod.mk.injEq] at h
  rw [← h.1] at hok
  simp [Result.IsOK, hcode] at hok

theorem handleMsgTokenToNativeToken_ok {c : Consts} {ctx : Context} {k k' : State}
    {msg : MsgTokenToToken} {res : Result}
    (h : handleMsgTokenToNativeToken c ctx k msg = some (res, k')) (hok : res.IsOK = true) :
    ∃ p tokenBuy res1, HasSufficientCoins (k.bal msg.Sender) [msg.SoldTokenAmount] = true ∧
      ¬ msg.Deadline < ctx.BlockTime ∧
      GetSwapTokenPair k (msg.GetSwapTokenPair c) = some p ∧
      CalculateTokenToBuy c p msg.SoldTokenAmount msg.MinBoughtTokenAmount.Denom (GetParams k)
        = some tokenBuy ∧
      tokenBuy.Amount ≠ 0 ∧ msg.MinBoughtTokenAmount.Amount ≤ tokenBuy.Amount ∧
      swapTokenNativeToken c k p tokenBuy msg = some (res1, k') ∧ res1.IsOK = true := by
  unfold handleMsgTokenToNativeToken at h
  by_cases hs : HasSufficientCoins (k.bal msg.Sender) [msg.SoldTokenAmount] = false
  · rw [if_pos hs] at h
    exact (failWith_not_ok (by decide) h hok).elim
  rw [if_neg hs] at h
  by_cases hdl : msg.Deadline < ctx.BlockTime
  · rw [if_pos hdl] at h
    exact (failWith_not_ok (by decide) h hok).elim
  rw [if_neg hdl] at h
  cases hp : GetSwapTokenPair k (msg.GetSwapTokenPair c) with
  | none =>
    simp only [hp] at h
    exact (failWith_not_ok (by decide) h hok).elim
  | some p =>
    simp only [hp] at h
    cases hb : CalculateTokenToBuy c p msg.SoldTokenAmount msg.MinBoughtTokenAmount.Denom
        (GetParams k) with
    | none => simp [hb] at h
    | some tokenBuy =>
      simp only [hb] at h
      by_cases hz : tokenBuy.IsZero = true
      · rw [if_pos hz] at h
        exact (failWith_not_ok (by decide) h hok).elim
      rw [if_neg hz] at h
      by_cases hm : tokenBuy.Amount < msg.MinBoughtTokenAmount.Amount
      · rw [if_pos hm] at h
        exact (failWith_not_ok (by decide) h hok).elim
      rw [if_neg hm] at h
      cases hsw : swapTokenNativeToken c k p tokenBuy msg with
      | none => simp [hsw] at h
      | some r =>
        obtain ⟨res1, k1⟩ := r
        simp only [hsw] at h
        by_cases hr : res1.IsOK = false
        · rw [if_pos hr] at h
          simp only [Option.some.injEq, Prod.mk.injEq] at h
          rw [h.1] at hr
          simp [hr] at hok
        · rw [if_neg hr] at h
          simp only [Option.some.injEq, Prod.mk.injEq] at h
          refine ⟨p, tokenBuy, res1, by simpa using hs, hdl, rfl, hb, ?_, not_lt.1 hm, ?_, by simpa using hr⟩
          · simpa [DecCoin.IsZero] using hz
          · rw [← h.2]; exact hsw

theorem CalculateTokenToBuy_eq (c : Consts) (p : SwapTokenPair) (sell : DecCoin)
    (denom : String) (params : Params) :
    CalculateTokenToBuy c p sell denom params =
      (GetInputPrice c sell.Amount (reserveIn c p sell.Denom) (reserveOut c p sell.Denom)
        params.FeeRate).map (fun amount => { Denom := denom, Amount := amount }) := by
  unfold CalculateTokenToBuy reserveIn reserveOut
  by_cases hd : sell.Denom = c.DefaultBondDenom
  · simp only [hd, if_true]
    cases GetInputPrice c sell.Amount p.QuotePooledCoin.Amount p.BasePooledCoin.Amount
      params.FeeRate <;> rfl
  · simp only [hd, if_false]
    cases GetInputPrice c sell.Amount p.BasePooledCoin.Amount p.QuotePooledCoin.Amount
      params.FeeRate <;> rfl

theorem GetSwapTokenPair_Set (k : State) (name : String) (p : SwapTokenPair) (n : String) :
    GetSwapTokenPair (SetSwapTokenPair k name p) n =
      if n = name then some p else GetSwapTokenPair k n := by
  simp [GetSwapTokenPair, SetSwapTokenPair]

theorem swappedPair_reserves (c : Consts) (p : SwapTokenPair) (tokenBuy : DecCoin)
    (msg : MsgTokenToToken) :
    reserveIn c (swappedPair c p tokenBuy msg) msg.SoldTokenAmount.Denom =
        reserveIn c p msg.SoldTokenAmount.Denom + msg.SoldTokenAmount.Amount ∧
      reserveOut c (swappedPair c p tokenBuy msg) msg.SoldTokenAmount.Denom =
        reserveOut c p msg.SoldTokenAmount.Denom - tokenBuy.Amount := by
  unfold reserveIn reserveOut swappedPair
  by_cases hd : msg.SoldTokenAmount.Denom = c.DefaultBondDenom <;> simp [hd]

theorem reserve_product (c : Consts) (p : SwapTokenPair) (d : String) :
    p.BasePooledCoin.Amount * p.QuotePooledCoin.Amount = reserveIn c p d * reserveOut c p d := by
  unfold reserveIn reserveOut
  by_cases hd : d = c.DefaultBondDenom <;> simp [hd, mul_comm]

/-- C1. Swap monotonicity.  For positive reserves, a fee rate in `[0,1)` and a
    positive sold amount the pricing engine returns a bought amount with
    `(reserve_in + sold) * (reserve_out - bought) >= reserve_in * reserve_out`;
    and every successful direct swap on a pool with these reserves stores
    the reserves `reserve_in + sold` and `reserve_out - bought`, so the product
    of the stored reserves is not smaller than before the swap. -/
theorem C1_swap_monotonicity (c : Consts) (rin rout fee sold : Dec) (hin : 0 < rin)
    (hout : 0 < rout) (hf0 : 0 ≤ fee) (hf1 : fee < OneDec c) (hsold : 0 < sold) :
    ∃ bought, GetInputPrice c sold rin rout fee = some bought ∧
      rin * rout ≤ (rin + sold) * (rout - bought) ∧
      ∀ (ctx : Context) (k k' : State) (msg : MsgTokenToToken) (p : SwapTokenPair)
        (res : Result),
        GetSwapTokenPair k (msg.GetSwapTokenPair c) = some p →
        reserveIn c p msg.SoldTokenAmount.Denom = rin →
        reserveOut c p msg.SoldTokenAmount.Denom = rout →
        (GetParams k).FeeRate = fee → msg.SoldTokenAmount.Amount = sold →
        handleMsgTokenToNativeToken c ctx k msg = some (res, k') → res.IsOK = true →
        ∃ p', GetSwapTokenPair k' (msg.GetSwapTokenPair c) = some p' ∧
          reserveIn c p' msg.SoldTokenAmount.Denom = rin + sold ∧
          reserveOut c p' msg.SoldTokenAmount.Denom = rout - bought ∧
          p.BasePooledCoin.Amount * p.QuotePooledCoin.Amount ≤
            p'.BasePooledCoin.Amount * p'.QuotePooledCoin.Amount := by
  obtain ⟨bought, hprice, -, -, hmono⟩ := GetInputPrice_spec c hin hout hf0 hf1 hsold.le
  refine ⟨bought, hprice, hmono, ?_⟩
  intro ctx k k' msg p res hp hrin hrout hfee hs hrun hok
  obtain ⟨p0, tokenBuy, res1, -, -, hp0, hcalc, -, -, hsw, hok1⟩ :=
    handleMsgTokenToNativeToken_ok hrun hok
  rw [hp] at hp0
  obtain rfl : p = p0 := by simpa using hp0
  rw [CalculateTokenToBuy_eq, hrin, hrout, hfee, hs, hprice] at hcalc
  obtain rfl : tokenBuy = { Denom := msg.MinBoughtTokenAmount.Denom, Amount := bought } := by
    simpa using hcalc.symm
  obtain ⟨k1, k2, -, -, rfl, -⟩ := swapTokenNativeToken_ok hsw hok1
  obtain ⟨h1, h2⟩ := swappedPair_reserves c p
    { Denom := msg.MinBoughtTokenAmount.Denom, Amount := bought } msg
  refine ⟨_, by rw [GetSwapTokenPair_Set, if_pos rfl], ?_, ?_, ?_⟩
  · rw [h1, hrin, hs]
  · rw [h2, hrout]
  · rw [reserve_product c p msg.SoldTokenAmount.Denom,
      reserve_product c _ msg.SoldTokenAmount.Denom, h1, h2, hrin, hrout, hs]
    exact hmono

/-- Witness of C1: 100 of the reserve token sold into the example pool. -/
theorem C1_swap_monotonicity_witness :
    ∃ bought, GetInputPrice exConsts 10000000000 100000000000 100000000000 300000 =
        some bought ∧
      (100000000000 : Int) * 100000000000 ≤
        (100000000000 + 10000000000) * (100000000000 - bought) ∧
      ∃ r p', handleMsgTokenToNativeToken exConsts exCtx exState exSwapMsg = some r ∧
        r.1.IsOK = true ∧ GetSwapTokenPair r.2 "xxb_tokt" = some p' ∧
        exPool.BasePooledCoin.Amount * exPool.QuotePooledCoin.Amount ≤
          p'.BasePooledCoin.Amount * p'.QuotePooledCoin.Amount := by
  obtain ⟨bought, h1, h2, h3⟩ := C1_swap_monotonicity exConsts 100000000000 100000000000
    300000 10000000000 (by decide) (by decide) (by decide) (by decide) (by decide)
  refine ⟨bought, h1, h2, ?_⟩
  obtain ⟨r, hr, hok⟩ : ∃ r, handleMsgTokenToNativeToken exConsts exCtx exState exSwapMsg
      = some r ∧ r.1.IsOK = true := ⟨_, rfl, rfl⟩
  obtain ⟨p', hp', -, -, hprod⟩ := h3 exCtx exState r.2 exSwapMsg exPool r.1 (by decide)
    (by decide) (by decide) (by decide) (by decide) hr hok
  exact ⟨r, p', hr, hok, hp', hprod⟩

/-! ## Ledger and keeper lemmas -/

theorem SendCoinsToPool_frame {c : Consts} {k k1 : State} {coins : DecCoins} {addr : String}
    (h : SendCoinsToPool c k coins addr = some k1) :
    k1.pairs = k.pairs ∧ k1.tokens = k.tokens ∧ k1.supply = k.supply ∧ k1.params = k.params := by
  unfold SendCoinsToPool at h
  cases hs : sendCoins k.bal addr c.ModuleAccount coins with
  | none => simp [hs] at h
  | some b =>
    simp only [hs, Option.some.injEq] at h
    subst h
    exact ⟨rfl, rfl, rfl, rfl⟩

theorem SendCoinsFromPoolToAccount_frame {c : Consts} {k k1 : State} {coins : DecCoins}
    {addr : String} (h : SendCoinsFromPoolToAccount c k coins addr = some k1) :
    k1.pairs = k.pairs ∧ k1.tokens = k.tokens ∧ k1.supply = k.supply ∧ k1.params = k.params := by
  unfold SendCoinsFromPoolToAccount at h
  cases hs : sendCoins k.bal c.ModuleAccount addr coins with
  | none => simp [hs] at h
  | some b =>
    simp only [hs, Option.some.injEq] at h
    subst h
    exact ⟨rfl, rfl, rfl, rfl⟩

theorem sendCoins_single {bal bal1 : String → String → Dec} {src dst : String} {coin : DecCoin}
    (h : sendCoins bal src dst [coin] = some bal1) :
    0 < coin.Amount ∧ coin.Amount ≤ bal src coin.Denom ∧
      bal1 = addBal (addBal bal src coin.Denom (-coin.Amount)) dst coin.Denom coin.Amount := by
  simp only [sendCoins, sendCoin] at h
  by_cases hc : 0 < coin.Amount ∧ coin.Amount ≤ bal src coin.Denom
  · simp only [hc, and_self, if_true, Option.some.injEq] at h
    exact ⟨hc.1, hc.2, h.symm⟩
  · simp [hc] at h

theorem SendCoinsToPool_single {c : Consts} {k k1 : State} {coin : DecCoin} {addr : String}
    (h : SendCoinsToPool c k [coin] addr = some k1) :
    0 < coin.Amount ∧ coin.Amount ≤ k.bal addr coin.Denom ∧
      k1 =
        { k with
          bal := addBal (addBal k.bal addr coin.Denom (-coin.Amount)) c.ModuleAccount
            coin.Denom coin.Amount } := by
  unfold SendCoinsToPool at h
  cases hs : sendCoins k.bal addr c.ModuleAccount [coin] with
  | none => simp [hs] at h
  | some b =>
    simp only [hs, Option.some.injEq] at h
    obtain ⟨h1, h2, h3⟩ := sendCoins_single hs
    exact ⟨h1, h2, by rw [← h, h3]⟩

theorem SendCoinsFromPoolToAccount_single {c : Consts} {k k1 : State} {coin : DecCoin}
    {addr : String} (h : SendCoinsFromPoolToAccount c k [coin] addr = some k1) :
    0 < coin.Amount ∧ coin.Amount ≤ k.bal c.ModuleAccount coin.Denom ∧
      k1 =
        { k with
          bal := addBal (addBal k.bal c.ModuleAccount coin.Denom (-coin.Amount)) addr
            coin.Denom coin.Amount } := by
  unfold SendCoinsFromPoolToAccount at h
  cases hs : sendCoins k.bal c.ModuleAccount addr [coin] with
  | none => simp [hs] at h
  | some b =>
    simp only [hs, Option.some.injEq] at h
    obtain ⟨h1, h2, h3⟩ := sendCoins_single hs
    exact ⟨h1, h2, by rw [← h, h3]⟩

theorem MintPoolCoinsToUser_single {k k1 : State} {coin : DecCoin} {addr : String}
    (h : MintPoolCoinsToUser k [coin] addr = some k1) :
    0 < coin.Amount ∧
      k1 =
        { k with
          supply := fun d => if d = coin.Denom then k.supply d + coin.Amount else k.supply d
          bal := addBal k.bal addr coin.Denom coin.Amount } := by
  simp only [MintPoolCoinsToUser, mintCoin] at h
  by_cases hc : 0 < coin.Amount
  · simp only [hc, if_true, Option.some.injEq] at h
    exact ⟨hc, h.symm⟩
  · simp [hc] at h

theorem MintPoolCoinsToUser_none {k : State} {coin : DecCoin} {addr : String}
    (h : MintPoolCoinsToUser k [coin] addr = none) : coin.Amount ≤ 0 := by
  simp only [MintPoolCoinsToUser, mintCoin] at h
  by_cases hc : 0 < coin.Amount
  · simp [hc] at h
  · exact not_lt.1 hc

theorem BurnPoolCoinsFromUser_single {k k1 : State} {coin : DecCoin} {addr : String}
    (h : BurnPoolCoinsFromUser k [coin] addr = some k1) :
    0 < coin.Amount ∧ coin.Amount ≤ k.bal addr coin.Denom ∧
      k1 =
        { k with
          supply := fun d => if d = coin.Denom then k.supply d - coin.Amount else k.supply d
          bal := addBal k.bal addr coin.Denom (-coin.Amount) } := by
  simp only [BurnPoolCoinsFromUser, burnCoin] at h
  by_cases hc : 0 < coin.Amount ∧ coin.Amount ≤ k.bal addr coin.Denom
  · simp only [hc, and_self, if_true, Option.some.injEq] at h
    exact ⟨hc.1, hc.2, h.symm⟩
  · simp [hc] at h

/-! ## Inversion of the swap handlers on failure -/

theorem swapTokenNativeToken_fail {c : Consts} {k k' : State} {p : SwapTokenPair}
    {tokenBuy : DecCoin} {msg : MsgTokenToToken} {res : Result}
    (h : swapTokenNativeToken c k p tokenBuy msg = some (res, k')) (hnok : res.IsOK = false) :
    (SendCoinsToPool c k [msg.SoldTokenAmount] msg.Sender = none ∧ k' = k) ∨
      (SendCoinsToPool c k [msg.SoldTokenAmount] msg.Sender = some k' ∧
        SendCoinsFromPoolToAccount c k' [tokenBuy] msg.Recipient = none) := by
  unfold swapTokenNativeToken at h
  cases h1 : SendCoinsToPool c k [msg.SoldTokenAmount] msg.Sender with
  | none =>
    simp only [h1, failWith, Option.some.injEq, Prod.mk.injEq] at h
    exact Or.inl ⟨rfl, h.2.symm⟩
  | some k1 =>
    simp only [h1] at h
    cases h2 : SendCoinsFromPoolToAccount c k1 [tokenBuy] msg.Recipient with
    | none =>
      simp only [h2, failWith, Option.some.injEq, Prod.mk.injEq] at h
      refine Or.inr ⟨by rw [h.2], by rw [← h.2]; exact h2⟩
    | some k2 =>
      simp only [h2] at h
      exfalso
      have hres : res = okResult := by
        by_cases hd : msg.SoldTokenAmount.Denom = c.DefaultBondDenom
        · simp only [hd, if_true] at h
          cases ha : p.QuotePooledCoin.Add msg.SoldTokenAmount with
          | none => simp [ha] at h
          | some q =>
            simp only [ha] at h
            cases hb : p.BasePooledCoin.Sub tokenBuy with
            | none => simp [hb] at h
            | some b =>
              simp only [hb, Option.some.injEq, Prod.mk.injEq] at h
              exact h.1.symm
        · simp only [hd, if_false] at h
          cases ha : p.QuotePooledCoin.Sub tokenBuy with
          | none => simp [ha] at h
          | some q =>
            simp only [ha] at h
            cases hb : p.BasePooledCoin.Add msg.SoldTokenAmount with
            | none => simp [hb] at h
            | some b =>
              simp only [hb, Option.some.injEq, Prod.mk.injEq] at h
              exact h.1.symm
      rw [hres] at hnok
      simp [okResult, Result.IsOK] at hnok

theorem handleMsgTokenToNativeToken_fail {c : Consts} {ctx : Context} {k k' : State}
    {msg : MsgTokenToToken} {res : Result}
    (h : handleMsgTokenToNativeToken c ctx k msg = some (res, k')) (hnok : res.IsOK = false) :
    k' = k ∨ ∃ p tokenBuy,
      GetSwapTokenPair k (msg.GetSwapTokenPair c) = some p ∧
      CalculateTokenToBuy c p msg.SoldTokenAmount msg.MinBoughtTokenAmount.Denom (GetParams k)
        = some tokenBuy ∧
      tokenBuy.Amount ≠ 0 ∧ msg.MinBoughtTokenAmount.Amount ≤ tokenBuy.Amount ∧
      swapTokenNativeToken c k p tokenBuy msg = some (res, k') := by
  unfold handleMsgTokenToNativeToken at h
  by_cases hs : HasSufficientCoins (k.bal msg.Sender) [msg.SoldTokenAmount] = false
  · rw [if_pos hs] at h
    simp only [failWith, Option.some.injEq, Prod.mk.injEq] at h
    exact Or.inl h.2.symm
  rw [if_neg hs] at h
  by_cases hdl : msg.Deadline < ctx.BlockTime
  · rw [if_pos hdl] at h
    simp only [failWith, Option.some.injEq, Prod.mk.injEq] at h
    exact Or.inl h.2.symm
  rw [if_neg hdl] at h
  cases hp : GetSwapTokenPair k (msg.GetSwapTokenPair c) with
  | none =>
    simp only [hp, failWith, Option.some.injEq, Prod.mk.injEq] at h
    exact Or.inl h.2.symm
  | some p =>
    simp only [hp] at h
    cases hb : CalculateTokenToBuy c p msg.SoldTokenAmount msg.MinBoughtTokenAmount.Denom
        (GetParams k) with
    | none => simp [hb] at h
    | some tokenBuy =>
      simp only [hb] at h
      by_cases hz : tokenBuy.IsZero = true
      · rw [if_pos hz] at h
        simp only [failWith, Option.some.injEq, Prod.mk.injEq] at h
        exact Or.inl h.2.symm
      rw [if_neg hz] at h
      by_cases hm : tokenBuy.Amount < msg.MinBoughtTokenAmount.Amount
      · rw [if_pos hm] at h
        simp only [failWith, Option.some.injEq, Prod.mk.injEq] at h
        exact Or.inl h.2.symm
      rw [if_neg hm] at h
      cases hsw : swapTokenNativeToken c k p tokenBuy msg with
      | none => simp [hsw] at h
      | some r =>
        obtain ⟨res1, k1⟩ := r
        simp only [hsw] at h
        by_cases hr : res1.IsOK = false
        · rw [if_pos hr] at h
          simp only [Option.some.injEq, Prod.mk.injEq] at h
          refine Or.inr ⟨p, tokenBuy, rfl, hb, ?_, not_lt.1 hm, ?_⟩
          · simpa [DecCoin.IsZero] using hz
          · rw [← h.1, ← h.2]; exact hsw
        · rw [if_neg hr] at h
          simp only [Option.some.injEq, Prod.mk.injEq] at h
          rw [← h.1] at hnok
          simp [okResult, Result.IsOK] at hnok

theorem handleMsgTokenToToken_cases {c : Consts} {ctx : Context} {k k' : State}
    {msg : MsgTokenToToken} {res : Result}
    (h : handleMsgTokenToToken c ctx k msg = some (res, k')) :
    (res.IsOK = false ∧ k' = k) ∨
    ∃ p1 p2 tokenNative tokenBuy res1 k1,
      ¬ msg.Deadline < ctx.BlockTime ∧
      HasSufficientCoins (k.bal msg.Sender) [msg.SoldTokenAmount] = true ∧
      GetSwapTokenPair k (msg.SoldTokenAmount.Denom ++ "_" ++ c.DefaultBondDenom) = some p1 ∧
      GetSwapTokenPair k (msg.MinBoughtTokenAmount.Denom ++ "_" ++ c.DefaultBondDenom)
        = some p2 ∧
      CalculateTokenToBuy c p1 msg.SoldTokenAmount c.DefaultBondDenom (GetParams k)
        = some tokenNative ∧
      tokenNative.Amount ≠ 0 ∧
      CalculateTokenToBuy c p2 tokenNative msg.MinBoughtTokenAmount.Denom (GetParams k)
        = some tokenBuy ∧
      tokenBuy.Amount ≠ 0 ∧ msg.MinBoughtTokenAmount.Amount ≤ tokenBuy.Amount ∧
      swapTokenNativeToken c k p1 tokenNative (msgOne c msg) = some (res1, k1) ∧
      ((res1.IsOK = false ∧ res = res1 ∧ k' = k1) ∨
        (res1.IsOK = true ∧ ∃ res2,
          swapTokenNativeToken c k1 p2 tokenBuy (msgTwo msg tokenNative) = some (res2, k') ∧
          res.IsOK = res2.IsOK)) := by
  unfold handleMsgTokenToToken at h
  by_cases hdl : msg.Deadline < ctx.BlockTime
  · rw [if_pos hdl] at h
    simp only [failWith, Option.some.injEq, Prod.mk.injEq] at h
    exact Or.inl ⟨by rw [← h.1]; rfl, h.2.symm⟩
  rw [if_neg hdl] at h
  by_cases hs : HasSufficientCoins (k.bal msg.Sender) [msg.SoldTokenAmount] = false
  · rw [if_pos hs] at h
    simp only [failWith, Option.some.injEq, Prod.mk.injEq] at h
    exact Or.inl ⟨by rw [← h.1]; rfl, h.2.symm⟩
  rw [if_neg hs] at h
  cases hp1 : GetSwapTokenPair k (msg.SoldTokenAmount.Denom ++ "_" ++ c.DefaultBondDenom) with
  | none =>
    simp only [hp1, failWith, Option.some.injEq, Prod.mk.injEq] at h
    exact Or.inl ⟨by rw [← h.1]; rfl, h.2.symm⟩
  | some p1 =>
    simp only [hp1] at h
    cases hp2 : GetSwapTokenPair k
        (msg.MinBoughtTokenAmount.Denom ++ "_" ++ c.DefaultBondDenom) with
    | none =>
      simp only [hp2, failWith, Option.some.injEq, Prod.mk.injEq] at h
      exact Or.inl ⟨by rw [← h.1]; rfl, h.2.symm⟩
    | some p2 =>
      simp only [hp2] at h
      have e1 : (msgOne c msg).SoldTokenAmount = msg.SoldTokenAmount := rfl
      have e2 : (msgOne c msg).MinBoughtTokenAmount.Denom = c.DefaultBondDenom := rfl
      rw [e1, e2] at h
      cases hn : CalculateTokenToBuy c p1 msg.SoldTokenAmount c.DefaultBondDenom
          (GetParams k) with
      | none => simp [hn] at h
      | some tokenNative =>
        simp only [hn] at h
        by_cases hz1 : tokenNative.IsZero = true
        · rw [if_pos hz1] at h
          simp only [failWith, Option.some.injEq, Prod.mk.injEq] at h
          exact Or.inl ⟨by rw [← h.1]; rfl, h.2.symm⟩
        rw [if_neg hz1] at h
        have e3 : (msgTwo msg tokenNative).SoldTokenAmount = tokenNative := rfl
        have e4 : (msgTwo msg tokenNative).MinBoughtTokenAmount.Denom =
            msg.MinBoughtTokenAmount.Denom := rfl
        rw [e3, e4] at h
        cases hb : CalculateTokenToBuy c p2 tokenNative msg.MinBoughtTokenAmount.Denom
            (GetParams k) with
        | none => simp [hb] at h
        | some tokenBuy =>
          simp only [hb] at h
          by_cases hz2 : tokenBuy.IsZero = true
          · rw [if_pos hz2] at h
            simp only [failWith, Option.some.injEq, Prod.mk.injEq] at h
            exact Or.inl ⟨by rw [← h.1]; rfl, h.2.symm⟩
          rw [if_neg hz2] at h
          by_cases hm : tokenBuy.Amount < msg.MinBoughtTokenAmount.Amount
          · rw [if_pos hm] at h
            simp only [failWith, Option.some.injEq, Prod.mk.injEq] at h
            exact Or.inl ⟨by rw [← h.1]; rfl, h.2.symm⟩
          rw [if_neg hm] at h
          cases hsw1 : swapTokenNativeToken c k p1 tokenNative (msgOne c msg) with
          | none => simp [hsw1] at h
          | some r1 =>
            obtain ⟨res1, k1⟩ := r1
            simp only [hsw1] at h
            refine Or.inr ⟨p1, p2, tokenNative, tokenBuy, res1, k1, hdl, by simpa using hs, rfl,
              rfl, hn, by simpa [DecCoin.IsZero] using hz1, hb,
              by simpa [DecCoin.IsZero] using hz2, not_lt.1 hm, hsw1, ?_⟩
            by_cases hr1 : res1.IsOK = false
            · rw [if_pos hr1] at h
              simp only [Option.some.injEq, Prod.mk.injEq] at h
              exact Or.inl ⟨hr1, h.1.symm, h.2.symm⟩
            · rw [if_neg hr1] at h
              refine Or.inr ⟨by simpa using hr1, ?_⟩
              cases hsw2 : swapTokenNativeToken c k1 p2 tokenBuy (msgTwo msg tokenNative) with
              | none => simp [hsw2] at h
              | some r2 =>
                obtain ⟨res2, k2⟩ := r2
                simp only [hsw2] at h
                by_cases hr2 : res2.IsOK = false
                · rw [if_pos hr2] at h
                  simp only [Option.some.injEq, Prod.mk.injEq] at h
                  exact ⟨res2, by rw [h.2], by rw [h.1]⟩
                · rw [if_neg hr2] at h
                  simp only [Option.some.injEq, Prod.mk.injEq] at h
                  refine ⟨res2, by rw [h.2], ?_⟩
                  rw [← h.1]
                  simpa [okResult, Result.IsOK] using hr2

/-! ## Inversion of the liquidity handlers -/

theorem addedPair_eq (p : SwapTokenPair) (q b : Dec) {dq db : String}
    (hq : p.QuotePooledCoin.Denom = dq) (hb : p.BasePooledCoin.Denom = db) :
    SwapTokenPair.mk (DecCoin.mk dq (p.QuotePooledCoin.Amount + q))
      (DecCoin.mk db (p.BasePooledCoin.Amount + b)) p.PoolTokenName = addedPair p q b := by
  subst hq hb
  rfl

theorem removedPair_eq (p : SwapTokenPair) (q b : Dec) {dq db : String}
    (hq : p.QuotePooledCoin.Denom = dq) (hb : p.BasePooledCoin.Denom = db) :
    SwapTokenPair.mk (DecCoin.mk dq (p.QuotePooledCoin.Amount - q))
      (DecCoin.mk db (p.BasePooledCoin.Amount - b)) p.PoolTokenName = removedPair p q b := by
  subst hq hb
  rfl

theorem addLiquidityFinish_cases {c : Consts} {k k' : State} {msg : MsgAddLiquidity}
    {p : SwapTokenPair} {poolToken : Token} {baseTokens : DecCoin} {liquidity : Dec}
    {res : Result}
    (h : addLiquidityFinish c k msg p poolToken baseTokens liquidity = some (res, k')) :
    (res.IsOK = false ∧ k' = k) ∨
    ∃ k1, baseTokens.Amount ≤ msg.MaxBaseAmount.Amount ∧ msg.MinLiquidity ≤ liquidity ∧
      SendCoinsToPool c k (coinSort [msg.QuoteAmount, baseTokens]) msg.Sender = some k1 ∧
      p.QuotePooledCoin.Denom = msg.QuoteAmount.Denom ∧
      p.BasePooledCoin.Denom = baseTokens.Denom ∧ 0 ≤ liquidity ∧
      ((res.IsOK = false ∧
          MintPoolCoinsToUser
            (SetSwapTokenPair k1 msg.GetSwapTokenPair
              (addedPair p msg.QuoteAmount.Amount baseTokens.Amount))
            [{ Denom := poolToken.Symbol, Amount := liquidity }] msg.Sender = none ∧
          k' = SetSwapTokenPair k1 msg.GetSwapTokenPair
            (addedPair p msg.QuoteAmount.Amount baseTokens.Amount)) ∨
        (res.IsOK = true ∧
          MintPoolCoinsToUser
            (SetSwapTokenPair k1 msg.GetSwapTokenPair
              (addedPair p msg.QuoteAmount.Amount baseTokens.Amount))
            [{ Denom := poolToken.Symbol, Amount := liquidity }] msg.Sender = some k')) := by
  unfold addLiquidityFinish at h
  by_cases hmax : msg.MaxBaseAmount.Amount < baseTokens.Amount
  · rw [if_pos hmax] at h
    simp only [failWith, Option.some.injEq, Prod.mk.injEq] at h
    exact Or.inl ⟨by rw [← h.1]; rfl, h.2.symm⟩
  rw [if_neg hmax] at h
  by_cases hmin : liquidity < msg.MinLiquidity
  · rw [if_pos hmin] at h
    simp only [failWith, Option.some.injEq, Prod.mk.injEq] at h
    exact Or.inl ⟨by rw [← h.1]; rfl, h.2.symm⟩
  rw [if_neg hmin] at h
  cases hsend : SendCoinsToPool c k (coinSort [msg.QuoteAmount, baseTokens]) msg.Sender with
  | none =>
    simp only [hsend, failWith, Option.some.injEq, Prod.mk.injEq] at h
    exact Or.inl ⟨by rw [← h.1]; rfl, h.2.symm⟩
  | some k1 =>
    simp only [hsend] at h
    by_cases hq : p.QuotePooledCoin.Denom = msg.QuoteAmount.Denom
    · by_cases hb : p.BasePooledCoin.Denom = baseTokens.Denom
      · simp only [DecCoin.Add, hq, hb, if_true, NewDecCoinFromDec] at h
        by_cases hl : liquidity < 0
        · simp [hl] at h
        · simp only [hl, if_false] at h
          rw [addedPair_eq p _ _ hq hb] at h
          refine Or.inr ⟨k1, not_lt.1 hmax, not_lt.1 hmin, rfl, hq, hb, not_lt.1 hl, ?_⟩
          cases hmint : MintPoolCoinsToUser
              (SetSwapTokenPair k1 msg.GetSwapTokenPair
                (addedPair p msg.QuoteAmount.Amount baseTokens.Amount))
              [{ Denom := poolToken.Symbol, Amount := liquidity }] msg.Sender with
          | none =>
            simp only [hmint, failWith, Option.some.injEq, Prod.mk.injEq] at h
            exact Or.inl ⟨by rw [← h.1]; rfl, rfl, h.2.symm⟩
          | some k3 =>
            simp only [hmint, Option.some.injEq, Prod.mk.injEq] at h
            exact Or.inr ⟨by rw [← h.1]; rfl, by rw [h.2]⟩
      · simp [DecCoin.Add, hq, hb] at h
    · simp [DecCoin.Add, hq] at h

theorem handleMsgAddLiquidity_cases {c : Consts} {ctx : Context} {k k' : State}
    {msg : MsgAddLiquidity} {res : Result}
    (h : handleMsgAddLiquidity c ctx k msg = some (res, k')) :
    (res.IsOK = false ∧ k' = k) ∨
    ∃ p poolToken baseAmount liquidity,
      ¬ msg.Deadline < ctx.BlockTime ∧
      GetSwapTokenPair k msg.GetSwapTokenPair = some p ∧
      GetPoolTokenInfo k p.PoolTokenName = some poolToken ∧
      ((p.QuotePooledCoin.Amount = 0 ∧ p.BasePooledCoin.Amount = 0 ∧
          baseAmount = msg.MaxBaseAmount.Amount ∧ liquidity = NewDec c 1) ∨
        (0 < p.BasePooledCoin.Amount ∧ 0 < p.QuotePooledCoin.Amount ∧
          baseAmount =
            (msg.QuoteAmount.Amount * p.BasePooledCoin.Amount).tdiv p.QuotePooledCoin.Amount ∧
          GetPoolTokenAmount k p.PoolTokenName ≠ 0 ∧
          liquidity =
            (msg.QuoteAmount.Amount * GetPoolTokenAmount k p.PoolTokenName).tdiv
              p.QuotePooledCoin.Amount ∧
          liquidity ≠ 0)) ∧
      addLiquidityFinish c k msg p poolToken
        { Denom := msg.MaxBaseAmount.Denom, Amount := baseAmount } liquidity = some (res, k') := by
  unfold handleMsgAddLiquidity at h
  by_cases hdl : msg.Deadline < ctx.BlockTime
  · rw [if_pos hdl] at h
    simp only [failWith, Option.some.injEq, Prod.mk.injEq] at h
    exact Or.inl ⟨by rw [← h.1]; rfl, h.2.symm⟩
  rw [if_neg hdl] at h
  cases hp : GetSwapTokenPair k msg.GetSwapTokenPair with
  | none =>
    simp only [hp, failWith, Option.some.injEq, Prod.mk.injEq] at h
    exact Or.inl ⟨by rw [← h.1]; rfl, h.2.symm⟩
  | some p =>
    simp only [hp] at h
    cases ht : GetPoolTokenInfo k p.PoolTokenName with
    | none =>
      simp only [ht, failWith, Option.some.injEq, Prod.mk.injEq] at h
      exact Or.inl ⟨by rw [← h.1]; rfl, h.2.symm⟩
    | some poolToken =>
      simp only [ht] at h
      by_cases hzero : p.QuotePooledCoin.Amount = 0 ∧ p.BasePooledCoin.Amount = 0
      · rw [if_pos hzero] at h
        exact Or.inr ⟨p, poolToken, _, _, hdl, rfl, ht, Or.inl ⟨hzero.1, hzero.2, rfl, rfl⟩, h⟩
      rw [if_neg hzero] at h
      by_cases hpos : p.BasePooledCoin.IsPositive = true ∧ p.QuotePooledCoin.IsPositive = true
      · rw [if_pos hpos] at h
        simp only [DecCoin.IsPositive, decide_eq_true_eq] at hpos
        simp only [MulAndQuo, hpos.2.ne', if_false] at h
        by_cases hsup : GetPoolTokenAmount k p.PoolTokenName = 0
        · rw [if_pos hsup] at h
          simp only [failWith, Option.some.injEq, Prod.mk.injEq] at h
          exact Or.inl ⟨by rw [← h.1]; rfl, h.2.symm⟩
        rw [if_neg hsup] at h
        by_cases hliq : (msg.QuoteAmount.Amount * GetPoolTokenAmount k p.PoolTokenName).tdiv
            p.QuotePooledCoin.Amount = 0
        · rw [if_pos hliq] at h
          simp only [failWith, Option.some.injEq, Prod.mk.injEq] at h
          exact Or.inl ⟨by rw [← h.1]; rfl, h.2.symm⟩
        rw [if_neg hliq] at h
        exact Or.inr ⟨p, poolToken, _, _, hdl, rfl, ht,
          Or.inr ⟨hpos.1, hpos.2, rfl, hsup, rfl, hliq⟩, h⟩
      · rw [if_neg hpos] at h
        simp only [failWith, Option.some.injEq, Prod.mk.injEq] at h
        exact Or.inl ⟨by rw [← h.1]; rfl, h.2.symm⟩

theorem handleMsgRemoveLiquidity_cases {c : Consts} {ctx : Context} {k k' : State}
    {msg : MsgRemoveLiquidity} {res : Result}
    (h : handleMsgRemoveLiquidity c ctx k msg = some (res, k')) :
    (res.IsOK = false ∧ k' = k) ∨
    ∃ p k1 baseDec quoteDec,
      ¬ msg.Deadline < ctx.BlockTime ∧
      GetSwapTokenPair k msg.GetSwapTokenPair = some p ∧
      msg.Liquidity ≤ GetPoolTokenAmount k p.PoolTokenName ∧
      GetPoolTokenAmount k p.PoolTokenName ≠ 0 ∧
      baseDec = (p.BasePooledCoin.Amount * msg.Liquidity).tdiv
        (GetPoolTokenAmount k p.PoolTokenName) ∧
      quoteDec = (p.QuotePooledCoin.Amount * msg.Liquidity).tdiv
        (GetPoolTokenAmount k p.PoolTokenName) ∧
      0 ≤ baseDec ∧ 0 ≤ quoteDec ∧
      p.BasePooledCoin.Denom = msg.MinBaseAmount.Denom ∧
      p.QuotePooledCoin.Denom = msg.MinQuoteAmount.Denom ∧
      msg.MinBaseAmount.Amount ≤ baseDec ∧ msg.MinQuoteAmount.Amount ≤ quoteDec ∧
      SendCoinsFromPoolToAccount c k
        (coinSort [DecCoin.mk p.BasePooledCoin.Denom baseDec,
          DecCoin.mk p.QuotePooledCoin.Denom quoteDec]) msg.Sender = some k1 ∧
      0 ≤ msg.Liquidity ∧
      ((res.IsOK = false ∧
          BurnPoolCoinsFromUser
            (SetSwapTokenPair k1 msg.GetSwapTokenPair (removedPair p quoteDec baseDec))
            [DecCoin.mk p.PoolTokenName msg.Liquidity] msg.Sender = none ∧
          k' = SetSwapTokenPair k1 msg.GetSwapTokenPair (removedPair p quoteDec baseDec)) ∨
        (res.IsOK = true ∧
          BurnPoolCoinsFromUser
            (SetSwapTokenPair k1 msg.GetSwapTokenPair (removedPair p quoteDec baseDec))
            [DecCoin.mk p.PoolTokenName msg.Liquidity] msg.Sender = some k')) := by
  unfold handleMsgRemoveLiquidity at h
  by_cases hdl : msg.Deadline < ctx.BlockTime
  · rw [if_pos hdl] at h
    simp only [failWith, Option.some.injEq, Prod.mk.injEq] at h
    exact Or.inl ⟨by rw [← h.1]; rfl, h.2.symm⟩
  rw [if_neg hdl] at h
  cases hp : GetSwapTokenPair k msg.GetSwapTokenPair with
  | none =>
    simp only [hp, failWith, Option.some.injEq, Prod.mk.injEq] at h
    exact Or.inl ⟨by rw [← h.1]; rfl, h.2.symm⟩
  | some p =>
    simp only [hp] at h
    by_cases hsup : GetPoolTokenAmount k p.PoolTokenName < msg.Liquidity
    · rw [if_pos hsup] at h
      simp only [failWith, Option.some.injEq, Prod.mk.injEq] at h
      exact Or.inl ⟨by rw [← h.1]; rfl, h.2.symm⟩
    rw [if_neg hsup] at h
    by_cases hT : GetPoolTokenAmount k p.PoolTokenName = 0
    · simp [MulAndQuo, hT] at h
    simp only [MulAndQuo, hT, if_false, NewDecCoinFromDec] at h
    by_cases hb0 : (p.BasePooledCoin.Amount * msg.Liquidity).tdiv
        (GetPoolTokenAmount k p.PoolTokenName) < 0
    · simp [hb0] at h
    simp only [hb0, if_false] at h
    by_cases hq0 : (p.QuotePooledCoin.Amount * msg.Liquidity).tdiv
        (GetPoolTokenAmount k p.PoolTokenName) < 0
    · simp [hq0] at h
    simp only [hq0, if_false, DecCoin.IsLT] at h
    by_cases hbd : p.BasePooledCoin.Denom = msg.MinBaseAmount.Denom
    swap
    · simp [hbd] at h
    simp only [hbd, if_true] at h
    by_cases hbm : (p.BasePooledCoin.Amount * msg.Liquidity).tdiv
        (GetPoolTokenAmount k p.PoolTokenName) < msg.MinBaseAmount.Amount
    · simp only [hbm, decide_True, failWith, Option.some.injEq, Prod.mk.injEq] at h
      exact Or.inl ⟨by rw [← h.1]; rfl, h.2.symm⟩
    simp only [hbm, decide_False] at h
    by_cases hqd : p.QuotePooledCoin.Denom = msg.MinQuoteAmount.Denom
    swap
    · simp [hqd] at h
    simp only [hqd, if_true] at h
    by_cases hqm : (p.QuotePooledCoin.Amount * msg.Liquidity).tdiv
        (GetPoolTokenAmount k p.PoolTokenName) < msg.MinQuoteAmount.Amount
    · simp only [hqm, decide_True, failWith, Option.some.injEq, Prod.mk.injEq] at h
      exact Or.inl ⟨by rw [← h.1]; rfl, h.2.symm⟩
    simp only [hqm, decide_False] at h
    rw [← hbd, ← hqd] at h
    cases hsend : SendCoinsFromPoolToAccount c k
        (coinSort [DecCoin.mk p.BasePooledCoin.Denom
            ((p.BasePooledCoin.Amount * msg.Liquidity).tdiv
              (GetPoolTokenAmount k p.PoolTokenName)),
          DecCoin.mk p.QuotePooledCoin.Denom
            ((p.QuotePooledCoin.Amount * msg.Liquidity).tdiv
              (GetPoolTokenAmount k p.PoolTokenName))]) msg.Sender with
    | none =>
      simp only [hsend, failWith, Option.some.injEq, Prod.mk.injEq] at h
      exact Or.inl ⟨by rw [← h.1]; rfl, h.2.symm⟩
    | some k1 =>
      simp only [hsend, DecCoin.Sub, if_true] at h
      by_cases hl : msg.Liquidity < 0
      · simp [hl] at h
      simp only [hl, if_false] at h
      rw [removedPair_eq p _ _ rfl rfl] at h
      refine Or.inr ⟨p, k1, _, _, hdl, rfl, not_lt.1 hsup, hT, rfl, rfl, not_lt.1 hb0,
        not_lt.1 hq0, hbd, hqd, not_lt.1 hbm, not_lt.1 hqm, hsend, not_lt.1 hl, ?_⟩
      cases hburn : BurnPoolCoinsFromUser
          (SetSwapTokenPair k1 msg.GetSwapTokenPair
            (removedPair p
              ((p.QuotePooledCoin.Amount * msg.Liquidity).tdiv
                (GetPoolTokenAmount k p.PoolTokenName))
              ((p.BasePooledCoin.Amount * msg.Liquidity).tdiv
                (GetPoolTokenAmount k p.PoolTokenName))))
          [DecCoin.mk p.PoolTokenName msg.Liquidity] msg.Sender with
      | none =>
        simp only [hburn, failWith, Option.some.injEq, Prod.mk.injEq] at h
        exact Or.inl ⟨by rw [← h.1]; rfl, rfl, h.2.symm⟩
      | some k3 =>
        simp only [hburn, Option.some.injEq, Prod.mk.injEq] at h
        exact Or.inr ⟨by rw [← h.1]; rfl, by rw [h.2]⟩

/-! ## The pool reserve invariant -/

theorem reserveInvariant_iff (p : SwapTokenPair) :
    p.reserveInvariant = true ↔ (p.BasePooledCoin.Amount = 0 ↔ p.QuotePooledCoin.Amount = 0) := by
  unfold SwapTokenPair.reserveInvariant
  by_cases hb : p.BasePooledCoin.Amount = 0 <;> by_cases hq : p.QuotePooledCoin.Amount = 0 <;>
    simp [hb, hq]

theorem reserveInvariant_of_pos {p : SwapTokenPair} (hb : 0 < p.BasePooledCoin.Amount)
    (hq : 0 < p.QuotePooledCoin.Amount) : p.reserveInvariant = true := by
  rw [reserveInvariant_iff]
  exact ⟨fun h => absurd h hb.ne', fun h => absurd h hq.ne'⟩

theorem PoolInvariant_of_pairs {k k' : State} (h : k'.pairs = k.pairs) (hinv : PoolInvariant k) :
    PoolInvariant k' := by
  intro n p hp
  exact hinv n p (by simpa [GetSwapTokenPair, h] using hp)

theorem PoolInvariant_set {k k2 : State} (h : k2.pairs = k.pairs) (hinv : PoolInvariant k)
    (name : String) {pnew : SwapTokenPair} (hnew : pnew.reserveInvariant = true) :
    PoolInvariant (SetSwapTokenPair k2 name pnew) := by
  intro n p hp
  rw [GetSwapTokenPair_Set] at hp
  by_cases hn : n = name
  · rw [if_pos hn] at hp
    obtain rfl : pnew = p := by simpa using hp
    exact hnew
  · rw [if_neg hn] at hp
    exact hinv n p (by simpa [GetSwapTokenPair, h] using hp)

theorem tdiv_mul_eq_self_iff {x l t : Int} (hx : 0 < x) (ht : 0 < t) (hl0 : 0 ≤ l)
    (hlt : l ≤ t) : (x * l).tdiv t = x ↔ l = t := by
  constructor
  · intro h
    obtain ⟨-, h1, -⟩ := tdiv_bounds (mul_nonneg hx.le hl0) ht
    rw [h] at h1
    have : t ≤ l := le_of_mul_le_mul_left h1 hx
    exact le_antisymm hlt this
  · rintro rfl
    exact Int.mul_tdiv_cancel x ht.ne'

theorem tdiv_mul_le_self {x l t : Int} (hx : 0 ≤ x) (ht : 0 < t) (hl0 : 0 ≤ l)
    (hlt : l ≤ t) : (x * l).tdiv t ≤ x := by
  obtain ⟨-, h1, -⟩ := tdiv_bounds (mul_nonneg hx hl0) ht
  by_contra hc
  push_neg at hc
  have h2 : (x + 1) * t ≤ (x * l).tdiv t * t := mul_le_mul_of_nonneg_right (by linarith) ht.le
  nlinarith

/-- The price of a swap leg on a pool that satisfies the invariants: a non-zero
    bought amount is positive, the reserves are positive and the bought amount
    is below the output reserve. -/
theorem CalculateTokenToBuy_pos {c : Consts} {params : Params} {p : SwapTokenPair}
    {sell tokenBuy : DecCoin} {denom : String} (hf0 : 0 ≤ params.FeeRate)
    (hf1 : params.FeeRate < OneDec c) (hb0 : 0 ≤ p.BasePooledCoin.Amount)
    (hq0 : 0 ≤ p.QuotePooledCoin.Amount) (hpi : p.reserveInvariant = true)
    (hs : 0 < sell.Amount)
    (hcalc : CalculateTokenToBuy c p sell denom params = some tokenBuy)
    (hne : tokenBuy.Amount ≠ 0) :
    0 < reserveIn c p sell.Denom ∧ 0 < reserveOut c p sell.Denom ∧ 0 < tokenBuy.Amount ∧
      tokenBuy.Amount < reserveOut c p sell.Denom ∧ tokenBuy.Denom = denom := by
  have hiff := (reserveInvariant_iff p).1 hpi
  rw [CalculateTokenToBuy_eq] at hcalc
  have hin0 : reserveIn c p sell.Denom ≠ 0 := by
    intro h0
    simp [GetInputPrice, h0] at hcalc
    rw [← hcalc] at hne
    simp at hne
  have hpos : 0 < reserveIn c p sell.Denom ∧ 0 < reserveOut c p sell.Denom := by
    simp only [reserveIn, reserveOut] at hin0 ⊢
    by_cases hd : sell.Denom = c.DefaultBondDenom
    · simp only [hd, if_true] at hin0 ⊢
      have hbne : p.BasePooledCoin.Amount ≠ 0 := fun h => hin0 (hiff.1 h)
      exact ⟨lt_of_le_of_ne hq0 (Ne.symm hin0), lt_of_le_of_ne hb0 (Ne.symm hbne)⟩
    · simp only [hd, if_false] at hin0 ⊢
      have hqne : p.QuotePooledCoin.Amount ≠ 0 := fun h => hin0 (hiff.2 h)
      exact ⟨lt_of_le_of_ne hb0 (Ne.symm hin0), lt_of_le_of_ne hq0 (Ne.symm hqne)⟩
  obtain ⟨bought, hprice, hb1, hb2, -⟩ := GetInputPrice_spec c hpos.1 hpos.2 hf0 hf1 hs.le
  rw [hprice] at hcalc
  simp only [Option.map_some', Option.some.injEq] at hcalc
  subst hcalc
  exact ⟨hpos.1, hpos.2, lt_of_le_of_ne hb1 (Ne.symm hne), hb2, rfl⟩

theorem swappedPair_invariant {c : Consts} {p : SwapTokenPair} {tokenBuy : DecCoin}
    {msg : MsgTokenToToken} (hin : 0 < reserveIn c p msg.SoldTokenAmount.Denom)
    (hs : 0 < msg.SoldTokenAmount.Amount)
    (hlt : tokenBuy.Amount < reserveOut c p msg.SoldTokenAmount.Denom) :
    0 < (swappedPair c p tokenBuy msg).BasePooledCoin.Amount ∧
      0 < (swappedPair c p tokenBuy msg).QuotePooledCoin.Amount := by
  simp only [reserveIn, reserveOut] at hin hlt
  unfold swappedPair
  by_cases hd : msg.SoldTokenAmount.Denom = c.DefaultBondDenom
  · simp only [hd, if_true] at hin hlt ⊢
    exact ⟨by linarith, by linarith⟩
  · simp only [hd, if_false] at hin hlt ⊢
    exact ⟨by linarith, by linarith⟩

theorem WellFormed_of_frame {c : Consts} {k k' : State} (h1 : k'.pairs = k.pairs)
    (h2 : k'.supply = k.supply) (h3 : k'.params = k.params) (hwf : WellFormed c k) :
    WellFormed c k' := by
  obtain ⟨hres, hsup, hf⟩ := hwf
  refine ⟨?_, ?_, ?_⟩
  · intro n p hp
    exact hres n p (by simpa [GetSwapTokenPair, h1] using hp)
  · intro d
    rw [h2]
    exact hsup d
  · simpa [GetParams, h3] using hf

theorem WellFormed_set {c : Consts} {k k2 : State} (h1 : k2.pairs = k.pairs)
    (h2 : k2.supply = k.supply) (h3 : k2.params = k.params) (hwf : WellFormed c k)
    (name : String) {pnew : SwapTokenPair} (hb : 0 ≤ pnew.BasePooledCoin.Amount)
    (hq : 0 ≤ pnew.QuotePooledCoin.Amount) :
    WellFormed c (SetSwapTokenPair k2 name pnew) := by
  obtain ⟨hres, hsup, hf⟩ := hwf
  refine ⟨?_, ?_, ?_⟩
  · intro n p hp
    rw [GetSwapTokenPair_Set] at hp
    by_cases hn : n = name
    · rw [if_pos hn] at hp
      obtain rfl : pnew = p := by simpa using hp
      exact ⟨hb, hq⟩
    · rw [if_neg hn] at hp
      exact hres n p (by simpa [GetSwapTokenPair, h1] using hp)
  · intro d
    show 0 ≤ k2.supply d
    rw [h2]
    exact hsup d
  · have : GetParams (SetSwapTokenPair k2 name pnew) = GetParams k := by
      simp [GetParams, SetSwapTokenPair, h3]
    rw [this]
    exact hf

/-- One swap leg keeps the invariants, whatever pool of the pre-request state
    it is priced on. -/
theorem swapTokenNativeToken_preserves {c : Consts} {k k' : State} {p : SwapTokenPair}
    {tokenBuy : DecCoin} {msg : MsgTokenToToken} {res : Result} {denom : String}
    (hwf : WellFormed c k) (hinv : PoolInvariant k) (hb0 : 0 ≤ p.BasePooledCoin.Amount)
    (hq0 : 0 ≤ p.QuotePooledCoin.Amount) (hpi : p.reserveInvariant = true)
    (hcalc : CalculateTokenToBuy c p msg.SoldTokenAmount denom (GetParams k) = some tokenBuy)
    (hne : tokenBuy.Amount ≠ 0)
    (h : swapTokenNativeToken c k p tokenBuy msg = some (res, k')) :
    WellFormed c k' ∧ PoolInvariant k' := by
  cases hok : res.IsOK with
  | false =>
    rcases swapTokenNativeToken_fail h hok with ⟨-, rfl⟩ | ⟨h1, -⟩
    · exact ⟨hwf, hinv⟩
    · obtain ⟨e1, -, e3, e4⟩ := SendCoinsToPool_frame h1
      exact ⟨WellFormed_of_frame e1 e3 e4 hwf, PoolInvariant_of_pairs e1 hinv⟩
  | true =>
    obtain ⟨k1, k2, h1, h2, rfl, -⟩ := swapTokenNativeToken_ok h hok
    obtain ⟨hs, -, -⟩ := SendCoinsToPool_single h1
    obtain ⟨e1, -, e3, e4⟩ := SendCoinsToPool_frame h1
    obtain ⟨f1, -, f3, f4⟩ := SendCoinsFromPoolToAccount_frame h2
    obtain ⟨hin, -, -, hlt, -⟩ := CalculateTokenToBuy_pos hwf.2.2.1 hwf.2.2.2 hb0 hq0 hpi hs
      hcalc hne
    obtain ⟨hb, hq⟩ := swappedPair_invariant hin hs hlt
    exact ⟨WellFormed_set (f1.trans e1) (f3.trans e3) (f4.trans e4) hwf _ hb.le hq.le,
      PoolInvariant_set (f1.trans e1) hinv _ (reserveInvariant_of_pos hb hq)⟩

theorem swapTokenNativeToken_frame {c : Consts} {k k' : State} {p : SwapTokenPair}
    {tokenBuy : DecCoin} {msg : MsgTokenToToken} {res : Result}
    (h : swapTokenNativeToken c k p tokenBuy msg = some (res, k')) :
    k'.tokens = k.tokens ∧ k'.supply = k.supply ∧ k'.params = k.params := by
  cases hok : res.IsOK with
  | false =>
    rcases swapTokenNativeToken_fail h hok with ⟨-, rfl⟩ | ⟨h1, -⟩
    · exact ⟨rfl, rfl, rfl⟩
    · exact (SendCoinsToPool_frame h1).2
  | true =>
    obtain ⟨k1, k2, h1, h2, rfl, -⟩ := swapTokenNativeToken_ok h hok
    obtain ⟨-, e2, e3, e4⟩ := SendCoinsToPool_frame h1
    obtain ⟨-, f2, f3, f4⟩ := SendCoinsFromPoolToAccount_frame h2
    exact ⟨f2.trans e2, f3.trans e3, f4.trans e4⟩

theorem handleMsgTokenToNativeToken_preserves {c : Consts} {ctx : Context} {k k' : State}
    {msg : MsgTokenToToken} {res : Result} (hwf : WellFormed c k) (hinv : PoolInvariant k)
    (h : handleMsgTokenToNativeToken c ctx k msg = some (res, k')) :
    WellFormed c k' ∧ PoolInvariant k' := by
  cases hok : res.IsOK with
  | false =>
    rcases handleMsgTokenToNativeToken_fail h hok with rfl | ⟨p, tb, hp, hcalc, hne, -, hsw⟩
    · exact ⟨hwf, hinv⟩
    · obtain ⟨hb0, hq0⟩ := hwf.1 _ p hp
      exact swapTokenNativeToken_preserves hwf hinv hb0 hq0 (hinv _ p hp) hcalc hne hsw
  | true =>
    obtain ⟨p, tb, res1, -, -, hp, hcalc, hne, -, hsw, -⟩ :=
      handleMsgTokenToNativeToken_ok h hok
    obtain ⟨hb0, hq0⟩ := hwf.1 _ p hp
    exact swapTokenNativeToken_preserves hwf hinv hb0 hq0 (hinv _ p hp) hcalc hne hsw

theorem handleMsgTokenToToken_preserves {c : Consts} {ctx : Context} {k k' : State}
    {msg : MsgTokenToToken} {res : Result} (hwf : WellFormed c k) (hinv : PoolInvariant k)
    (h : handleMsgTokenToToken c ctx k msg = some (res, k')) :
    WellFormed c k' ∧ PoolInvariant k' := by
  rcases handleMsgTokenToToken_cases h with ⟨-, rfl⟩ |
    ⟨p1, p2, tn, tb, res1, k1, -, -, hp1, hp2, hc1, hn1, hc2, hn2, -, hsw1, hrest⟩
  · exact ⟨hwf, hinv⟩
  · obtain ⟨hb1, hq1⟩ := hwf.1 _ p1 hp1
    obtain ⟨hb2, hq2⟩ := hwf.1 _ p2 hp2
    have hleg1 : WellFormed c k1 ∧ PoolInvariant k1 :=
      @swapTokenNativeToken_preserves c k k1 p1 tn (msgOne c msg) res1 _ hwf hinv hb1 hq1 (hinv _ p1 hp1)
        hc1 hn1 hsw1
    rcases hrest with ⟨-, -, rfl⟩ | ⟨-, res2, hsw2, -⟩
    · exact hleg1
    · have hpar : GetParams k1 = GetParams k := (swapTokenNativeToken_frame hsw1).2.2
      rw [← hpar] at hc2
      exact @swapTokenNativeToken_preserves c k1 k' p2 tb (msgTwo msg tn) res2 _ hleg1.1 hleg1.2 hb2 hq2
        (hinv _ p2 hp2) hc2 hn2 hsw2

theorem handleMsgCreateExchange_preserves {c : Consts} {k k' : State}
    {msg : MsgCreateExchange} {res : Result} (hwf : WellFormed c k) (hinv : PoolInvariant k)
    (h : handleMsgCreateExchange c k msg = some (res, k')) :
    WellFormed c k' ∧ PoolInvariant k' := by
  unfold handleMsgCreateExchange at h
  cases he : IsTokenExist k msg.Token with
  | some err =>
    simp only [he, failWith, Option.some.injEq, Prod.mk.injEq] at h
    rw [← h.2]
    exact ⟨hwf, hinv⟩
  | none =>
    simp only [he] at h
    cases hp : GetSwapTokenPair k (msg.Token ++ "_" ++ NativeToken c) with
    | some p =>
      simp only [hp, failWith, Option.some.injEq, Prod.mk.injEq] at h
      rw [← h.2]
      exact ⟨hwf, hinv⟩
    | none =>
      simp only [hp] at h
      cases ht : GetPoolTokenInfo k (c.PoolTokenPrefix ++ msg.Token) with
      | some t =>
        simp only [ht, failWith, Option.some.injEq, Prod.mk.injEq] at h
        rw [← h.2]
        exact ⟨hwf, hinv⟩
      | none =>
        simp only [ht, Option.some.injEq, Prod.mk.injEq] at h
        rw [← h.2]
        exact ⟨WellFormed_set (k := k) rfl rfl rfl hwf _ (le_refl _) (le_refl _),
          PoolInvariant_set (k := k) rfl hinv _
            (by simp [SwapTokenPair.reserveInvariant, ZeroDec])⟩

theorem handleMsgAddLiquidity_preserves {c : Consts} {ctx : Context} {k k' : State}
    {msg : MsgAddLiquidity} {res : Result} (hwf : WellFormed c k) (hinv : PoolInvariant k)
    (hq : 0 < msg.QuoteAmount.Amount) (hm : 0 < msg.MaxBaseAmount.Amount)
    (h : handleMsgAddLiquidity c ctx k msg = some (res, k')) :
    WellFormed c k' ∧ PoolInvariant k' := by
  rcases handleMsgAddLiquidity_cases h with ⟨-, rfl⟩ |
    ⟨p, poolToken, baseAmount, liquidity, -, hp, -, hbranch, hfin⟩
  · exact ⟨hwf, hinv⟩
  rcases addLiquidityFinish_cases hfin with ⟨-, rfl⟩ | ⟨k1, -, -, hsend, -, -, -, hmint⟩
  · exact ⟨hwf, hinv⟩
  obtain ⟨e1, -, e3, e4⟩ := SendCoinsToPool_frame hsend
  obtain ⟨hb0, hq0⟩ := hwf.1 _ p hp
  have hbase : 0 < baseAmount + p.BasePooledCoin.Amount := by
    rcases hbranch with ⟨-, -, rfl, -⟩ | ⟨hB, hQ, rfl, -, -, -⟩
    · linarith
    · have := Int.tdiv_nonneg (mul_nonneg hq.le hB.le) hQ.le
      linarith
  have hnewb : 0 < (addedPair p msg.QuoteAmount.Amount baseAmount).BasePooledCoin.Amount := by
    simp only [addedPair]
    linarith
  have hnewq : 0 < (addedPair p msg.QuoteAmount.Amount baseAmount).QuotePooledCoin.Amount := by
    simp only [addedPair]
    linarith
  have hset : WellFormed c (SetSwapTokenPair k1 msg.GetSwapTokenPair
        (addedPair p msg.QuoteAmount.Amount baseAmount)) ∧
      PoolInvariant (SetSwapTokenPair k1 msg.GetSwapTokenPair
        (addedPair p msg.QuoteAmount.Amount baseAmount)) :=
    ⟨WellFormed_set e1 e3 e4 hwf _ hnewb.le hnewq.le,
      PoolInvariant_set e1 hinv _ (reserveInvariant_of_pos hnewb hnewq)⟩
  rcases hmint with ⟨-, -, rfl⟩ | ⟨-, hmint⟩
  · exact hset
  · obtain ⟨hl, rfl⟩ := MintPoolCoinsToUser_single hmint
    refine ⟨⟨hset.1.1, ?_, hset.1.2.2⟩, hset.2⟩
    intro d
    have := hset.1.2.1 d
    show 0 ≤ (if d = poolToken.Symbol then _ else _)
    split
    · simp only at hl
      linarith
    · exact this

theorem handleMsgRemoveLiquidity_preserves {c : Consts} {ctx : Context} {k k' : State}
    {msg : MsgRemoveLiquidity} {res : Result} (hwf : WellFormed c k) (hinv : PoolInvariant k)
    (h : handleMsgRemoveLiquidity c ctx k msg = some (res, k')) :
    WellFormed c k' ∧ PoolInvariant k' := by
  rcases handleMsgRemoveLiquidity_cases h with ⟨-, rfl⟩ |
    ⟨p, k1, baseDec, quoteDec, -, hp, hle, hT0, rfl, rfl, -, -, -, -, -, -, hsend, hl0, hburn⟩
  · exact ⟨hwf, hinv⟩
  obtain ⟨e1, -, e3, e4⟩ := SendCoinsFromPoolToAccount_frame hsend
  obtain ⟨hb0, hq0⟩ := hwf.1 _ p hp
  have hT : 0 < GetPoolTokenAmount k p.PoolTokenName :=
    lt_of_le_of_ne (hwf.2.1 _) (Ne.symm hT0)
  have hiff := (reserveInvariant_iff p).1 (hinv _ p hp)
  have hnewb := tdiv_mul_le_self hb0 hT hl0 hle
  have hnewq := tdiv_mul_le_self hq0 hT hl0 hle
  have hnewinv : (removedPair p
      ((p.QuotePooledCoin.Amount * msg.Liquidity).tdiv (GetPoolTokenAmount k p.PoolTokenName))
      ((p.BasePooledCoin.Amount * msg.Liquidity).tdiv
        (GetPoolTokenAmount k p.PoolTokenName))).reserveInvariant = true := by
    rw [reserveInvariant_iff]
    simp only [removedPair]
    by_cases hB : p.BasePooledCoin.Amount = 0
    · have hQ := hiff.1 hB
      simp [hB, hQ]
    · have hQ : p.QuotePooledCoin.Amount ≠ 0 := fun hQ => hB (hiff.2 hQ)
      have hBp : 0 < p.BasePooledCoin.Amount := lt_of_le_of_ne hb0 (Ne.symm hB)
      have hQp : 0 < p.QuotePooledCoin.Amount := lt_of_le_of_ne hq0 (Ne.symm hQ)
      have i1 := tdiv_mul_eq_self_iff hBp hT hl0 hle
      have i2 := tdiv_mul_eq_self_iff hQp hT hl0 hle
      constructor
      · intro hz
        have : msg.Liquidity = GetPoolTokenAmount k p.PoolTokenName := i1.1 (by linarith)
        have := i2.2 this
        linarith
      · intro hz
        have : msg.Liquidity = GetPoolTokenAmount k p.PoolTokenName := i2.1 (by linarith)
        have := i1.2 this
        linarith
  have hset : WellFormed c (SetSwapTokenPair k1 msg.GetSwapTokenPair (removedPair p
        ((p.QuotePooledCoin.Amount * msg.Liquidity).tdiv (GetPoolTokenAmount k p.PoolTokenName))
        ((p.BasePooledCoin.Amount * msg.Liquidity).tdiv
          (GetPoolTokenAmount k p.PoolTokenName)))) ∧
      PoolInvariant (SetSwapTokenPair k1 msg.GetSwapTokenPair (removedPair p
        ((p.QuotePooledCoin.Amount * msg.Liquidity).tdiv (GetPoolTokenAmount k p.PoolTokenName))
        ((p.BasePooledCoin.Amount * msg.Liquidity).tdiv
          (GetPoolTokenAmount k p.PoolTokenName)))) :=
    ⟨WellFormed_set e1 e3 e4 hwf _ (by simp only [removedPair]; linarith)
        (by simp only [removedPair]; linarith),
      PoolInvariant_set e1 hinv _ hnewinv⟩
  rcases hburn with ⟨-, -, rfl⟩ | ⟨-, hburn⟩
  · exact hset
  · obtain ⟨hl, -, rfl⟩ := BurnPoolCoinsFromUser_single hburn
    refine ⟨⟨hset.1.1, ?_, hset.1.2.2⟩, hset.2⟩
    intro d
    have hd := hset.1.2.1 d
    show 0 ≤ (if d = p.PoolTokenName then _ else _)
    split
    · rename_i hdn
      have e : k1.supply d = k.supply d := by rw [e3]
      simp only [SetSwapTokenPair, GetPoolTokenAmount] at hle ⊢
      rw [e, hdn]
      linarith
    · exact hd

/-- Every handler keeps the data-model ranges and the pool reserve invariant,
    for requests whose deposit amounts are positive. -/
theorem NewHandler_preserves {c : Consts} {ctx : Context} {k k' : State} {msg : Msg}
    {res : Result} (hwf : WellFormed c k) (hinv : PoolInvariant k) (hpos : msg.PositiveDeposit)
    (h : NewHandler c ctx k msg = some (res, k')) :
    WellFormed c k' ∧ PoolInvariant k' := by
  cases msg with
  | AddLiquidity m => exact handleMsgAddLiquidity_preserves hwf hinv hpos.1 hpos.2 h
  | RemoveLiquidity m => exact handleMsgRemoveLiquidity_preserves hwf hinv h
  | CreateExchange m => exact handleMsgCreateExchange_preserves hwf hinv h
  | TokenToToken m =>
    simp only [NewHandler, handleMsgTokenToTokenExchange] at h
    split at h
    · exact handleMsgTokenToToken_preserves hwf hinv h
    · exact handleMsgTokenToNativeToken_preserves hwf hinv h

/-! ## Facts about the example data -/

theorem exState_wellFormed : WellFormed exConsts exState := by
  refine ⟨?_, ?_, by decide, by decide⟩
  · intro n p hp
    simp only [GetSwapTokenPair, exState] at hp
    split at hp
    · obtain rfl : exPool = p := by simpa using hp
      decide
    · simp at hp
  · intro d
    simp only [exState]
    split <;> decide

theorem exState_invariant : PoolInvariant exState := by
  intro n p hp
  simp only [GetSwapTokenPair, exState] at hp
  split at hp
  · obtain rfl : exPool = p := by simpa using hp
    decide
  · simp at hp

theorem exEmptyState_wellFormed : WellFormed exConsts exEmptyState := by
  refine ⟨?_, fun _ => le_refl _, by decide, by decide⟩
  intro n p hp
  simp only [GetSwapTokenPair, exEmptyState] at hp
  split at hp
  · simp only [Option.some.injEq] at hp
    subst hp
    decide
  · simp at hp

theorem exEmptyState_invariant : PoolInvariant exEmptyState := by
  intro n p hp
  simp only [GetSwapTokenPair, exEmptyState] at hp
  split at hp
  · simp only [Option.some.injEq] at hp
    subst hp
    decide
  · simp at hp

/-! ## C2: the pool reserve invariant -/

/-- C2, counterexample.  On a well-formed store whose pools satisfy the reserve
    invariant, a first deposit of 500 of the reserve token with a base amount of
    zero succeeds and stores the pool with base reserve 0 and quote reserve 500:
    the invariant `(base_reserve == 0) == (quote_reserve == 0)` is broken. -/
theorem C2_pool_invariant_counterexample :
    WellFormed exConsts exEmptyState ∧ PoolInvariant exEmptyState ∧
      ∃ r, NewHandler exConsts exCtx exEmptyState (Msg.AddLiquidity exOneSidedDeposit) = some r ∧
        r.1.IsOK = true ∧
        GetSwapTokenPair r.2 "xxb_tokt" =
          some (SwapTokenPair.mk (DecCoin.mk "tokt" 50000000000) (DecCoin.mk "xxb" 0)
            "ammswap_xxb") ∧
        ¬ PoolInvariant r.2 := by
  refine ⟨exEmptyState_wellFormed, exEmptyState_invariant, _, rfl, rfl, by decide, ?_⟩
  intro hinv
  have := hinv "xxb_tokt" _ (by decide :
    GetSwapTokenPair _ "xxb_tokt" =
      some (SwapTokenPair.mk (DecCoin.mk "tokt" 50000000000) (DecCoin.mk "xxb" 0)
        "ammswap_xxb"))
  revert this
  decide

/-- C2, amended.  Starting from a store with non-negative reserves and share
    supplies, a fee rate in `[0,1)` and every pool satisfying
    `(base_reserve == 0) == (quote_reserve == 0)`, every request handled by
    `NewHandler` (create pool, add liquidity, remove liquidity, direct or routed
    swap; successful or failed) whose deposit amounts, for add liquidity, are
    strictly positive leaves a store with the same properties: every pool still
    satisfies the invariant. -/
theorem C2_pool_invariant (c : Consts) (ctx : Context) (k k' : State) (msg : Msg)
    (res : Result) (hwf : WellFormed c k) (hinv : PoolInvariant k)
    (hpos : msg.PositiveDeposit) (h : NewHandler c ctx k msg = some (res, k')) :
    PoolInvariant k' ∧ WellFormed c k' :=
  (NewHandler_preserves hwf hinv hpos h).symm

/-- Witness of C2: the first deposit of 500 and 500 into the unfunded example
    pool. -/
theorem C2_pool_invariant_witness :
    ∃ r, NewHandler exConsts exCtx exEmptyState (Msg.AddLiquidity exFirstDeposit) = some r ∧
      r.1.IsOK = true ∧ PoolInvariant r.2 ∧ WellFormed exConsts r.2 := by
  obtain ⟨r, hr, hok⟩ : ∃ r, NewHandler exConsts exCtx exEmptyState
      (Msg.AddLiquidity exFirstDeposit) = some r ∧ r.1.IsOK = true := ⟨_, rfl, rfl⟩
  exact ⟨r, hr, hok, C2_pool_invariant exConsts exCtx exEmptyState r.2
    (Msg.AddLiquidity exFirstDeposit) r.1 exEmptyState_wellFormed exEmptyState_invariant
    ⟨by decide, by decide⟩ hr⟩

/-! ## C3: postcondition of the direct swap -/

theorem CalculateTokenToBuy_denom {c : Consts} {p : SwapTokenPair} {sell tokenBuy : DecCoin}
    {denom : String} {params : Params}
    (h : CalculateTokenToBuy c p sell denom params = some tokenBuy) : tokenBuy.Denom = denom := by
  rw [CalculateTokenToBuy_eq] at h
  cases hg : GetInputPrice c sell.Amount (reserveIn c p sell.Denom) (reserveOut c p sell.Denom)
      params.FeeRate with
  | none => simp [hg] at h
  | some a =>
    simp only [hg, Option.map_some', Option.some.injEq] at h
    rw [← h]

/-- The ledger after the two transfers of a swap leg. -/
theorem swap_balances {c : Consts} {k k1 k2 : State} {sold tokenBuy : DecCoin}
    {sender recipient : String}
    (h1 : SendCoinsToPool c k [sold] sender = some k1)
    (h2 : SendCoinsFromPoolToAccount c k1 [tokenBuy] recipient = some k2) :
    k2.bal = addBal (addBal (addBal (addBal k.bal sender sold.Denom (-sold.Amount))
      c.ModuleAccount sold.Denom sold.Amount) c.ModuleAccount tokenBuy.Denom
      (-tokenBuy.Amount)) recipient tokenBuy.Denom tokenBuy.Amount := by
  obtain ⟨-, -, rfl⟩ := SendCoinsToPool_single h1
  obtain ⟨-, -, rfl⟩ := SendCoinsFromPoolToAccount_single h2
  rfl

/-- C3, counterexample.  The direct swap of the example with the pool account
    as recipient succeeds, and the recipient's balance of the bought
    denomination is the same after the swap as before it, although a positive
    amount was bought. -/
theorem C3_direct_swap_counterexample :
    ∃ r, handleMsgTokenToTokenExchange exConsts exCtx exState exSwapToPoolMsg = some r ∧
      r.1.IsOK = true ∧
      CalculateTokenToBuy exConsts exPool exSwapToPoolMsg.SoldTokenAmount "xxb"
        (GetParams exState) = some (DecCoin.mk "xxb" 9066108938) ∧
      r.2.bal exSwapToPoolMsg.Recipient "xxb" = exState.bal exSwapToPoolMsg.Recipient "xxb" :=
  ⟨_, rfl, rfl, by decide, by decide⟩

/-- C3, amended.  For every successful direct swap (one of the sold and bought
    denominations is the reserve token) whose sender and recipient are not the
    pool account, and whose sender differs from the recipient or whose sold
    denomination `d1` differs from the bought denomination `d2`: the stored pool
    has the reserve of denomination `d1` increased by exactly the sold amount
    and the reserve of denomination `d2` decreased by exactly the bought amount,
    the sender's balance of `d1` decreases by the sold amount and the
    recipient's balance of `d2` increases by the bought amount. -/
theorem C3_direct_swap_postcondition (c : Consts) (ctx : Context) (k k' : State)
    (msg : MsgTokenToToken) (res : Result)
    (hdirect : msg.SoldTokenAmount.Denom = c.DefaultBondDenom ∨
      msg.MinBoughtTokenAmount.Denom = c.DefaultBondDenom)
    (hrun : handleMsgTokenToTokenExchange c ctx k msg = some (res, k'))
    (hok : res.IsOK = true)
    (hs : msg.Sender ≠ c.ModuleAccount) (hr : msg.Recipient ≠ c.ModuleAccount)
    (hd : msg.Sender ≠ msg.Recipient ∨
      msg.SoldTokenAmount.Denom ≠ msg.MinBoughtTokenAmount.Denom) :
    ∃ p p' tokenBuy,
      GetSwapTokenPair k (msg.GetSwapTokenPair c) = some p ∧
      CalculateTokenToBuy c p msg.SoldTokenAmount msg.MinBoughtTokenAmount.Denom (GetParams k)
        = some tokenBuy ∧
      tokenBuy.Denom = msg.MinBoughtTokenAmount.Denom ∧
      GetSwapTokenPair k' (msg.GetSwapTokenPair c) = some p' ∧
      (if msg.SoldTokenAmount.Denom = c.DefaultBondDenom then
        p'.QuotePooledCoin = DecCoin.mk msg.SoldTokenAmount.Denom
            (p.QuotePooledCoin.Amount + msg.SoldTokenAmount.Amount) ∧
          p.QuotePooledCoin.Denom = msg.SoldTokenAmount.Denom ∧
          p'.BasePooledCoin = DecCoin.mk msg.MinBoughtTokenAmount.Denom
            (p.BasePooledCoin.Amount - tokenBuy.Amount) ∧
          p.BasePooledCoin.Denom = msg.MinBoughtTokenAmount.Denom
      else
        p'.BasePooledCoin = DecCoin.mk msg.SoldTokenAmount.Denom
            (p.BasePooledCoin.Amount + msg.SoldTokenAmount.Amount) ∧
          p.BasePooledCoin.Denom = msg.SoldTokenAmount.Denom ∧
          p'.QuotePooledCoin = DecCoin.mk msg.MinBoughtTokenAmount.Denom
            (p.QuotePooledCoin.Amount - tokenBuy.Amount) ∧
          p.QuotePooledCoin.Denom = msg.MinBoughtTokenAmount.Denom) ∧
      p'.PoolTokenName = p.PoolTokenName ∧
      k'.bal msg.Sender msg.SoldTokenAmount.Denom =
        k.bal msg.Sender msg.SoldTokenAmount.Denom - msg.SoldTokenAmount.Amount ∧
      k'.bal msg.Recipient msg.MinBoughtTokenAmount.Denom =
        k.bal msg.Recipient msg.MinBoughtTokenAmount.Denom + tokenBuy.Amount := by
  have hrun' : handleMsgTokenToNativeToken c ctx k msg = some (res, k') := by
    unfold handleMsgTokenToTokenExchange at hrun
    rw [if_neg (by tauto)] at hrun
    exact hrun
  obtain ⟨p, tokenBuy, res1, -, -, hp, hcalc, -, -, hsw, hok1⟩ :=
    handleMsgTokenToNativeToken_ok hrun' hok
  obtain ⟨k1, k2, h1, h2, rfl, hden⟩ := swapTokenNativeToken_ok hsw hok1
  have htd := CalculateTokenToBuy_denom hcalc
  have hbal := swap_balances h1 h2
  refine ⟨p, swappedPair c p tokenBuy msg, tokenBuy, hp, hcalc, htd,
    by rw [GetSwapTokenPair_Set, if_pos rfl], ?_, ?_, ?_, ?_⟩
  · unfold swappedPair
    by_cases hn : msg.SoldTokenAmount.Denom = c.DefaultBondDenom
    · rw [if_pos hn] at hden
      simp only [hn, if_true]
      rw [← htd, ← hn, ← hden.1, ← hden.2]
      exact ⟨rfl, rfl, rfl, rfl⟩
    · rw [if_neg hn] at hden
      simp only [hn, if_false]
      rw [← htd, ← hden.1, ← hden.2]
      exact ⟨rfl, rfl, rfl, rfl⟩
  · unfold swappedPair
    split <;> rfl
  · show k2.bal _ _ = _
    rw [hbal, htd]
    simp only [addBal]
    have e1 : ¬ (msg.Sender = msg.Recipient ∧
        msg.SoldTokenAmount.Denom = msg.MinBoughtTokenAmount.Denom) := by
      rintro ⟨a, b⟩
      rcases hd with h | h
      · exact h a
      · exact h b
    simp [e1, hs]
    ring
  · show k2.bal _ _ = _
    rw [hbal, htd]
    simp only [addBal]
    have e1 : ¬ (msg.Recipient = msg.Sender ∧
        msg.MinBoughtTokenAmount.Denom = msg.SoldTokenAmount.Denom) := by
      rintro ⟨a, b⟩
      rcases hd with h | h
      · exact h a.symm
      · exact h b.symm
    simp [e1, hr]

/-- Witness of C3: `alice` sells 100 of the reserve token for `xxb`, to `bob`. -/
theorem C3_direct_swap_postcondition_witness :
    ∃ r p' tokenBuy,
      handleMsgTokenToTokenExchange exConsts exCtx exState exSwapMsg = some r ∧
      r.1.IsOK = true ∧
      CalculateTokenToBuy exConsts exPool exSwapMsg.SoldTokenAmount "xxb" (GetParams exState)
        = some tokenBuy ∧
      GetSwapTokenPair r.2 "xxb_tokt" = some p' ∧
      p'.QuotePooledCoin = DecCoin.mk "tokt" (100000000000 + 10000000000) ∧
      p'.BasePooledCoin = DecCoin.mk "xxb" (100000000000 - tokenBuy.Amount) ∧
      r.2.bal "alice" "tokt" = 50000000000 - 10000000000 ∧
      r.2.bal "bob" "xxb" = 0 + tokenBuy.Amount := by
  obtain ⟨r, hr, hok⟩ : ∃ r, handleMsgTokenToTokenExchange exConsts exCtx exState exSwapMsg
      = some r ∧ r.1.IsOK = true := ⟨_, rfl, rfl⟩
  obtain ⟨p, p', tokenBuy, hp, hcalc, -, hp', hres, -, hb1, hb2⟩ :=
    C3_direct_swap_postcondition exConsts exCtx exState r.2 exSwapMsg r.1 (by decide) hr hok
      (by decide) (by decide) (by decide)
  obtain rfl : exPool = p := by
    have : GetSwapTokenPair exState (exSwapMsg.GetSwapTokenPair exConsts) = some exPool := by
      decide
    rw [this] at hp
    simpa using hp
  rw [if_pos (by decide)] at hres
  exact ⟨r, p', tokenBuy, hr, hok, hcalc, hp', hres.1, hres.2.2.1, hb1, hb2⟩

/-! ## C4: composition of the routed swap -/

theorem failWith_fails (code : CodeType) (log : String) (k : State)
    (hcode : code ≠ CodeType.CodeOK) :
    ∃ res, failWith code log k = some (res, k) ∧ res.IsOK = false :=
  ⟨{ Code := code, Log := log }, rfl, by simp [Result.IsOK, hcode]⟩

/-- The routed swap fails, leaving the store as it is, when the first leg buys
    nothing or the second leg buys less than the minimum. -/
theorem handleMsgTokenToToken_reject {c : Consts} {ctx : Context} {k : State}
    {msg : MsgTokenToToken} {p1 p2 : SwapTokenPair} {tokenNative tokenBuy : DecCoin}
    (hp1 : GetSwapTokenPair k (msg.SoldTokenAmount.Denom ++ "_" ++ c.DefaultBondDenom)
      = some p1)
    (hp2 : GetSwapTokenPair k (msg.MinBoughtTokenAmount.Denom ++ "_" ++ c.DefaultBondDenom)
      = some p2)
    (hc1 : CalculateTokenToBuy c p1 msg.SoldTokenAmount c.DefaultBondDenom (GetParams k)
      = some tokenNative)
    (hc2 : CalculateTokenToBuy c p2 tokenNative msg.MinBoughtTokenAmount.Denom (GetParams k)
      = some tokenBuy)
    (hfail : tokenNative.Amount = 0 ∨ tokenBuy.Amount < msg.MinBoughtTokenAmount.Amount) :
    ∃ res, handleMsgTokenToToken c ctx k msg = some (res, k) ∧ res.IsOK = false := by
  have e1 : (msgOne c msg).SoldTokenAmount = msg.SoldTokenAmount := rfl
  have e2 : (msgOne c msg).MinBoughtTokenAmount.Denom = c.DefaultBondDenom := rfl
  have e3 : (msgTwo msg tokenNative).SoldTokenAmount = tokenNative := rfl
  have e4 : (msgTwo msg tokenNative).MinBoughtTokenAmount.Denom =
      msg.MinBoughtTokenAmount.Denom := rfl
  unfold handleMsgTokenToToken
  by_cases hdl : msg.Deadline < ctx.BlockTime
  · rw [if_pos hdl]; exact failWith_fails _ _ _ (by decide)
  rw [if_neg hdl]
  by_cases hs : HasSufficientCoins (k.bal msg.Sender) [msg.SoldTokenAmount] = false
  · rw [if_pos hs]; exact failWith_fails _ _ _ (by decide)
  rw [if_neg hs]
  simp only [hp1, hp2, e1, e2, hc1]
  by_cases hz1 : tokenNative.IsZero = true
  · rw [if_pos hz1]; exact failWith_fails _ _ _ (by decide)
  rw [if_neg hz1]
  simp only [e3, e4, hc2]
  by_cases hz2 : tokenBuy.IsZero = true
  · rw [if_pos hz2]; exact failWith_fails _ _ _ (by decide)
  rw [if_neg hz2]
  rcases hfail with h0 | hlt
  · simp [DecCoin.IsZero, h0] at hz1
  · rw [if_pos hlt]; exact failWith_fails _ _ _ (by decide)

/-- The direct swap fails, leaving the store as it is, when it buys less than
    the minimum. -/
theorem handleMsgTokenToNativeToken_reject {c : Consts} {ctx : Context} {k : State}
    {msg : MsgTokenToToken} {p : SwapTokenPair} {tokenBuy : DecCoin}
    (hp : GetSwapTokenPair k (msg.GetSwapTokenPair c) = some p)
    (hc : CalculateTokenToBuy c p msg.SoldTokenAmount msg.MinBoughtTokenAmount.Denom
      (GetParams k) = some tokenBuy)
    (hfail : tokenBuy.Amount < msg.MinBoughtTokenAmount.Amount) :
    ∃ res, handleMsgTokenToNativeToken c ctx k msg = some (res, k) ∧ res.IsOK = false := by
  unfold handleMsgTokenToNativeToken
  by_cases hs : HasSufficientCoins (k.bal msg.Sender) [msg.SoldTokenAmount] = false
  · rw [if_pos hs]; exact failWith_fails _ _ _ (by decide)
  rw [if_neg hs]
  by_cases hdl : msg.Deadline < ctx.BlockTime
  · rw [if_pos hdl]; exact failWith_fails _ _ _ (by decide)
  rw [if_neg hdl]
  simp only [hp, hc]
  by_cases hz : tokenBuy.IsZero = true
  · rw [if_pos hz]; exact failWith_fails _ _ _ (by decide)
  rw [if_neg hz, if_pos hfail]
  exact failWith_fails _ _ _ (by decide)

/-- C4. Routed swap composition.  For a routed swap (neither the sold
    denomination `A` nor the bought denomination `B` is the reserve token) on
    existing pools, let `tokenNative` be the price of the sold amount on
    `pool(A)` and `tokenBuy` the price of `tokenNative` on `pool(B)`, both on the
    reserves stored before the request.  The request fails without a state
    change when `tokenNative` is zero or `tokenBuy` is below the minimum bought
    amount; otherwise, past the deadline and balance checks, the request
    succeeds as soon as the two legs with the amounts `tokenNative` and
    `tokenBuy` do, with no minimum put on `tokenNative`; and after every
    successful request the recipient has received exactly `tokenBuy` of `B`. -/
theorem C4_routed_swap_composition (c : Consts) (ctx : Context) (k : State)
    (msg : MsgTokenToToken) (p1 p2 : SwapTokenPair) (tokenNative tokenBuy : DecCoin)
    (hA : msg.SoldTokenAmount.Denom ≠ c.DefaultBondDenom)
    (hB : msg.MinBoughtTokenAmount.Denom ≠ c.DefaultBondDenom)
    (hp1 : GetSwapTokenPair k (msg.SoldTokenAmount.Denom ++ "_" ++ c.DefaultBondDenom)
      = some p1)
    (hp2 : GetSwapTokenPair k (msg.MinBoughtTokenAmount.Denom ++ "_" ++ c.DefaultBondDenom)
      = some p2)
    (hc1 : CalculateTokenToBuy c p1 msg.SoldTokenAmount c.DefaultBondDenom (GetParams k)
      = some tokenNative)
    (hc2 : CalculateTokenToBuy c p2 tokenNative msg.MinBoughtTokenAmount.Denom (GetParams k)
      = some tokenBuy) :
    (tokenNative.Amount = 0 ∨ tokenBuy.Amount < msg.MinBoughtTokenAmount.Amount →
      ∃ res, handleMsgTokenToTokenExchange c ctx k msg = some (res, k) ∧ res.IsOK = false) ∧
    (¬ msg.Deadline < ctx.BlockTime →
      HasSufficientCoins (k.bal msg.Sender) [msg.SoldTokenAmount] = true →
      tokenNative.Amount ≠ 0 → tokenBuy.Amount ≠ 0 →
      msg.MinBoughtTokenAmount.Amount ≤ tokenBuy.Amount →
      ∀ r1 k1 r2 k2,
        swapTokenNativeToken c k p1 tokenNative (msgOne c msg) = some (r1, k1) →
        r1.IsOK = true →
        swapTokenNativeToken c k1 p2 tokenBuy (msgTwo msg tokenNative) = some (r2, k2) →
        r2.IsOK = true →
        handleMsgTokenToTokenExchange c ctx k msg = some (okResult, k2)) ∧
    (∀ res k', handleMsgTokenToTokenExchange c ctx k msg = some (res, k') →
      res.IsOK = true → msg.Recipient ≠ c.ModuleAccount →
      (msg.Recipient ≠ msg.Sender ∨
        msg.SoldTokenAmount.Denom ≠ msg.MinBoughtTokenAmount.Denom) →
      tokenNative.Amount ≠ 0 ∧ msg.MinBoughtTokenAmount.Amount ≤ tokenBuy.Amount ∧
        k'.bal msg.Recipient msg.MinBoughtTokenAmount.Denom =
          k.bal msg.Recipient msg.MinBoughtTokenAmount.Denom + tokenBuy.Amount) := by
  have hdisp : handleMsgTokenToTokenExchange c ctx k msg = handleMsgTokenToToken c ctx k msg := by
    unfold handleMsgTokenToTokenExchange
    rw [if_pos ⟨hA, hB⟩]
  have e1 : (msgOne c msg).SoldTokenAmount = msg.SoldTokenAmount := rfl
  have e2 : (msgOne c msg).MinBoughtTokenAmount.Denom = c.DefaultBondDenom := rfl
  have e3 : (msgTwo msg tokenNative).SoldTokenAmount = tokenNative := rfl
  have e4 : (msgTwo msg tokenNative).MinBoughtTokenAmount.Denom =
      msg.MinBoughtTokenAmount.Denom := rfl
  rw [hdisp]
  refine ⟨?_, ?_, ?_⟩
  · exact handleMsgTokenToToken_reject hp1 hp2 hc1 hc2
  · intro hdl hs hn1 hn2 hmin r1 k1 r2 k2 hl1 hok1 hl2 hok2
    unfold handleMsgTokenToToken
    have hz1 : ¬ tokenNative.IsZero = true := by simpa [DecCoin.IsZero] using hn1
    have hz2 : ¬ tokenBuy.IsZero = true := by simpa [DecCoin.IsZero] using hn2
    rw [if_neg hdl, if_neg (by simp [hs])]
    simp only [hp1, hp2, e1, e2, hc1]
    rw [if_neg hz1]
    simp only [e3, e4, hc2]
    rw [if_neg hz2, if_neg (not_lt.2 hmin)]
    simp only [hl1]
    rw [if_neg (by simp [hok1])]
    simp only [hl2]
    rw [if_neg (by simp [hok2])]
  · intro res k' hrun hok hr hd
    rcases handleMsgTokenToToken_cases hrun with ⟨hno, -⟩ |
      ⟨q1, q2, tn, tb, res1, k1, -, -, hq1, hq2, hd1, hn1, hd2, -, hmin, hsw1, hrest⟩
    · rw [hok] at hno
      exact absurd hno (by decide)
    rw [hp1] at hq1
    rw [hp2] at hq2
    obtain rfl : p1 = q1 := by simpa using hq1
    obtain rfl : p2 = q2 := by simpa using hq2
    rw [hc1] at hd1
    obtain rfl : tokenNative = tn := by simpa using hd1
    rw [hc2] at hd2
    obtain rfl : tokenBuy = tb := by simpa using hd2
    refine ⟨hn1, hmin, ?_⟩
    rcases hrest with ⟨hno, hres, -⟩ | ⟨hok1, res2, hsw2, hres⟩
    · rw [hres, hno] at hok
      exact absurd hok (by decide)
    rw [hok] at hres
    obtain ⟨k1a, k1b, s1, s2, rfl, -⟩ := swapTokenNativeToken_ok hsw1 hok1
    obtain ⟨k2a, k2b, t1, t2, rfl, -⟩ := swapTokenNativeToken_ok hsw2 hres.symm
    have hb1 := swap_balances s1 s2
    have hb2 := swap_balances t1 t2
    have hnd := CalculateTokenToBuy_denom hc1
    have hbd := CalculateTokenToBuy_denom hc2
    show k2b.bal _ _ = _
    rw [hb2]
    have hk : (SetSwapTokenPair k1b ((msgOne c msg).GetSwapTokenPair c)
        (swappedPair c p1 tokenNative (msgOne c msg))).bal = k1b.bal := rfl
    rw [hk, hb1, e1, e3, hnd, hbd]
    have hcase : ¬ (msg.Recipient = msg.Sender ∧
        msg.MinBoughtTokenAmount.Denom = msg.SoldTokenAmount.Denom) := by
      rintro ⟨a, b⟩
      rcases hd with h | h
      · exact h a
      · exact h b.symm
    have s_eq : (msgOne c msg).Sender = msg.Sender := rfl
    have r_eq : (msgOne c msg).Recipient = msg.Recipient := rfl
    have s_eq2 : (msgTwo msg tokenNative).Sender = msg.Sender := rfl
    have r_eq2 : (msgTwo msg tokenNative).Recipient = msg.Recipient := rfl
    simp only [addBal, s_eq, r_eq, s_eq2, r_eq2]
    simp [hcase, hr, hB]

/-- Witness of C4: 100 of `xxa` sold for `xxb` through the two example pools;
    the first leg yields 90.66108938 of the reserve token, the second
    165.79238659 of `xxb`, which `bob` receives. -/
theorem C4_routed_swap_composition_witness :
    ∃ r, handleMsgTokenToTokenExchange exConsts exCtx exTwoPools exRoutedMsg = some r ∧
      r.1.IsOK = true ∧ r.2.bal "bob" "xxb" = 0 + 16579238659 := by
  obtain ⟨r, hr, hok⟩ : ∃ r, handleMsgTokenToTokenExchange exConsts exCtx exTwoPools
      exRoutedMsg = some r ∧ r.1.IsOK = true := ⟨_, rfl, rfl⟩
  have h := (C4_routed_swap_composition exConsts exCtx exTwoPools exRoutedMsg exPoolA exPoolB
    (DecCoin.mk "tokt" 9066108938) (DecCoin.mk "xxb" 16579238659) (by decide) (by decide)
    (by decide) (by decide) (by decide) (by decide)).2.2 r.1 r.2 hr hok (by decide)
    (Or.inl (by decide))
  exact ⟨r, hr, hok, h.2.2⟩

/-! ## C5: slippage rejection -/

/-- C5. Slippage rejection is side-effect-free.  For every swap request on
    existing pools whose computed final bought amount is less than the minimum
    bought amount, direct (the price on the request's pool) or routed (the price
    of the first leg's output on the second pool), the handler returns a failed
    result together with the very state it was called on. -/
theorem C5_slippage_rejection (c : Consts) (ctx : Context) (k : State)
    (msg : MsgTokenToToken) (tokenBuy : DecCoin)
    (hlt : tokenBuy.Amount < msg.MinBoughtTokenAmount.Amount)
    (hprice :
      (¬ (msg.SoldTokenAmount.Denom ≠ c.DefaultBondDenom ∧
          msg.MinBoughtTokenAmount.Denom ≠ c.DefaultBondDenom) ∧
        ∃ p, GetSwapTokenPair k (msg.GetSwapTokenPair c) = some p ∧
          CalculateTokenToBuy c p msg.SoldTokenAmount msg.MinBoughtTokenAmount.Denom
            (GetParams k) = some tokenBuy) ∨
      ((msg.SoldTokenAmount.Denom ≠ c.DefaultBondDenom ∧
          msg.MinBoughtTokenAmount.Denom ≠ c.DefaultBondDenom) ∧
        ∃ p1 p2 tokenNative,
          GetSwapTokenPair k (msg.SoldTokenAmount.Denom ++ "_" ++ c.DefaultBondDenom)
            = some p1 ∧
          GetSwapTokenPair k (msg.MinBoughtTokenAmount.Denom ++ "_" ++ c.DefaultBondDenom)
            = some p2 ∧
          CalculateTokenToBuy c p1 msg.SoldTokenAmount c.DefaultBondDenom (GetParams k)
            = some tokenNative ∧
          CalculateTokenToBuy c p2 tokenNative msg.MinBoughtTokenAmount.Denom (GetParams k)
            = some tokenBuy)) :
    ∃ res, handleMsgTokenToTokenExchange c ctx k msg = some (res, k) ∧ res.IsOK = false := by
  unfold handleMsgTokenToTokenExchange
  rcases hprice with ⟨hdir, p, hp, hc⟩ | ⟨hrouted, p1, p2, tn, hp1, hp2, hc1, hc2⟩
  · rw [if_neg hdir]
    exact handleMsgTokenToNativeToken_reject hp hc hlt
  · rw [if_pos hrouted]
    exact handleMsgTokenToToken_reject hp1 hp2 hc1 hc2 (Or.inr hlt)

/-- Witness of C5: the example swap buys 90.66108938 of `xxb`, less than the 95
    asked for. -/
theorem C5_slippage_rejection_witness :
    ∃ res, handleMsgTokenToTokenExchange exConsts exCtx exState exSlippageMsg
      = some (res, exState) ∧ res.IsOK = false :=
  C5_slippage_rejection exConsts exCtx exState exSlippageMsg (DecCoin.mk "xxb" 9066108938)
    (by decide) (Or.inl ⟨by decide, exPool, by decide, by decide⟩)

/-! ## C6: deadline rejection -/

/-- Requests past their deadline are rejected with the deadline result and no
    state change by `handleMsgAddLiquidity`, `handleMsgRemoveLiquidity` and
    `handleMsgTokenToToken` whatever the balances and pools are, and by
    `handleMsgTokenToNativeToken` when the sender holds the sold amount. -/
theorem deadline_rejection (c : Consts) (ctx : Context) (k : State) :
    (∀ msg : MsgAddLiquidity, msg.Deadline < ctx.BlockTime →
      handleMsgAddLiquidity c ctx k msg = some (deadlineResult, k)) ∧
    (∀ msg : MsgRemoveLiquidity, msg.Deadline < ctx.BlockTime →
      handleMsgRemoveLiquidity c ctx k msg = some (deadlineResult, k)) ∧
    (∀ msg : MsgTokenToToken, msg.Deadline < ctx.BlockTime →
      handleMsgTokenToToken c ctx k msg = some (deadlineResult, k)) ∧
    (∀ msg : MsgTokenToToken, msg.Deadline < ctx.BlockTime →
      HasSufficientCoins (k.bal msg.Sender) [msg.SoldTokenAmount] = true →
      handleMsgTokenToNativeToken c ctx k msg = some (deadlineResult, k)) ∧
    (∀ msg : MsgTokenToToken,
      HasSufficientCoins (k.bal msg.Sender) [msg.SoldTokenAmount] = false →
      handleMsgTokenToNativeToken c ctx k msg =
        some ({ Code := CodeType.CodeInsufficientCoins, Log := "insufficient coins" }, k)) := by
  refine ⟨?_, ?_, ?_, ?_, ?_⟩
  · intro msg h
    unfold handleMsgAddLiquidity
    rw [if_pos h]
    rfl
  · intro msg h
    unfold handleMsgRemoveLiquidity
    rw [if_pos h]
    rfl
  · intro msg h
    unfold handleMsgTokenToToken
    rw [if_pos h]
    rfl
  · intro msg h hs
    unfold handleMsgTokenToNativeToken
    rw [if_neg (by simp [hs]), if_pos h]
    rfl
  · intro msg hs
    unfold handleMsgTokenToNativeToken
    rw [if_pos hs]
    rfl

/-- C6, failing input.  A direct swap past its deadline whose sender does not
    hold the sold amount is rejected with the insufficient-coins code, not with
    the deadline result, although the store is left unchanged; the routed
    handler rejects the same kind of request with the deadline result. -/
theorem C6_deadline_rejection_direct_swap :
    exLateDirectMsg.Deadline < exCtx.BlockTime ∧
      handleMsgTokenToTokenExchange exConsts exCtx exState exLateDirectMsg =
        some ({ Code := CodeType.CodeInsufficientCoins, Log := "insufficient coins" },
          exState) ∧
      exLateRoutedMsg.Deadline < exCtx.BlockTime ∧
      handleMsgTokenToTokenExchange exConsts exCtx exTwoPools exLateRoutedMsg =
        some (deadlineResult, exTwoPools) :=
  ⟨by decide, rfl, by decide, rfl⟩

/-! ## C7: error paths of the direct swap -/

/-- C7, counterexample.  On a store whose pool account holds less of `xxb` than
    the swap buys, the direct swap of the example fails inside
    `swapTokenNativeToken` at the transfer to the recipient, after the transfer
    from the sender: the result is a failure, the pool is unchanged, and the
    sender's balance of the reserve token has dropped from 500 to 400. -/
theorem C7_direct_swap_error_counterexample :
    ∃ r, handleMsgTokenToTokenExchange exConsts exCtx exUnderfunded exSwapMsg = some r ∧
      r.1.IsOK = false ∧
      GetSwapTokenPair r.2 "xxb_tokt" = GetSwapTokenPair exUnderfunded "xxb_tokt" ∧
      exUnderfunded.bal "alice" "tokt" = 50000000000 ∧
      r.2.bal "alice" "tokt" = 40000000000 ∧
      r.2.bal "pool" "tokt" = exUnderfunded.bal "pool" "tokt" + 10000000000 :=
  ⟨_, rfl, rfl, by decide, by decide, by decide, by decide⟩

/-- C7, amended.  Whenever a direct swap returns a failed result, the pool
    registry, the share supplies, the token registry and the parameters equal
    their values before the call; the ledger balances do too on every error
    path but one: when the transfer from the pool account to the recipient
    fails, the returned state is the one after the sender's transfer to the
    pool account. -/
theorem C7_direct_swap_error_paths (c : Consts) (ctx : Context) (k k' : State)
    (msg : MsgTokenToToken) (res : Result)
    (hrun : handleMsgTokenToNativeToken c ctx k msg = some (res, k'))
    (hnok : res.IsOK = false) :
    k'.pairs = k.pairs ∧ k'.supply = k.supply ∧ k'.tokens = k.tokens ∧
      k'.params = k.params ∧
      (k' = k ∨
        ∃ p tokenBuy,
          GetSwapTokenPair k (msg.GetSwapTokenPair c) = some p ∧
          CalculateTokenToBuy c p msg.SoldTokenAmount msg.MinBoughtTokenAmount.Denom
            (GetParams k) = some tokenBuy ∧
          SendCoinsToPool c k [msg.SoldTokenAmount] msg.Sender = some k' ∧
          SendCoinsFromPoolToAccount c k' [tokenBuy] msg.Recipient = none) := by
  rcases handleMsgTokenToNativeToken_fail hrun hnok with rfl | ⟨p, tb, hp, hcalc, -, -, hsw⟩
  · exact ⟨rfl, rfl, rfl, rfl, Or.inl rfl⟩
  · rcases swapTokenNativeToken_fail hsw hnok with ⟨-, rfl⟩ | ⟨h1, h2⟩
    · exact ⟨rfl, rfl, rfl, rfl, Or.inl rfl⟩
    · obtain ⟨e1, e2, e3, e4⟩ := SendCoinsToPool_frame h1
      exact ⟨e1, e3, e2, e4, Or.inr ⟨p, tb, hp, hcalc, h1, h2⟩⟩

/-- Witness of C7: the example swap rejected for slippage. -/
theorem C7_direct_swap_error_paths_witness :
    ∃ r, handleMsgTokenToNativeToken exConsts exCtx exState exSlippageMsg = some r ∧
      r.1.IsOK = false ∧ r.2.pairs = exState.pairs ∧ r.2.supply = exState.supply := by
  obtain ⟨r, hr, hno⟩ : ∃ r, handleMsgTokenToNativeToken exConsts exCtx exState exSlippageMsg
      = some r ∧ r.1.IsOK = false := ⟨_, rfl, rfl⟩
  have h := C7_direct_swap_error_paths exConsts exCtx exState r.2 exSlippageMsg r.1 hr hno
  exact ⟨r, hr, hno, h.1, h.2.1⟩

/-! ## Successful deposits and withdrawals -/

/-- A successful `handleMsgAddLiquidity`: the amounts, the transfer and the
    state it returns. -/
theorem handleMsgAddLiquidity_success {c : Consts} {ctx : Context} {k k' : State}
    {msg : MsgAddLiquidity} {res : Result}
    (h : handleMsgAddLiquidity c ctx k msg = some (res, k')) (hok : res.IsOK = true) :
    ∃ p poolToken baseAmount liquidity k1,
      ¬ msg.Deadline < ctx.BlockTime ∧
      GetSwapTokenPair k msg.GetSwapTokenPair = some p ∧
      GetPoolTokenInfo k p.PoolTokenName = some poolToken ∧
      ((p.QuotePooledCoin.Amount = 0 ∧ p.BasePooledCoin.Amount = 0 ∧
          baseAmount = msg.MaxBaseAmount.Amount ∧ liquidity = NewDec c 1) ∨
        (0 < p.BasePooledCoin.Amount ∧ 0 < p.QuotePooledCoin.Amount ∧
          baseAmount =
            (msg.QuoteAmount.Amount * p.BasePooledCoin.Amount).tdiv p.QuotePooledCoin.Amount ∧
          GetPoolTokenAmount k p.PoolTokenName ≠ 0 ∧
          liquidity =
            (msg.QuoteAmount.Amount * GetPoolTokenAmount k p.PoolTokenName).tdiv
              p.QuotePooledCoin.Amount)) ∧
      baseAmount ≤ msg.MaxBaseAmount.Amount ∧ msg.MinLiquidity ≤ liquidity ∧ 0 < liquidity ∧
      p.QuotePooledCoin.Denom = msg.QuoteAmount.Denom ∧
      p.BasePooledCoin.Denom = msg.MaxBaseAmount.Denom ∧
      SendCoinsToPool c k
        (coinSort [msg.QuoteAmount, DecCoin.mk msg.MaxBaseAmount.Denom baseAmount])
        msg.Sender = some k1 ∧
      k'.pairs = (SetSwapTokenPair k1 msg.GetSwapTokenPair
        (addedPair p msg.QuoteAmount.Amount baseAmount)).pairs ∧
      k'.supply = (fun d => if d = poolToken.Symbol then k.supply d + liquidity
        else k.supply d) ∧
      k'.bal = addBal k1.bal msg.Sender poolToken.Symbol liquidity ∧
      k'.tokens = k.tokens ∧ k'.params = k.params := by
  rcases handleMsgAddLiquidity_cases h with ⟨hno, -⟩ |
    ⟨p, poolToken, baseAmount, liquidity, hdl, hp, ht, hbranch, hfin⟩
  · rw [hok] at hno
    exact absurd hno (by decide)
  rcases addLiquidityFinish_cases hfin with ⟨hno, -⟩ |
    ⟨k1, hmax, hmin, hsend, hqd, hbd, -, hmint⟩
  · rw [hok] at hno
    exact absurd hno (by decide)
  rcases hmint with ⟨hno, -, -⟩ | ⟨-, hmint⟩
  · rw [hok] at hno
    exact absurd hno (by decide)
  obtain ⟨hl, rfl⟩ := MintPoolCoinsToUser_single hmint
  obtain ⟨-, e2, e3, e4⟩ := SendCoinsToPool_frame hsend
  refine ⟨p, poolToken, baseAmount, liquidity, k1, hdl, hp, ht, ?_, hmax, hmin, hl, hqd, hbd,
    hsend, rfl, ?_, rfl, e2, e4⟩
  · rcases hbranch with hb | ⟨a, b, c1, d, e, -⟩
    · exact Or.inl hb
    · exact Or.inr ⟨a, b, c1, d, e⟩
  · funext d
    show (if d = poolToken.Symbol then k1.supply d + liquidity else k1.supply d) = _
    rw [e3]

/-- A successful `handleMsgRemoveLiquidity`: the amounts, the transfer and the
    state it returns. -/
theorem handleMsgRemoveLiquidity_success {c : Consts} {ctx : Context} {k k' : State}
    {msg : MsgRemoveLiquidity} {res : Result}
    (h : handleMsgRemoveLiquidity c ctx k msg = some (res, k')) (hok : res.IsOK = true) :
    ∃ p k1 baseDec quoteDec,
      ¬ msg.Deadline < ctx.BlockTime ∧
      GetSwapTokenPair k msg.GetSwapTokenPair = some p ∧
      msg.Liquidity ≤ GetPoolTokenAmount k p.PoolTokenName ∧
      GetPoolTokenAmount k p.PoolTokenName ≠ 0 ∧
      baseDec = (p.BasePooledCoin.Amount * msg.Liquidity).tdiv
        (GetPoolTokenAmount k p.PoolTokenName) ∧
      quoteDec = (p.QuotePooledCoin.Amount * msg.Liquidity).tdiv
        (GetPoolTokenAmount k p.PoolTokenName) ∧
      0 ≤ baseDec ∧ 0 ≤ quoteDec ∧
      msg.MinBaseAmount.Amount ≤ baseDec ∧ msg.MinQuoteAmount.Amount ≤ quoteDec ∧
      SendCoinsFromPoolToAccount c k
        (coinSort [DecCoin.mk p.BasePooledCoin.Denom baseDec,
          DecCoin.mk p.QuotePooledCoin.Denom quoteDec]) msg.Sender = some k1 ∧
      0 < msg.Liquidity ∧ msg.Liquidity ≤ k1.bal msg.Sender p.PoolTokenName ∧
      k'.pairs = (SetSwapTokenPair k1 msg.GetSwapTokenPair
        (removedPair p quoteDec baseDec)).pairs ∧
      k'.supply = (fun d => if d = p.PoolTokenName then k.supply d - msg.Liquidity
        else k.supply d) ∧
      k'.bal = addBal k1.bal msg.Sender p.PoolTokenName (-msg.Liquidity) ∧
      k'.tokens = k.tokens ∧ k'.params = k.params := by
  rcases handleMsgRemoveLiquidity_cases h with ⟨hno, -⟩ |
    ⟨p, k1, baseDec, quoteDec, hdl, hp, hle, hT, hb, hq, hb0, hq0, -, -, hbm, hqm, hsend, -,
      hburn⟩
  · rw [hok] at hno
    exact absurd hno (by decide)
  rcases hburn with ⟨hno, -, -⟩ | ⟨-, hburn⟩
  · rw [hok] at hno
    exact absurd hno (by decide)
  obtain ⟨hl, hlb, rfl⟩ := BurnPoolCoinsFromUser_single hburn
  obtain ⟨-, e2, e3, e4⟩ := SendCoinsFromPoolToAccount_frame hsend
  refine ⟨p, k1, baseDec, quoteDec, hdl, hp, hle, hT, hb, hq, hb0, hq0, hbm, hqm, hsend, hl,
    hlb, rfl, ?_, rfl, e2, e4⟩
  funext d
  show (if d = p.PoolTokenName then k1.supply d - msg.Liquidity else k1.supply d) = _
  rw [e3]

/-! ## C8: the liquidity round trip -/

theorem pos_of_tdiv_pos {a b : Int} (hb : 0 < b) (h : 0 < a.tdiv b) : 0 < a := by
  by_contra hc
  push_neg at hc
  have h1 : (-a).tdiv b = -(a.tdiv b) := Int.neg_tdiv a b
  have h2 : 0 ≤ (-a).tdiv b := Int.tdiv_nonneg (by linarith) hb.le
  linarith

/-- Arithmetic of a deposit into an active pool followed by the withdrawal of
    the minted shares. -/
theorem round_trip_active {B Q T q : Int} (hB : 0 < B) (hQ : 0 < Q) (hT : 0 < T)
    (hL : 0 < (q * T).tdiv Q) :
    0 ≤ (q * B).tdiv Q - ((B + (q * B).tdiv Q) * (q * T).tdiv Q).tdiv (T + (q * T).tdiv Q) ∧
    0 ≤ q - ((Q + q) * (q * T).tdiv Q).tdiv (T + (q * T).tdiv Q) ∧
    ((q * B).tdiv Q - ((B + (q * B).tdiv Q) * (q * T).tdiv Q).tdiv (T + (q * T).tdiv Q)) *
        (T + (q * T).tdiv Q) < B + (T + (q * T).tdiv Q) ∧
    (q - ((Q + q) * (q * T).tdiv Q).tdiv (T + (q * T).tdiv Q)) * (T + (q * T).tdiv Q) <
      Q + (T + (q * T).tdiv Q) := by
  have hqT : 0 < q * T := pos_of_tdiv_pos hQ hL
  have hq : 0 < q := by
    by_contra hc
    push_neg at hc
    nlinarith
  obtain ⟨hbu0, hbu1, hbu2⟩ := tdiv_bounds (mul_nonneg hq.le hB.le) hQ
  obtain ⟨-, hL1, hL2⟩ := tdiv_bounds hqT.le hQ
  generalize (q * B).tdiv Q = bu at *
  generalize (q * T).tdiv Q = L at *
  have hT' : 0 < T + L := by linarith
  obtain ⟨hbo0, hbo1, hbo2⟩ := tdiv_bounds
    (mul_nonneg (by linarith : 0 ≤ B + bu) hL.le) hT'
  obtain ⟨hqo0, hqo1, hqo2⟩ := tdiv_bounds
    (mul_nonneg (by linarith : 0 ≤ Q + q) hL.le) hT'
  generalize ((B + bu) * L).tdiv (T + L) = bo at *
  generalize ((Q + q) * L).tdiv (T + L) = qo at *
  -- B * L < (bu + 1) * T and bu * T - B * L < B, both scaled by Q
  have k1 : B * L * Q ≤ B * (q * T) := by nlinarith
  have k2 : B * (q * T) < (bu + 1) * T * Q := by nlinarith
  have k3 : B * L < (bu + 1) * T := by
    by_contra hc
    push_neg at hc
    have := mul_le_mul_of_nonneg_right hc hQ.le
    linarith
  have k4 : bu * T * Q ≤ q * B * T := by nlinarith
  have k5 : q * B * T < B * (L + 1) * Q := by nlinarith
  have k6 : bu * T - B * L < B := by
    by_contra hc
    push_neg at hc
    have := mul_le_mul_of_nonneg_right hc hQ.le
    nlinarith
  refine ⟨?_, ?_, ?_, ?_⟩
  · have : bo * (T + L) < (bu + 1) * (T + L) := by nlinarith
    have := lt_of_mul_lt_mul_right this hT'.le
    linarith
  · have : qo * (T + L) ≤ q * (T + L) := by nlinarith
    have := le_of_mul_le_mul_right this hT'
    linarith
  · nlinarith
  · nlinarith

/-- C8, counterexample.  On the example pool (reserves 1000 and 1000, one share
    outstanding) a deposit of 1500 smallest units of the reserve token succeeds,
    uses 1500 smallest units of `xxb` and mints one smallest unit of the share
    token; the withdrawal of that unit right after it pays out 1000 smallest
    units of each token: 500 smallest units less than were deposited, on each
    side. -/
theorem C8_round_trip_counterexample :
    ∃ r1 r2, handleMsgAddLiquidity exConsts exCtx exState exSmallDeposit = some r1 ∧
      r1.1.IsOK = true ∧
      handleMsgRemoveLiquidity exConsts exCtx r1.2 exSmallWithdrawal = some r2 ∧
      r2.1.IsOK = true ∧
      GetPoolTokenAmount r1.2 "ammswap_xxb" = GetPoolTokenAmount exState "ammswap_xxb" + 1 ∧
      r1.2.bal "alice" "tokt" = exState.bal "alice" "tokt" - 1500 ∧
      r1.2.bal "alice" "xxb" = exState.bal "alice" "xxb" - 1500 ∧
      r2.2.bal "alice" "tokt" = r1.2.bal "alice" "tokt" + 1000 ∧
      r2.2.bal "alice" "xxb" = r1.2.bal "alice" "xxb" + 1000 :=
  ⟨_, _, rfl, rfl, rfl, rfl, by decide, by decide, by decide, by decide, by decide⟩

/-- C8, amended.  Let an add-liquidity request succeed on a pool whose share
    supply is non-negative (and zero if the pool is unfunded) and whose share
    token is registered under its own name, and let a remove-liquidity request
    for the same pool and exactly the minted liquidity succeed right after it.
    With `baseUsed` and the quote amount deposited and `baseOut`, `quoteOut`
    paid out: `0 <= baseUsed - baseOut` and `0 <= quote_amount - quoteOut`; the
    two are equal on both sides for the first deposit into an unfunded pool; and
    for an active pool the loss on each side, times the share supply after the
    deposit, is less than the reserve before the deposit plus that supply (the
    loss is bounded by the reserve behind one smallest share unit, not by one
    smallest unit). -/
theorem C8_round_trip (c : Consts) (ctx ctx2 : Context) (k k1 k2 : State)
    (msgA : MsgAddLiquidity) (msgR : MsgRemoveLiquidity) (resA resR : Result)
    (p : SwapTokenPair)
    (hp : GetSwapTokenPair k msgA.GetSwapTokenPair = some p)
    (hsup : 0 ≤ GetPoolTokenAmount k p.PoolTokenName)
    (hsym : ∀ t, GetPoolTokenInfo k p.PoolTokenName = some t → t.Symbol = p.PoolTokenName)
    (hcons : p.QuotePooledCoin.Amount = 0 → p.BasePooledCoin.Amount = 0 →
      GetPoolTokenAmount k p.PoolTokenName = 0)
    (hadd : handleMsgAddLiquidity c ctx k msgA = some (resA, k1)) (hokA : resA.IsOK = true)
    (hname : msgR.GetSwapTokenPair = msgA.GetSwapTokenPair)
    (hL : msgR.Liquidity =
      GetPoolTokenAmount k1 p.PoolTokenName - GetPoolTokenAmount k p.PoolTokenName)
    (hrem : handleMsgRemoveLiquidity c ctx2 k1 msgR = some (resR, k2))
    (hokR : resR.IsOK = true) :
    ∃ baseUsed baseOut quoteOut,
      GetSwapTokenPair k1 msgA.GetSwapTokenPair =
        some (addedPair p msgA.QuoteAmount.Amount baseUsed) ∧
      GetSwapTokenPair k2 msgA.GetSwapTokenPair =
        some (removedPair (addedPair p msgA.QuoteAmount.Amount baseUsed) quoteOut baseOut) ∧
      (∃ ka, SendCoinsToPool c k
        (coinSort [msgA.QuoteAmount, DecCoin.mk msgA.MaxBaseAmount.Denom baseUsed])
        msgA.Sender = some ka) ∧
      (∃ kb, SendCoinsFromPoolToAccount c k1
        (coinSort [DecCoin.mk p.BasePooledCoin.Denom baseOut,
          DecCoin.mk p.QuotePooledCoin.Denom quoteOut]) msgR.Sender = some kb) ∧
      0 ≤ baseUsed - baseOut ∧ 0 ≤ msgA.QuoteAmount.Amount - quoteOut ∧
      (p.QuotePooledCoin.Amount = 0 →
        baseOut = baseUsed ∧ quoteOut = msgA.QuoteAmount.Amount) ∧
      (0 < p.QuotePooledCoin.Amount →
        (baseUsed - baseOut) * GetPoolTokenAmount k1 p.PoolTokenName <
            p.BasePooledCoin.Amount + GetPoolTokenAmount k1 p.PoolTokenName ∧
          (msgA.QuoteAmount.Amount - quoteOut) * GetPoolTokenAmount k1 p.PoolTokenName <
            p.QuotePooledCoin.Amount + GetPoolTokenAmount k1 p.PoolTokenName) := by
  obtain ⟨p', tok, bu, L, ka, -, hp', htok, hbranch, -, -, hLpos, -, -, hsendA, hpairs1, hsup1,
    -, -, -⟩ := handleMsgAddLiquidity_success hadd hokA
  rw [hp] at hp'
  obtain rfl : p = p' := by simpa using hp'
  have hs := hsym tok htok
  have hT1 : GetPoolTokenAmount k1 p.PoolTokenName = GetPoolTokenAmount k p.PoolTokenName + L := by
    simp [GetPoolTokenAmount, hsup1, hs]
  rw [hT1] at hL ⊢
  have hL' : msgR.Liquidity = L := by rw [hL]; ring
  have hlook1 : GetSwapTokenPair k1 msgA.GetSwapTokenPair =
      some (addedPair p msgA.QuoteAmount.Amount bu) := by
    simp [GetSwapTokenPair, hpairs1, SetSwapTokenPair]
  obtain ⟨p1, kb, baseDec, quoteDec, -, hp1, -, -, hbd, hqd, -, -, -, -, hsendR, -, -, hpairs2,
    -, -, -, -⟩ := handleMsgRemoveLiquidity_success hrem hokR
  rw [hname, hlook1] at hp1
  obtain rfl : addedPair p msgA.QuoteAmount.Amount bu = p1 := by simpa using hp1
  have hptn : (addedPair p msgA.QuoteAmount.Amount bu).PoolTokenName = p.PoolTokenName := rfl
  have hbq : (addedPair p msgA.QuoteAmount.Amount bu).BasePooledCoin =
      DecCoin.mk p.BasePooledCoin.Denom (p.BasePooledCoin.Amount + bu) := rfl
  have hqq : (addedPair p msgA.QuoteAmount.Amount bu).QuotePooledCoin =
      DecCoin.mk p.QuotePooledCoin.Denom
        (p.QuotePooledCoin.Amount + msgA.QuoteAmount.Amount) := rfl
  rw [hptn, hT1, hL', hbq] at hbd
  rw [hptn, hT1, hL', hqq] at hqd
  simp only at hbd hqd
  rw [hbq, hqq] at hsendR
  refine ⟨bu, baseDec, quoteDec, hlook1, ?_, ⟨ka, hsendA⟩, ⟨kb, hsendR⟩, ?_⟩
  · rw [← hname]
    simp [GetSwapTokenPair, hpairs2, SetSwapTokenPair]
  rcases hbranch with ⟨hQ0, hB0, hbu, hLone⟩ | ⟨hB, hQ, hbu, hT0, hLdef⟩
  · have hT := hcons hQ0 hB0
    rw [hT, hB0] at hbd
    rw [hT, hQ0] at hqd
    simp only [zero_add] at hbd hqd
    rw [Int.mul_tdiv_cancel _ hLpos.ne'] at hbd hqd
    subst hbd hqd
    refine ⟨by simp, by simp, fun _ => ⟨rfl, rfl⟩, fun h => ?_⟩
    rw [hQ0] at h
    exact absurd h (lt_irrefl _)
  · have hT : 0 < GetPoolTokenAmount k p.PoolTokenName := lt_of_le_of_ne hsup (Ne.symm hT0)
    subst hbu hLdef hbd hqd
    obtain ⟨r1, r2, r3, r4⟩ := round_trip_active hB hQ hT hLpos
    refine ⟨r1, r2, fun h => ?_, fun _ => ⟨r3, r4⟩⟩
    rw [h] at hQ
    exact absurd hQ (lt_irrefl _)

/-- Witness of C8: the small deposit into the example pool and the withdrawal
    of the minted share unit. -/
theorem C8_round_trip_witness :
    ∃ r1 r2 baseUsed baseOut quoteOut,
      handleMsgAddLiquidity exConsts exCtx exState exSmallDeposit = some r1 ∧
      handleMsgRemoveLiquidity exConsts exCtx r1.2 exSmallWithdrawal = some r2 ∧
      GetSwapTokenPair r1.2 "xxb_tokt" = some (addedPair exPool 1500 baseUsed) ∧
      GetSwapTokenPair r2.2 "xxb_tokt" =
        some (removedPair (addedPair exPool 1500 baseUsed) quoteOut baseOut) ∧
      0 ≤ baseUsed - baseOut ∧ 0 ≤ 1500 - quoteOut ∧
      (baseUsed - baseOut) * 100000001 < 100000000000 + 100000001 ∧
      (1500 - quoteOut) * 100000001 < 100000000000 + 100000001 := by
  obtain ⟨r1, r2, h1, hok1, h2, hok2, hT⟩ : ∃ r1 r2,
      handleMsgAddLiquidity exConsts exCtx exState exSmallDeposit = some r1 ∧
      r1.1.IsOK = true ∧
      handleMsgRemoveLiquidity exConsts exCtx r1.2 exSmallWithdrawal = some r2 ∧
      r2.1.IsOK = true ∧ GetPoolTokenAmount r1.2 "ammswap_xxb" = 100000001 :=
    ⟨_, _, rfl, rfl, rfl, rfl, by decide⟩
  obtain ⟨bu, bo, qo, a1, a2, -, -, a3, a4, -, a5⟩ :=
    C8_round_trip exConsts exCtx exCtx exState r1.2 r2.2 exSmallDeposit exSmallWithdrawal
      r1.1 r2.1 exPool (by decide) (by decide)
      (by
        intro t ht
        have : GetPoolTokenInfo exState exPool.PoolTokenName =
            some { Symbol := "ammswap_xxb", OriginalSymbol := "ammswap_xxb", TokenType := 2 } := by
          decide
        rw [this] at ht
        simp only [Option.some.injEq] at ht
        rw [← ht]
        rfl)
      (by decide) h1 hok1 (by decide)
      (by
        have e : exPool.PoolTokenName = "ammswap_xxb" := rfl
        rw [e, hT]
        decide)
      h2 hok2
  have e : exPool.PoolTokenName = "ammswap_xxb" := rfl
  rw [e, hT] at a5
  obtain ⟨b1, b2⟩ := a5 (by decide)
  exact ⟨r1, r2, bu, bo, qo, h1, h2, a1, a2, a3, a4, b1, b2⟩

/-! ## C9: deposit into an active pool -/

/-- C9. Add liquidity to an active pool.  For a pool with base reserve `B > 0`,
    quote reserve `Q > 0` and share supply `T > 0`, a successful add-liquidity
    request with quote amount `q` transfers `q` and
    `base_required = trunc(q * B / Q)` from the sender to the pool account
    (through `coinSort`), stores the reserves `(B + base_required, Q + q)` and
    mints `trunc(q * T / Q)` of the share token to the sender; each quotient is
    one truncating division of the product. -/
theorem C9_add_liquidity_active (c : Consts) (ctx : Context) (k k' : State)
    (msg : MsgAddLiquidity) (res : Result) (p : SwapTokenPair) (poolToken : Token)
    (hp : GetSwapTokenPair k msg.GetSwapTokenPair = some p)
    (htok : GetPoolTokenInfo k p.PoolTokenName = some poolToken)
    (hB : 0 < p.BasePooledCoin.Amount) (hQ : 0 < p.QuotePooledCoin.Amount)
    (hT : 0 < GetPoolTokenAmount k p.PoolTokenName)
    (hrun : handleMsgAddLiquidity c ctx k msg = some (res, k')) (hok : res.IsOK = true) :
    ∃ k1,
      SendCoinsToPool c k
        (coinSort [msg.QuoteAmount, DecCoin.mk msg.MaxBaseAmount.Denom
          ((msg.QuoteAmount.Amount * p.BasePooledCoin.Amount).tdiv p.QuotePooledCoin.Amount)])
        msg.Sender = some k1 ∧
      GetSwapTokenPair k' msg.GetSwapTokenPair =
        some (SwapTokenPair.mk
          (DecCoin.mk p.QuotePooledCoin.Denom
            (p.QuotePooledCoin.Amount + msg.QuoteAmount.Amount))
          (DecCoin.mk p.BasePooledCoin.Denom
            (p.BasePooledCoin.Amount +
              (msg.QuoteAmount.Amount * p.BasePooledCoin.Amount).tdiv p.QuotePooledCoin.Amount))
          p.PoolTokenName) ∧
      GetPoolTokenAmount k' poolToken.Symbol = GetPoolTokenAmount k poolToken.Symbol +
        (msg.QuoteAmount.Amount * GetPoolTokenAmount k p.PoolTokenName).tdiv
          p.QuotePooledCoin.Amount ∧
      k'.bal msg.Sender poolToken.Symbol = k1.bal msg.Sender poolToken.Symbol +
        (msg.QuoteAmount.Amount * GetPoolTokenAmount k p.PoolTokenName).tdiv
          p.QuotePooledCoin.Amount := by
  have _hpos := And.intro hB hT
  obtain ⟨p', tok, bu, L, k1, -, hp', htok', hbranch, -, -, -, -, -, hsend, hpairs, hsup, hbal,
    -, -⟩ := handleMsgAddLiquidity_success hrun hok
  rw [hp] at hp'
  obtain rfl : p = p' := by simpa using hp'
  rw [htok] at htok'
  obtain rfl : poolToken = tok := by simpa using htok'
  rcases hbranch with ⟨hQ0, -, -, -⟩ | ⟨-, -, hbu, -, hL⟩
  · rw [hQ0] at hQ
    exact absurd hQ (lt_irrefl _)
  subst hbu hL
  refine ⟨k1, hsend, ?_, ?_, ?_⟩
  · simp [GetSwapTokenPair, hpairs, SetSwapTokenPair, addedPair]
  · simp [GetPoolTokenAmount, hsup]
  · rw [hbal]
    simp [addBal]

/-- Witness of C9: the small deposit into the example pool uses 1500 smallest
    units of `xxb` and mints one smallest unit of the share token. -/
theorem C9_add_liquidity_active_witness :
    ∃ r, handleMsgAddLiquidity exConsts exCtx exState exSmallDeposit = some r ∧
      GetSwapTokenPair r.2 "xxb_tokt" =
        some (SwapTokenPair.mk (DecCoin.mk "tokt" 100000001500)
          (DecCoin.mk "xxb" 100000001500) "ammswap_xxb") ∧
      GetPoolTokenAmount r.2 "ammswap_xxb" = 100000000 + 1 := by
  obtain ⟨r, hr, hok⟩ : ∃ r, handleMsgAddLiquidity exConsts exCtx exState exSmallDeposit
      = some r ∧ r.1.IsOK = true := ⟨_, rfl, rfl⟩
  obtain ⟨k1, -, h2, h3, -⟩ := C9_add_liquidity_active exConsts exCtx exState r.2
    exSmallDeposit r.1 exPool
    { Symbol := "ammswap_xxb", OriginalSymbol := "ammswap_xxb", TokenType := 2 }
    (by decide) (by decide) (by decide) (by decide) (by decide) hr hok
  exact ⟨r, hr, h2, h3⟩

/-! ## C10: the first deposit -/

theorem NewDec_one_pos (c : Consts) : 0 < NewDec c 1 := by
  unfold NewDec
  have := OneDec_pos c
  linarith

/-- C10. First deposit.  On a pool with both reserves zero whose share token is
    registered, every successful add-liquidity request with quote amount `q` and
    maximal base amount `m` stores the reserves base `m` and quote `q` and mints
    exactly one unit (the decimal 1) of the share token to the sender, so that a
    total supply of zero becomes one; and the request does succeed whenever the
    deadline has not passed, the minimal liquidity is at most one, the request's
    denominations are those of the pool and the transfer of `q` and `m` to the
    pool account succeeds. -/
theorem C10_first_deposit (c : Consts) (ctx : Context) (k : State) (msg : MsgAddLiquidity)
    (p : SwapTokenPair) (poolToken : Token)
    (hp : GetSwapTokenPair k msg.GetSwapTokenPair = some p)
    (htok : GetPoolTokenInfo k p.PoolTokenName = some poolToken)
    (hQ : p.QuotePooledCoin.Amount = 0) (hB : p.BasePooledCoin.Amount = 0) :
    (∀ res k', handleMsgAddLiquidity c ctx k msg = some (res, k') → res.IsOK = true →
      (∃ k1, SendCoinsToPool c k
          (coinSort [msg.QuoteAmount,
            DecCoin.mk msg.MaxBaseAmount.Denom msg.MaxBaseAmount.Amount])
          msg.Sender = some k1 ∧
        k'.bal msg.Sender poolToken.Symbol = k1.bal msg.Sender poolToken.Symbol + NewDec c 1) ∧
      GetSwapTokenPair k' msg.GetSwapTokenPair =
        some (SwapTokenPair.mk (DecCoin.mk msg.QuoteAmount.Denom msg.QuoteAmount.Amount)
          (DecCoin.mk msg.MaxBaseAmount.Denom msg.MaxBaseAmount.Amount) p.PoolTokenName) ∧
      GetPoolTokenAmount k' poolToken.Symbol =
        GetPoolTokenAmount k poolToken.Symbol + NewDec c 1 ∧
      (GetPoolTokenAmount k poolToken.Symbol = 0 →
        GetPoolTokenAmount k' poolToken.Symbol = NewDec c 1)) ∧
    (¬ msg.Deadline < ctx.BlockTime → msg.MinLiquidity ≤ NewDec c 1 →
      p.QuotePooledCoin.Denom = msg.QuoteAmount.Denom →
      p.BasePooledCoin.Denom = msg.MaxBaseAmount.Denom →
      (∃ k1, SendCoinsToPool c k
        (coinSort [msg.QuoteAmount,
          DecCoin.mk msg.MaxBaseAmount.Denom msg.MaxBaseAmount.Amount])
        msg.Sender = some k1) →
      ∃ k', handleMsgAddLiquidity c ctx k msg = some (okResult, k')) := by
  constructor
  · intro res k' hrun hok
    obtain ⟨p', tok, bu, L, k1, -, hp', htok', hbranch, -, -, -, hqd, hbd, hsend, hpairs, hsup,
      hbal, -, -⟩ := handleMsgAddLiquidity_success hrun hok
    rw [hp] at hp'
    obtain rfl : p = p' := by simpa using hp'
    rw [htok] at htok'
    obtain rfl : poolToken = tok := by simpa using htok'
    rcases hbranch with ⟨-, -, hbu, hL⟩ | ⟨-, hQpos, -, -, -⟩
    swap
    · rw [hQ] at hQpos
      exact absurd hQpos (lt_irrefl _)
    subst hbu hL
    have hsupply : GetPoolTokenAmount k' poolToken.Symbol =
        GetPoolTokenAmount k poolToken.Symbol + NewDec c 1 := by
      simp [GetPoolTokenAmount, hsup]
    refine ⟨⟨k1, hsend, ?_⟩, ?_, hsupply, ?_⟩
    · rw [hbal]
      simp [addBal]
    · simp [GetSwapTokenPair, hpairs, SetSwapTokenPair, addedPair, hQ, hB, hqd, hbd]
    · intro h0
      rw [hsupply, h0, zero_add]
  · rintro hdl hmin hqd hbd ⟨k1, hsend⟩
    have hone := NewDec_one_pos c
    unfold handleMsgAddLiquidity
    rw [if_neg hdl]
    simp only [hp, htok]
    rw [if_pos ⟨hQ, hB⟩]
    unfold addLiquidityFinish
    rw [if_neg (lt_irrefl _), if_neg (not_lt.2 hmin)]
    simp only [hsend, DecCoin.Add, hqd, hbd, if_true, NewDecCoinFromDec, not_lt.2 hone.le,
      if_false, MintPoolCoinsToUser, mintCoin, hone]
    exact ⟨_, rfl⟩

/-- Witness of C10: the scenario `q = 500`, `m = 500` on the unfunded example
    pool gives the reserves `(500, 500)` and a total supply of one. -/
theorem C10_first_deposit_witness :
    ∃ r, handleMsgAddLiquidity exConsts exCtx exEmptyState exFirstDeposit = some r ∧
      r.1.IsOK = true ∧
      GetSwapTokenPair r.2 "xxb_tokt" =
        some (SwapTokenPair.mk (DecCoin.mk "tokt" 50000000000) (DecCoin.mk "xxb" 50000000000)
          "ammswap_xxb") ∧
      GetPoolTokenAmount r.2 "ammswap_xxb" = NewDec exConsts 1 := by
  obtain ⟨r, hr, hok⟩ : ∃ r, handleMsgAddLiquidity exConsts exCtx exEmptyState exFirstDeposit
      = some r ∧ r.1.IsOK = true := ⟨_, rfl, rfl⟩
  obtain ⟨-, h2, -, h4⟩ := (C10_first_deposit exConsts exCtx exEmptyState exFirstDeposit
    (SwapTokenPair.mk (DecCoin.mk "tokt" 0) (DecCoin.mk "xxb" 0) "ammswap_xxb")
    { Symbol := "ammswap_xxb", OriginalSymbol := "ammswap_xxb", TokenType := 2 }
    (by decide) (by decide) (by decide) (by decide)).1 r.1 r.2 hr hok
  exact ⟨r, hr, hok, h2, h4 (by decide)⟩

/-! ## C11: amounts of a withdrawal -/

/-- C11. Remove liquidity amounts.  For a pool with reserves `(B, Q)` and share
    supply `T > 0`, a successful remove-liquidity request for `l` shares with
    `0 <= l <= T` transfers `base_out = trunc(B * l / T)` and
    `quote_out = trunc(Q * l / T)` from the pool account to the sender (through
    `coinSort`), stores the reserves `(B - base_out, Q - quote_out)` and burns
    exactly `l` of the share token from the sender: the sender's balance and the
    total supply of the share token both drop by `l`. -/
theorem C11_remove_liquidity_amounts (c : Consts) (ctx : Context) (k k' : State)
    (msg : MsgRemoveLiquidity) (res : Result) (p : SwapTokenPair)
    (hp : GetSwapTokenPair k msg.GetSwapTokenPair = some p)
    (hT : 0 < GetPoolTokenAmount k p.PoolTokenName)
    (hl0 : 0 ≤ msg.Liquidity) (hlT : msg.Liquidity ≤ GetPoolTokenAmount k p.PoolTokenName)
    (hrun : handleMsgRemoveLiquidity c ctx k msg = some (res, k')) (hok : res.IsOK = true) :
    ∃ k1,
      SendCoinsFromPoolToAccount c k
        (coinSort [DecCoin.mk p.BasePooledCoin.Denom
            ((p.BasePooledCoin.Amount * msg.Liquidity).tdiv
              (GetPoolTokenAmount k p.PoolTokenName)),
          DecCoin.mk p.QuotePooledCoin.Denom
            ((p.QuotePooledCoin.Amount * msg.Liquidity).tdiv
              (GetPoolTokenAmount k p.PoolTokenName))]) msg.Sender = some k1 ∧
      GetSwapTokenPair k' msg.GetSwapTokenPair =
        some (SwapTokenPair.mk
          (DecCoin.mk p.QuotePooledCoin.Denom
            (p.QuotePooledCoin.Amount -
              (p.QuotePooledCoin.Amount * msg.Liquidity).tdiv
                (GetPoolTokenAmount k p.PoolTokenName)))
          (DecCoin.mk p.BasePooledCoin.Denom
            (p.BasePooledCoin.Amount -
              (p.BasePooledCoin.Amount * msg.Liquidity).tdiv
                (GetPoolTokenAmount k p.PoolTokenName)))
          p.PoolTokenName) ∧
      GetPoolTokenAmount k' p.PoolTokenName =
        GetPoolTokenAmount k p.PoolTokenName - msg.Liquidity ∧
      k'.bal = addBal k1.bal msg.Sender p.PoolTokenName (-msg.Liquidity) ∧
      k'.bal msg.Sender p.PoolTokenName = k1.bal msg.Sender p.PoolTokenName - msg.Liquidity := by
  have _hrange := And.intro hT (And.intro hl0 hlT)
  obtain ⟨p', k1, baseDec, quoteDec, -, hp', -, -, hb, hq, -, -, -, -, hsend, -, -, hpairs,
    hsup, hbal, -, -⟩ := handleMsgRemoveLiquidity_success hrun hok
  rw [hp] at hp'
  obtain rfl : p = p' := by simpa using hp'
  subst hb hq
  refine ⟨k1, hsend, ?_, ?_, hbal, ?_⟩
  · simp [GetSwapTokenPair, hpairs, SetSwapTokenPair, removedPair]
  · simp [GetPoolTokenAmount, hsup]
  · rw [hbal]
    simp [addBal]
    ring

/-- Witness of C11: half of the outstanding share of the example pool is
    withdrawn; 500 of each token are paid out and the reserves become 500 and
    500. -/
theorem C11_remove_liquidity_amounts_witness :
    ∃ r, handleMsgRemoveLiquidity exConsts exCtx exState exWithdrawal = some r ∧
      r.1.IsOK = true ∧
      GetSwapTokenPair r.2 "xxb_tokt" =
        some (SwapTokenPair.mk (DecCoin.mk "tokt" 50000000000) (DecCoin.mk "xxb" 50000000000)
          "ammswap_xxb") ∧
      GetPoolTokenAmount r.2 "ammswap_xxb" = 100000000 - 50000000 := by
  obtain ⟨r, hr, hok⟩ : ∃ r, handleMsgRemoveLiquidity exConsts exCtx exState exWithdrawal
      = some r ∧ r.1.IsOK = true := ⟨_, rfl, rfl⟩
  obtain ⟨k1, -, h2, h3, -, -⟩ := C11_remove_liquidity_amounts exConsts exCtx exState r.2
    exWithdrawal r.1 exPool (by decide) (by decide) (by decide) (by decide) hr hok
  exact ⟨r, hr, hok, h2, h3⟩

/-! ## C12: threshold rejection of a deposit -/

/-- C12. Add liquidity threshold rejection.  On an existing pool the
    add-liquidity handler returns a failed result together with the state it
    was called on (no transfer, no reserve change, no mint) whenever the
    computed base amount exceeds the maximal base amount, or the computed
    liquidity is below the minimal liquidity, or, for an active pool, the
    computed liquidity is zero.  For an unfunded pool the computed amounts are
    the maximal base amount itself and the decimal 1; for an active pool they
    are `trunc(q * B / Q)` and `trunc(q * T / Q)`. -/
theorem C12_add_liquidity_threshold (c : Consts) (ctx : Context) (k : State)
    (msg : MsgAddLiquidity) (p : SwapTokenPair)
    (hp : GetSwapTokenPair k msg.GetSwapTokenPair = some p)
    (hreject :
      (p.QuotePooledCoin.Amount = 0 ∧ p.BasePooledCoin.Amount = 0 ∧
        (msg.MaxBaseAmount.Amount < msg.MaxBaseAmount.Amount ∨
          NewDec c 1 < msg.MinLiquidity)) ∨
      (0 < p.BasePooledCoin.Amount ∧ 0 < p.QuotePooledCoin.Amount ∧
        (msg.MaxBaseAmount.Amount <
            (msg.QuoteAmount.Amount * p.BasePooledCoin.Amount).tdiv p.QuotePooledCoin.Amount ∨
          (msg.QuoteAmount.Amount * GetPoolTokenAmount k p.PoolTokenName).tdiv
            p.QuotePooledCoin.Amount < msg.MinLiquidity ∨
          (msg.QuoteAmount.Amount * GetPoolTokenAmount k p.PoolTokenName).tdiv
            p.QuotePooledCoin.Amount = 0))) :
    ∃ res, handleMsgAddLiquidity c ctx k msg = some (res, k) ∧ res.IsOK = false := by
  unfold handleMsgAddLiquidity
  by_cases hdl : msg.Deadline < ctx.BlockTime
  · rw [if_pos hdl]; exact failWith_fails _ _ _ (by decide)
  rw [if_neg hdl]
  simp only [hp]
  cases ht : GetPoolTokenInfo k p.PoolTokenName with
  | none => exact failWith_fails _ _ _ (by decide)
  | some poolToken =>
    simp only []
    rcases hreject with ⟨hQ, hB, hthr⟩ | ⟨hB, hQ, hthr⟩
    · rw [if_pos ⟨hQ, hB⟩]
      unfold addLiquidityFinish
      rcases hthr with h | h
      · exact absurd h (lt_irrefl _)
      · rw [if_neg (lt_irrefl _), if_pos h]
        exact failWith_fails _ _ _ (by decide)
    · rw [if_neg (by rintro ⟨h, -⟩; rw [h] at hQ; exact lt_irrefl _ hQ),
        if_pos (by simp [DecCoin.IsPositive, hB, hQ])]
      simp only [MulAndQuo, hQ.ne', if_false]
      by_cases hsup : GetPoolTokenAmount k p.PoolTokenName = 0
      · rw [if_pos hsup]; exact failWith_fails _ _ _ (by decide)
      rw [if_neg hsup]
      by_cases hz : (msg.QuoteAmount.Amount * GetPoolTokenAmount k p.PoolTokenName).tdiv
          p.QuotePooledCoin.Amount = 0
      · rw [if_pos hz]; exact failWith_fails _ _ _ (by decide)
      rw [if_neg hz]
      unfold addLiquidityFinish
      rcases hthr with h | h | h
      · rw [if_pos h]; exact failWith_fails _ _ _ (by decide)
      · by_cases hm : msg.MaxBaseAmount.Amount <
            (msg.QuoteAmount.Amount * p.BasePooledCoin.Amount).tdiv p.QuotePooledCoin.Amount
        · rw [if_pos hm]; exact failWith_fails _ _ _ (by decide)
        · rw [if_neg hm, if_pos h]; exact failWith_fails _ _ _ (by decide)
      · exact absurd h hz

/-- Witness of C12: a deposit of 100 of the reserve token into the example pool
    needs 100 of `xxb` and is rejected when 50 are allowed. -/
theorem C12_add_liquidity_threshold_witness :
    ∃ res, handleMsgAddLiquidity exConsts exCtx exState exTightDeposit = some (res, exState) ∧
      res.IsOK = false :=
  C12_add_liquidity_threshold exConsts exCtx exState exTightDeposit exPool (by decide)
    (Or.inr ⟨by decide, by decide, Or.inl (by decide)⟩)

/-! ## C13: the supply check of a withdrawal -/

/-- C13, counterexample.  On the example store whose pool account holds only 50
    of `xxb`, the withdrawal of half the outstanding share passes the deadline
    check and the pool lookup, asks for no more than the total supply, and
    is still rejected with the insufficient-coins code and an unchanged state:
    the payout transfer fails. -/
theorem C13_supply_check_counterexample :
    ¬ exWithdrawal.Deadline < exCtx.BlockTime ∧
      GetSwapTokenPair exUnderfunded exWithdrawal.GetSwapTokenPair = some exPool ∧
      exWithdrawal.Liquidity ≤ GetPoolTokenAmount exUnderfunded exPool.PoolTokenName ∧
      handleMsgRemoveLiquidity exConsts exCtx exUnderfunded exWithdrawal =
        some ({ Code := CodeType.CodeInsufficientCoins, Log := "insufficient coins" },
          exUnderfunded) :=
  ⟨by decide, by decide, by decide, rfl⟩

/-- C13, amended.  For a remove-liquidity request that passes the deadline check
    and the pool lookup: the supply check rejects it (the result with the
    insufficient-coins code and the log of the supply check, state unchanged)
    if and only if the liquidity amount is strictly greater than the pool's
    share total supply, so an amount equal to the supply is not rejected by this
    check; and whenever the handler returns the insufficient-coins code, the
    state is unchanged and either the liquidity amount exceeds the supply or the
    payout transfer from the pool account has failed. -/
theorem C13_supply_check (c : Consts) (ctx : Context) (k : State)
    (msg : MsgRemoveLiquidity) (p : SwapTokenPair)
    (hdl : ¬ msg.Deadline < ctx.BlockTime)
    (hp : GetSwapTokenPair k msg.GetSwapTokenPair = some p) :
    (handleMsgRemoveLiquidity c ctx k msg = some (supplyCheckResult, k) ↔
      GetPoolTokenAmount k p.PoolTokenName < msg.Liquidity) ∧
    (msg.Liquidity = GetPoolTokenAmount k p.PoolTokenName →
      handleMsgRemoveLiquidity c ctx k msg ≠ some (supplyCheckResult, k)) ∧
    (∀ res k', handleMsgRemoveLiquidity c ctx k msg = some (res, k') →
      res.Code = CodeType.CodeInsufficientCoins →
      k' = k ∧
        (GetPoolTokenAmount k p.PoolTokenName < msg.Liquidity ∨
          SendCoinsFromPoolToAccount c k
            (coinSort [DecCoin.mk p.BasePooledCoin.Denom
                ((p.BasePooledCoin.Amount * msg.Liquidity).tdiv
                  (GetPoolTokenAmount k p.PoolTokenName)),
              DecCoin.mk p.QuotePooledCoin.Denom
                ((p.QuotePooledCoin.Amount * msg.Liquidity).tdiv
                  (GetPoolTokenAmount k p.PoolTokenName))]) msg.Sender = none)) := by
  have key : ∀ res k', handleMsgRemoveLiquidity c ctx k msg = some (res, k') →
      res.Code = CodeType.CodeInsufficientCoins →
      k' = k ∧
        ((res = supplyCheckResult ∧ GetPoolTokenAmount k p.PoolTokenName < msg.Liquidity) ∨
          (res.Log = "insufficient coins" ∧
            ¬ GetPoolTokenAmount k p.PoolTokenName < msg.Liquidity ∧
            SendCoinsFromPoolToAccount c k
              (coinSort [DecCoin.mk p.BasePooledCoin.Denom
                  ((p.BasePooledCoin.Amount * msg.Liquidity).tdiv
                    (GetPoolTokenAmount k p.PoolTokenName)),
                DecCoin.mk p.QuotePooledCoin.Denom
                  ((p.QuotePooledCoin.Amount * msg.Liquidity).tdiv
                    (GetPoolTokenAmount k p.PoolTokenName))]) msg.Sender = none)) := by
    intro res k' h hcode
    unfold handleMsgRemoveLiquidity at h
    rw [if_neg hdl] at h
    simp only [hp] at h
    by_cases hsup : GetPoolTokenAmount k p.PoolTokenName < msg.Liquidity
    · rw [if_pos hsup] at h
      simp only [failWith, Option.some.injEq, Prod.mk.injEq] at h
      exact ⟨h.2.symm, Or.inl ⟨h.1.symm, hsup⟩⟩
    rw [if_neg hsup] at h
    by_cases hT : GetPoolTokenAmount k p.PoolTokenName = 0
    · simp [MulAndQuo, hT] at h
    simp only [MulAndQuo, hT, if_false, NewDecCoinFromDec] at h
    by_cases hb0 : (p.BasePooledCoin.Amount * msg.Liquidity).tdiv
        (GetPoolTokenAmount k p.PoolTokenName) < 0
    · simp [hb0] at h
    simp only [hb0, if_false] at h
    by_cases hq0 : (p.QuotePooledCoin.Amount * msg.Liquidity).tdiv
        (GetPoolTokenAmount k p.PoolTokenName) < 0
    · simp [hq0] at h
    simp only [hq0, if_false, DecCoin.IsLT] at h
    by_cases hbd : p.BasePooledCoin.Denom = msg.MinBaseAmount.Denom
    swap
    · simp [hbd] at h
    simp only [hbd, if_true] at h
    by_cases hbm : (p.BasePooledCoin.Amount * msg.Liquidity).tdiv
        (GetPoolTokenAmount k p.PoolTokenName) < msg.MinBaseAmount.Amount
    · simp only [hbm, decide_True, failWith, Option.some.injEq, Prod.mk.injEq] at h
      rw [← h.1] at hcode
      exact absurd hcode (by decide)
    simp only [hbm, decide_False] at h
    by_cases hqd : p.QuotePooledCoin.Denom = msg.MinQuoteAmount.Denom
    swap
    · simp [hqd] at h
    simp only [hqd, if_true] at h
    by_cases hqm : (p.QuotePooledCoin.Amount * msg.Liquidity).tdiv
        (GetPoolTokenAmount k p.PoolTokenName) < msg.MinQuoteAmount.Amount
    · simp only [hqm, decide_True, failWith, Option.some.injEq, Prod.mk.injEq] at h
      rw [← h.1] at hcode
      exact absurd hcode (by decide)
    simp only [hqm, decide_False] at h
    rw [← hbd, ← hqd] at h
    cases hsend : SendCoinsFromPoolToAccount c k
        (coinSort [DecCoin.mk p.BasePooledCoin.Denom
            ((p.BasePooledCoin.Amount * msg.Liquidity).tdiv
              (GetPoolTokenAmount k p.PoolTokenName)),
          DecCoin.mk p.QuotePooledCoin.Denom
            ((p.QuotePooledCoin.Amount * msg.Liquidity).tdiv
              (GetPoolTokenAmount k p.PoolTokenName))]) msg.Sender with
    | none =>
      simp only [hsend, failWith, Option.some.injEq, Prod.mk.injEq] at h
      exact ⟨h.2.symm, Or.inr ⟨by rw [← h.1], hsup, rfl⟩⟩
    | some k1 =>
      exfalso
      simp only [hsend, DecCoin.Sub, if_true] at h
      by_cases hl : msg.Liquidity < 0
      · simp [hl] at h
      simp only [hl, if_false] at h
      split at h
      · simp only [failWith, Option.some.injEq, Prod.mk.injEq] at h
        rw [← h.1] at hcode
        exact absurd hcode (by decide)
      · simp only [Option.some.injEq, Prod.mk.injEq] at h
        rw [← h.1] at hcode
        exact absurd hcode (by decide)
  have hiff : handleMsgRemoveLiquidity c ctx k msg = some (supplyCheckResult, k) ↔
      GetPoolTokenAmount k p.PoolTokenName < msg.Liquidity := by
    constructor
    · intro h
      rcases (key _ _ h rfl).2 with ⟨-, hlt⟩ | ⟨hlog, -, -⟩
      · exact hlt
      · exact absurd hlog (by decide)
    · intro hlt
      unfold handleMsgRemoveLiquidity
      rw [if_neg hdl]
      simp only [hp]
      rw [if_pos hlt]
      rfl
  refine ⟨hiff, ?_, ?_⟩
  · intro heq h
    have := hiff.1 h
    rw [heq] at this
    exact lt_irrefl _ this
  · intro res k' h hcode
    obtain ⟨hk, hor⟩ := key res k' h hcode
    refine ⟨hk, ?_⟩
    rcases hor with ⟨-, hlt⟩ | ⟨-, -, hs⟩
    · exact Or.inl hlt
    · exact Or.inr hs

/-- Witness of C13: the withdrawal of half the outstanding share of the example
    pool is not rejected by the supply check. -/
theorem C13_supply_check_witness :
    handleMsgRemoveLiquidity exConsts exCtx exState exWithdrawal ≠
      some (supplyCheckResult, exState) := by
  intro h
  have := ((C13_supply_check exConsts exCtx exState exWithdrawal exPool (by decide)
    (by decide)).1).1 h
  revert this
  decide

/-! ## Successful routed swaps -/

/-- The registry key of the first leg of a routed swap. -/
theorem msgOne_pair (c : Consts) (msg : MsgTokenToToken)
    (hA : msg.SoldTokenAmount.Denom ≠ c.DefaultBondDenom) :
    (msgOne c msg).GetSwapTokenPair c = msg.SoldTokenAmount.Denom ++ "_" ++ c.DefaultBondDenom := by
  simp [MsgTokenToToken.GetSwapTokenPair, msgOne, hA]

/-- The registry key of the second leg of a routed swap. -/
theorem msgTwo_pair (c : Consts) (msg : MsgTokenToToken) (tokenNative : DecCoin)
    (hn : tokenNative.Denom = c.DefaultBondDenom) :
    (msgTwo msg tokenNative).GetSwapTokenPair c =
      msg.MinBoughtTokenAmount.Denom ++ "_" ++ c.DefaultBondDenom := by
  simp [MsgTokenToToken.GetSwapTokenPair, msgTwo, hn]

/-- A successful `handleMsgTokenToToken`: the two prices, the four transfers
    and the state it returns. -/
theorem handleMsgTokenToToken_success {c : Consts} {ctx : Context} {k k' : State}
    {msg : MsgTokenToToken} {res : Result}
    (h : handleMsgTokenToToken c ctx k msg = some (res, k')) (hok : res.IsOK = true) :
    ∃ p1 p2 tokenNative tokenBuy k1a k1b k2a k2b,
      GetSwapTokenPair k (msg.SoldTokenAmount.Denom ++ "_" ++ c.DefaultBondDenom) = some p1 ∧
      GetSwapTokenPair k (msg.MinBoughtTokenAmount.Denom ++ "_" ++ c.DefaultBondDenom)
        = some p2 ∧
      CalculateTokenToBuy c p1 msg.SoldTokenAmount c.DefaultBondDenom (GetParams k)
        = some tokenNative ∧
      CalculateTokenToBuy c p2 tokenNative msg.MinBoughtTokenAmount.Denom (GetParams k)
        = some tokenBuy ∧
      tokenNative.Denom = c.DefaultBondDenom ∧
      tokenBuy.Denom = msg.MinBoughtTokenAmount.Denom ∧
      SendCoinsToPool c k [msg.SoldTokenAmount] msg.Sender = some k1a ∧
      SendCoinsFromPoolToAccount c k1a [tokenNative] msg.Recipient = some k1b ∧
      SendCoinsToPool c
        (SetSwapTokenPair k1b ((msgOne c msg).GetSwapTokenPair c)
          (swappedPair c p1 tokenNative (msgOne c msg)))
        [tokenNative] msg.Sender = some k2a ∧
      SendCoinsFromPoolToAccount c k2a [tokenBuy] msg.Recipient = some k2b ∧
      k' = SetSwapTokenPair k2b ((msgTwo msg tokenNative).GetSwapTokenPair c)
        (swappedPair c p2 tokenBuy (msgTwo msg tokenNative)) := by
  rcases handleMsgTokenToToken_cases h with ⟨hno, -⟩ |
    ⟨p1, p2, tn, tb, res1, k1, -, -, hp1, hp2, hc1, -, hc2, -, -, hsw1, hrest⟩
  · rw [hok] at hno
    exact absurd hno (by decide)
  rcases hrest with ⟨hno, hres, -⟩ | ⟨hok1, res2, hsw2, hres⟩
  · rw [hres, hno] at hok
    exact absurd hok (by decide)
  rw [hok] at hres
  obtain ⟨k1a, k1b, s1, s2, rfl, -⟩ := swapTokenNativeToken_ok hsw1 hok1
  obtain ⟨k2a, k2b, t1, t2, rfl, -⟩ := swapTokenNativeToken_ok hsw2 hres.symm
  exact ⟨p1, p2, tn, tb, k1a, k1b, k2a, k2b, hp1, hp2, hc1, hc2, CalculateTokenToBuy_denom hc1,
    CalculateTokenToBuy_denom hc2, s1, s2, t1, t2, rfl⟩

/-! ## C14: the quote agrees with the execution -/

/-- C14. Quote agrees with execution.  For every state and every swap request
    that succeeds, direct (in either direction) or routed, `queryBuyAmount`
    returns for the sold coin and the bought denomination, on the state before
    the request, an amount `a` with which the handler has run: starting from
    the state before the request, the ledger calls of the request end with the
    transfer of exactly `a` of the bought denomination from the pool account to
    the recipient, the state the handler returns is the state after that
    transfer with the pool the bought coins come from stored with its output
    reserve reduced by exactly `a`, and a recipient who is neither the pool
    account nor the sender holds exactly `a` more of the bought denomination
    than before the request.  `queryBuyAmount` returns the state it was called
    on. -/
theorem C14_quote_agrees_with_execution (c : Consts) (ctx : Context) (k k' : State)
    (msg : MsgTokenToToken) (res : Result)
    (hrun : handleMsgTokenToTokenExchange c ctx k msg = some (res, k'))
    (hok : res.IsOK = true) :
    (∃ tokenBuy,
      queryBuyAmount c k
          { SoldToken := msg.SoldTokenAmount, TokenToBuy := msg.MinBoughtTokenAmount.Denom }
        = some (Except.ok tokenBuy.Amount, k) ∧
      tokenBuy.Denom = msg.MinBoughtTokenAmount.Denom ∧
      ((¬ (msg.SoldTokenAmount.Denom ≠ c.DefaultBondDenom ∧
            msg.MinBoughtTokenAmount.Denom ≠ c.DefaultBondDenom) ∧
          ∃ p k1 k2,
            GetSwapTokenPair k (msg.GetSwapTokenPair c) = some p ∧
            SendCoinsToPool c k [msg.SoldTokenAmount] msg.Sender = some k1 ∧
            SendCoinsFromPoolToAccount c k1 [tokenBuy] msg.Recipient = some k2 ∧
            k' = SetSwapTokenPair k2 (msg.GetSwapTokenPair c) (swappedPair c p tokenBuy msg) ∧
            GetSwapTokenPair k' (msg.GetSwapTokenPair c)
              = some (swappedPair c p tokenBuy msg) ∧
            reserveOut c (swappedPair c p tokenBuy msg) msg.SoldTokenAmount.Denom =
              reserveOut c p msg.SoldTokenAmount.Denom - tokenBuy.Amount) ∨
        ((msg.SoldTokenAmount.Denom ≠ c.DefaultBondDenom ∧
            msg.MinBoughtTokenAmount.Denom ≠ c.DefaultBondDenom) ∧
          ∃ p1 p2 tokenNative k1a k1b k2a k2b,
            GetSwapTokenPair k (msg.SoldTokenAmount.Denom ++ "_" ++ c.DefaultBondDenom)
              = some p1 ∧
            GetSwapTokenPair k (msg.MinBoughtTokenAmount.Denom ++ "_" ++ c.DefaultBondDenom)
              = some p2 ∧
            CalculateTokenToBuy c p1 msg.SoldTokenAmount c.DefaultBondDenom (GetParams k)
              = some tokenNative ∧
            SendCoinsToPool c k [msg.SoldTokenAmount] msg.Sender = some k1a ∧
            SendCoinsFromPoolToAccount c k1a [tokenNative] msg.Recipient = some k1b ∧
            SendCoinsToPool c
              (SetSwapTokenPair k1b (msg.SoldTokenAmount.Denom ++ "_" ++ c.DefaultBondDenom)
                (swappedPair c p1 tokenNative (msgOne c msg)))
              [tokenNative] msg.Sender = some k2a ∧
            SendCoinsFromPoolToAccount c k2a [tokenBuy] msg.Recipient = some k2b ∧
            k' = SetSwapTokenPair k2b
              (msg.MinBoughtTokenAmount.Denom ++ "_" ++ c.DefaultBondDenom)
              (swappedPair c p2 tokenBuy (msgTwo msg tokenNative)) ∧
            GetSwapTokenPair k' (msg.MinBoughtTokenAmount.Denom ++ "_" ++ c.DefaultBondDenom)
              = some (swappedPair c p2 tokenBuy (msgTwo msg tokenNative)) ∧
            (swappedPair c p2 tokenBuy (msgTwo msg tokenNative)).BasePooledCoin.Amount =
              p2.BasePooledCoin.Amount - tokenBuy.Amount)) ∧
      (msg.Recipient ≠ c.ModuleAccount → msg.Recipient ≠ msg.Sender →
        k'.bal msg.Recipient msg.MinBoughtTokenAmount.Denom =
          k.bal msg.Recipient msg.MinBoughtTokenAmount.Denom + tokenBuy.Amount)) ∧
    (∀ q r k'', queryBuyAmount c k q = some (r, k'') → k'' = k) := by
  constructor
  · unfold handleMsgTokenToTokenExchange at hrun
    by_cases hrouted : msg.SoldTokenAmount.Denom ≠ c.DefaultBondDenom ∧
        msg.MinBoughtTokenAmount.Denom ≠ c.DefaultBondDenom
    · rw [if_pos hrouted] at hrun
      obtain ⟨p1, p2, tn, tb, k1a, k1b, k2a, k2b, hp1, hp2, hc1, hc2, hnd, hbd, s1, s2, t1, t2,
        rfl⟩ := handleMsgTokenToToken_success hrun hok
      have hkey1 := msgOne_pair c msg hrouted.1
      have hkey2 := msgTwo_pair c msg tn hnd
      rw [hkey1] at t1
      rw [hkey2]
      refine ⟨tb, ?_, hbd, Or.inr ⟨hrouted, p1, p2, tn, k1a, k1b, k2a, k2b, hp1, hp2, hc1, s1,
        s2, t1, t2, rfl, ?_, ?_⟩, ?_⟩
      · unfold queryBuyAmount
        simp only [if_neg hrouted.1, if_neg hrouted.2, hp1, hp2, hc1, hc2]
      · rw [GetSwapTokenPair_Set, if_pos rfl]
      · simp [swappedPair, msgTwo, hnd]
      · intro hr hsr
        have e1 := swap_balances s1 s2
        have e2 := swap_balances t1 t2
        show k2b.bal _ _ = _
        rw [e2]
        show addBal (addBal (addBal (addBal k1b.bal _ _ _) _ _ _) _ _ _) _ _ _ _ _ = _
        rw [e1, hnd, hbd]
        simp [addBal, hr, hsr, hrouted.2]
    · rw [if_neg hrouted] at hrun
      obtain ⟨p, tb, res1, -, -, hp, hcalc, -, -, hsw, hok1⟩ :=
        handleMsgTokenToNativeToken_ok hrun hok
      obtain ⟨k1, k2, s1, s2, rfl, -⟩ := swapTokenNativeToken_ok hsw hok1
      have hden := CalculateTokenToBuy_denom hcalc
      refine ⟨tb, ?_, hden, Or.inl ⟨hrouted, p, k1, k2, hp, s1, s2, rfl, ?_,
        (swappedPair_reserves c p tb msg).2⟩, ?_⟩
      · unfold queryBuyAmount
        unfold MsgTokenToToken.GetSwapTokenPair at hp
        by_cases hs : msg.SoldTokenAmount.Denom = c.DefaultBondDenom
        · rw [if_pos hs] at hp
          simp only [if_pos hs, hp, hcalc]
        · rw [if_neg hs] at hp
          have hb : msg.MinBoughtTokenAmount.Denom = c.DefaultBondDenom := by
            by_contra hb
            exact hrouted ⟨hs, hb⟩
          simp only [if_neg hs, if_pos hb, hp, hcalc]
      · rw [GetSwapTokenPair_Set, if_pos rfl]
      · intro hr hsr
        have e1 := swap_balances s1 s2
        show k2.bal _ _ = _
        rw [e1, hden]
        simp [addBal, hr, hsr]
  · intro q r k'' h
    unfold queryBuyAmount at h
    repeat' split at h
    all_goals first
      | (simp only [Option.some.injEq, Prod.mk.injEq] at h; exact h.2.symm)
      | simp at h

/-- Witness of C14: the example direct swap (100 of the reserve token for `xxb`,
    to `bob`) and the example routed swap (100 of `xxa` for `xxb`, to `bob`).
    In both the query returns the amount the handler pays: `bob` holds that
    much more of `xxb` and the base reserve of the pool `xxb_tokt` is that much
    lower. -/
theorem C14_quote_agrees_with_execution_witness :
    (∃ r p', handleMsgTokenToTokenExchange exConsts exCtx exState exSwapMsg = some r ∧
      r.1.IsOK = true ∧
      queryBuyAmount exConsts exState
          { SoldToken := exSwapMsg.SoldTokenAmount, TokenToBuy := "xxb" }
        = some (Except.ok 9066108938, exState) ∧
      r.2.bal "bob" "xxb" = exState.bal "bob" "xxb" + 9066108938 ∧
      GetSwapTokenPair r.2 "xxb_tokt" = some p' ∧
      p'.BasePooledCoin.Amount = exPool.BasePooledCoin.Amount - 9066108938) ∧
    (∃ r p', handleMsgTokenToTokenExchange exConsts exCtx exTwoPools exRoutedMsg = some r ∧
      r.1.IsOK = true ∧
      queryBuyAmount exConsts exTwoPools
          { SoldToken := exRoutedMsg.SoldTokenAmount, TokenToBuy := "xxb" }
        = some (Except.ok 16579238659, exTwoPools) ∧
      r.2.bal "bob" "xxb" = exTwoPools.bal "bob" "xxb" + 16579238659 ∧
      GetSwapTokenPair r.2 "xxb_tokt" = some p' ∧
      p'.BasePooledCoin.Amount = exPoolB.BasePooledCoin.Amount - 16579238659) := by
  constructor
  · obtain ⟨r, hr, hok⟩ : ∃ r, handleMsgTokenToTokenExchange exConsts exCtx exState exSwapMsg
        = some r ∧ r.1.IsOK = true := ⟨_, rfl, rfl⟩
    obtain ⟨tb, hq, -, hchain, hbal⟩ :=
      (C14_quote_agrees_with_execution exConsts exCtx exState r.2 exSwapMsg r.1 hr hok).1
    have hq' : queryBuyAmount exConsts exState
        { SoldToken := exSwapMsg.SoldTokenAmount, TokenToBuy := "xxb" }
        = some (Except.ok 9066108938, exState) := rfl
    have ha : tb.Amount = 9066108938 := by
      have h := hq.symm.trans hq'
      simp only [Option.some.injEq, Prod.mk.injEq, Except.ok.injEq] at h
      exact h.1
    rcases hchain with ⟨-, p, k1, k2, hp, -, -, -, hp', hres⟩ | ⟨hrouted, -⟩
    · obtain rfl : exPool = p := by
        have : GetSwapTokenPair exState (exSwapMsg.GetSwapTokenPair exConsts) = some exPool :=
          rfl
        rw [this] at hp
        simpa using hp
      refine ⟨r, _, hr, hok, hq', ?_, hp', ?_⟩
      · rw [← ha]
        exact hbal (by decide) (by decide)
      · rw [← ha]
        exact hres
    · exact absurd hrouted.1 (by decide)
  · obtain ⟨r, hr, hok⟩ : ∃ r, handleMsgTokenToTokenExchange exConsts exCtx exTwoPools
        exRoutedMsg = some r ∧ r.1.IsOK = true := ⟨_, rfl, rfl⟩
    obtain ⟨tb, hq, -, hchain, hbal⟩ :=
      (C14_quote_agrees_with_execution exConsts exCtx exTwoPools r.2 exRoutedMsg r.1 hr hok).1
    have hq' : queryBuyAmount exConsts exTwoPools
        { SoldToken := exRoutedMsg.SoldTokenAmount, TokenToBuy := "xxb" }
        = some (Except.ok 16579238659, exTwoPools) := rfl
    have ha : tb.Amount = 16579238659 := by
      have h := hq.symm.trans hq'
      simp only [Option.some.injEq, Prod.mk.injEq, Except.ok.injEq] at h
      exact h.1
    rcases hchain with ⟨hdirect, -⟩ | ⟨-, p1, p2, tn, k1a, k1b, k2a, k2b, -, hp2, -, -, -, -, -,
      -, hp', hres⟩
    · exact absurd (show exRoutedMsg.SoldTokenAmount.Denom ≠ exConsts.DefaultBondDenom ∧
        exRoutedMsg.MinBoughtTokenAmount.Denom ≠ exConsts.DefaultBondDenom from
          ⟨by decide, by decide⟩) hdirect
    · obtain rfl : exPoolB = p2 := by
        have : GetSwapTokenPair exTwoPools
            (exRoutedMsg.MinBoughtTokenAmount.Denom ++ "_" ++ exConsts.DefaultBondDenom)
            = some exPoolB := rfl
        rw [this] at hp2
        simpa using hp2
      refine ⟨r, _, hr, hok, hq', ?_, hp', ?_⟩
      · rw [← ha]
        exact hbal (by decide) (by decide)
      · rw [← ha]
        exact hres

/-! ## C15 and C16: pool creation -/

/-- C15, counterexample.  In the example store the share token `ammswap_xxb` is
    an existing token, neither the pair `ammswap_xxb_tokt` nor the share token
    `ammswap_ammswap_xxb` exists, and creating a pool for it fails: the token
    check rejects tokens of the pool-token kind. -/
theorem C15_create_pool_counterexample :
    (∃ t, exState.tokens exCreateOnShareMsg.Token = some t) ∧
      GetSwapTokenPair exState (exCreateOnShareMsg.Token ++ "_" ++ NativeToken exConsts) = none ∧
      GetPoolTokenInfo exState (exConsts.PoolTokenPrefix ++ exCreateOnShareMsg.Token) = none ∧
      handleMsgCreateExchange exConsts exState exCreateOnShareMsg =
        some ({ Code := CodeType.CodeInternal,
                Log := "Failed to create exchange with poll token" }, exState) :=
  ⟨⟨_, rfl⟩, by decide, by decide, rfl⟩

/-- C15, amended.  For every existing token `t` that is not of the pool-token
    kind and for which neither the pair `<t>_<reserve>` nor the share token
    (pool-token prefix followed by `t`) exists, creating the pool succeeds;
    afterwards the registry holds under the key `<t>_<reserve>` a pool with base
    reserve 0 in denomination `t`, quote reserve 0 in the reserve denomination
    and share token name prefix followed by `t`, every other registry entry is
    unchanged, the share token is registered, and supplies, balances and
    parameters are unchanged. -/
theorem C15_create_pool (c : Consts) (k : State) (msg : MsgCreateExchange) (tok : Token)
    (htok : k.tokens msg.Token = some tok) (hkind : tok.TokenType ≠ 2)
    (hpair : GetSwapTokenPair k (msg.Token ++ "_" ++ NativeToken c) = none)
    (hshare : GetPoolTokenInfo k (c.PoolTokenPrefix ++ msg.Token) = none) :
    ∃ k', handleMsgCreateExchange c k msg = some (okResult, k') ∧
      GetSwapTokenPair k' (msg.Token ++ "_" ++ NativeToken c) =
        some (SwapTokenPair.mk (DecCoin.mk (NativeToken c) 0) (DecCoin.mk msg.Token 0)
          (c.PoolTokenPrefix ++ msg.Token)) ∧
      (∀ n, n ≠ msg.Token ++ "_" ++ NativeToken c →
        GetSwapTokenPair k' n = GetSwapTokenPair k n) ∧
      (∃ t, GetPoolTokenInfo k' (c.PoolTokenPrefix ++ msg.Token) = some t ∧
        t.Symbol = c.PoolTokenPrefix ++ msg.Token) ∧
      (∀ n, n ≠ c.PoolTokenPrefix ++ msg.Token → k'.tokens n = k.tokens n) ∧
      k'.supply = k.supply ∧ k'.bal = k.bal ∧ k'.params = k.params := by
  have hexist : IsTokenExist k msg.Token = none := by
    simp [IsTokenExist, htok, hkind]
  refine ⟨SetSwapTokenPair (NewPoolToken k (c.PoolTokenPrefix ++ msg.Token))
      (msg.Token ++ "_" ++ NativeToken c)
      (SwapTokenPair.mk (DecCoin.mk (NativeToken c) ZeroDec) (DecCoin.mk msg.Token ZeroDec)
        (c.PoolTokenPrefix ++ msg.Token)), ?_, ?_, ?_, ?_, ?_, rfl, rfl, rfl⟩
  · unfold handleMsgCreateExchange
    simp only [hexist, hpair, hshare]
  · simp [GetSwapTokenPair, SetSwapTokenPair, ZeroDec]
  · intro n hn
    simp [GetSwapTokenPair, SetSwapTokenPair, NewPoolToken, hn]
  · refine ⟨Token.mk (c.PoolTokenPrefix ++ msg.Token) (c.PoolTokenPrefix ++ msg.Token) 2, ?_, rfl⟩
    simp [GetPoolTokenInfo, SetSwapTokenPair, NewPoolToken]
  · intro n hn
    simp [SetSwapTokenPair, NewPoolToken, hn]

/-- Witness of C15: the pool of `xxb` is created in the store without pools. -/
theorem C15_create_pool_witness :
    ∃ k', handleMsgCreateExchange exConsts exNoPool exCreateMsg = some (okResult, k') ∧
      GetSwapTokenPair k' "xxb_tokt" =
        some (SwapTokenPair.mk (DecCoin.mk "tokt" 0) (DecCoin.mk "xxb" 0) "ammswap_xxb") := by
  obtain ⟨k', h1, h2, -⟩ := C15_create_pool exConsts exNoPool exCreateMsg
    { Symbol := "xxb", OriginalSymbol := "xxb", TokenType := 1 } (by decide) (by decide)
    (by decide) (by decide)
  exact ⟨k', h1, h2⟩

/-- The failures of `handleMsgCreateExchange` leave the state as it is. -/
theorem handleMsgCreateExchange_cases {c : Consts} {k k' : State} {msg : MsgCreateExchange}
    {res : Result} (h : handleMsgCreateExchange c k msg = some (res, k')) :
    (res.IsOK = false ∧ k' = k) ∨
      (res = okResult ∧ IsTokenExist k msg.Token = none ∧
        GetSwapTokenPair k (msg.Token ++ "_" ++ NativeToken c) = none ∧
        GetPoolTokenInfo k (c.PoolTokenPrefix ++ msg.Token) = none ∧
        k' = SetSwapTokenPair (NewPoolToken k (c.PoolTokenPrefix ++ msg.Token))
          (msg.Token ++ "_" ++ NativeToken c)
          (SwapTokenPair.mk (DecCoin.mk (NativeToken c) ZeroDec) (DecCoin.mk msg.Token ZeroDec)
            (c.PoolTokenPrefix ++ msg.Token))) := by
  unfold handleMsgCreateExchange at h
  cases he : IsTokenExist k msg.Token with
  | some err =>
    simp only [he, failWith, Option.some.injEq, Prod.mk.injEq] at h
    exact Or.inl ⟨by rw [← h.1]; rfl, h.2.symm⟩
  | none =>
    simp only [he] at h
    cases hp : GetSwapTokenPair k (msg.Token ++ "_" ++ NativeToken c) with
    | some p =>
      simp only [hp, failWith, Option.some.injEq, Prod.mk.injEq] at h
      exact Or.inl ⟨by rw [← h.1]; rfl, h.2.symm⟩
    | none =>
      simp only [hp] at h
      cases ht : GetPoolTokenInfo k (c.PoolTokenPrefix ++ msg.Token) with
      | some t =>
        simp only [ht, failWith, Option.some.injEq, Prod.mk.injEq] at h
        exact Or.inl ⟨by rw [← h.1]; rfl, h.2.symm⟩
      | none =>
        simp only [ht, Option.some.injEq, Prod.mk.injEq] at h
        exact Or.inr ⟨h.1.symm, rfl, rfl, rfl, h.2.symm⟩

/-- C16. Rejection of duplicates.  If the pair `<t>_<reserve>` or the share token
    of `t` already exists, creating the pool returns a failed result together
    with the state it was called on (pool registry, share-token registry and
    everything else unchanged); and after a successful creation a second
    request for the same token fails, again with the state unchanged. -/
theorem C16_create_pool_duplicate (c : Consts) (k : State) (msg : MsgCreateExchange) :
    (((∃ p, GetSwapTokenPair k (msg.Token ++ "_" ++ NativeToken c) = some p) ∨
        (∃ t, GetPoolTokenInfo k (c.PoolTokenPrefix ++ msg.Token) = some t)) →
      ∃ res, handleMsgCreateExchange c k msg = some (res, k) ∧ res.IsOK = false) ∧
    (∀ res k' msg2, handleMsgCreateExchange c k msg = some (res, k') → res.IsOK = true →
      msg2.Token = msg.Token →
      ∃ res2, handleMsgCreateExchange c k' msg2 = some (res2, k') ∧ res2.IsOK = false) := by
  have hdup : ∀ (k0 : State) (m : MsgCreateExchange),
      ((∃ p, GetSwapTokenPair k0 (m.Token ++ "_" ++ NativeToken c) = some p) ∨
        (∃ t, GetPoolTokenInfo k0 (c.PoolTokenPrefix ++ m.Token) = some t)) →
      ∃ res, handleMsgCreateExchange c k0 m = some (res, k0) ∧ res.IsOK = false := by
    intro k0 m hex
    unfold handleMsgCreateExchange
    cases he : IsTokenExist k0 m.Token with
    | some err => exact failWith_fails _ _ _ (by decide)
    | none =>
      simp only []
      cases hp : GetSwapTokenPair k0 (m.Token ++ "_" ++ NativeToken c) with
      | some p => exact failWith_fails _ _ _ (by decide)
      | none =>
        simp only []
        cases ht : GetPoolTokenInfo k0 (c.PoolTokenPrefix ++ m.Token) with
        | some t => exact failWith_fails _ _ _ (by decide)
        | none =>
          rcases hex with ⟨p, hp'⟩ | ⟨t, ht'⟩
          · rw [hp] at hp'
            exact absurd hp' (by simp)
          · rw [ht] at ht'
            exact absurd ht' (by simp)
  refine ⟨hdup k msg, ?_⟩
  intro res k' msg2 hrun hok htoken
  rcases handleMsgCreateExchange_cases hrun with ⟨hno, -⟩ | ⟨-, -, -, -, rfl⟩
  · rw [hok] at hno
    exact absurd hno (by decide)
  · apply hdup
    left
    rw [htoken]
    exact ⟨_, by rw [GetSwapTokenPair_Set, if_pos rfl]⟩

/-- Witness of C16: the pool `xxb_tokt` exists in the example store, and a
    request to create it again is rejected. -/
theorem C16_create_pool_duplicate_witness :
    ∃ res, handleMsgCreateExchange exConsts exState exCreateMsg = some (res, exState) ∧
      res.IsOK = false :=
  (C16_create_pool_duplicate exConsts exState exCreateMsg).1 (Or.inl ⟨exPool, by decide⟩)

/-! ## C17: the pools after a routed swap -/

/-- Registry keys with the same suffix agree only for the same token. -/
theorem pairKey_inj (a b s : String) (h : a ++ s = b ++ s) : a = b := by
  have h1 := congrArg String.data h
  simp only [String.data_append] at h1
  exact String.ext (List.append_cancel_right h1)

/-- The pools stored after a successful routed swap from token `A` to a
    different token `B`: pool(A) holds the update of leg 1 and pool(B) the
    update of leg 2. -/
theorem routed_swap_pools {c : Consts} {ctx : Context} {k k' : State}
    {msg : MsgTokenToToken} {res : Result}
    (h : handleMsgTokenToToken c ctx k msg = some (res, k')) (hok : res.IsOK = true)
    (hA : msg.SoldTokenAmount.Denom ≠ c.DefaultBondDenom)
    (hAB : msg.SoldTokenAmount.Denom ≠ msg.MinBoughtTokenAmount.Denom) :
    ∃ p1 p2 tokenNative tokenBuy p1' p2',
      GetSwapTokenPair k (msg.SoldTokenAmount.Denom ++ "_" ++ c.DefaultBondDenom) = some p1 ∧
      GetSwapTokenPair k (msg.MinBoughtTokenAmount.Denom ++ "_" ++ c.DefaultBondDenom)
        = some p2 ∧
      CalculateTokenToBuy c p1 msg.SoldTokenAmount c.DefaultBondDenom (GetParams k)
        = some tokenNative ∧
      CalculateTokenToBuy c p2 tokenNative msg.MinBoughtTokenAmount.Denom (GetParams k)
        = some tokenBuy ∧
      GetSwapTokenPair k' (msg.SoldTokenAmount.Denom ++ "_" ++ c.DefaultBondDenom) = some p1' ∧
      GetSwapTokenPair k' (msg.MinBoughtTokenAmount.Denom ++ "_" ++ c.DefaultBondDenom)
        = some p2' ∧
      p1'.BasePooledCoin.Amount = p1.BasePooledCoin.Amount + msg.SoldTokenAmount.Amount ∧
      p1'.QuotePooledCoin.Amount = p1.QuotePooledCoin.Amount - tokenNative.Amount ∧
      p2'.QuotePooledCoin.Amount = p2.QuotePooledCoin.Amount + tokenNative.Amount ∧
      p2'.BasePooledCoin.Amount = p2.BasePooledCoin.Amount - tokenBuy.Amount := by
  obtain ⟨p1, p2, tn, tb, k1a, k1b, k2a, k2b, hp1, hp2, hc1, hc2, hn, -, s1, s2, t1, t2, rfl⟩ :=
    handleMsgTokenToToken_success h hok
  have hkey : msg.SoldTokenAmount.Denom ++ "_" ++ c.DefaultBondDenom ≠
      msg.MinBoughtTokenAmount.Denom ++ "_" ++ c.DefaultBondDenom := by
    intro he
    rw [String.append_assoc, String.append_assoc] at he
    exact hAB (pairKey_inj _ _ _ he)
  refine ⟨p1, p2, tn, tb, swappedPair c p1 tn (msgOne c msg),
    swappedPair c p2 tb (msgTwo msg tn), hp1, hp2, hc1, hc2, ?_, ?_, ?_, ?_, ?_, ?_⟩
  · rw [GetSwapTokenPair_Set, msgTwo_pair c msg tn hn, if_neg hkey]
    unfold GetSwapTokenPair
    rw [(SendCoinsFromPoolToAccount_frame t2).1, (SendCoinsToPool_frame t1).1]
    have := GetSwapTokenPair_Set k1b ((msgOne c msg).GetSwapTokenPair c)
      (swappedPair c p1 tn (msgOne c msg))
      (msg.SoldTokenAmount.Denom ++ "_" ++ c.DefaultBondDenom)
    unfold GetSwapTokenPair at this
    rw [this, msgOne_pair c msg hA, if_pos rfl]
  · rw [GetSwapTokenPair_Set, msgTwo_pair c msg tn hn, if_pos rfl]
  · simp [swappedPair, msgOne, hA]
  · simp [swappedPair, msgOne, hA]
  · simp [swappedPair, msgTwo, hn]
  · simp [swappedPair, msgTwo, hn]

/-- C17. Routed swap pool postcondition, evaluated on a request whose sold and
    bought token are the same.  On the example state with the pool `xxb_tokt`
    (reserves 1000 `tokt` and 1000 `xxb`), `alice` sells 100 `xxb` for `xxb`.
    The request succeeds; leg 1 buys `n = 90.66108938` of the reserve token and
    leg 2 buys `b = 82.89619329` of `xxb`.  Both legs' updates would leave a
    quote reserve of `1000 - n + n = 1000` and a base reserve of
    `1000 + 100 - b`; the stored pool has the quote reserve `1000 + n` and the
    base reserve `1000 - b`, the update of leg 1 is not in the registry.  The
    pool account holds 1000 `tokt` and `1000 + 100 - b` of `xxb`. -/
theorem C17_routed_swap_same_token_loses_leg_one :
    ∃ r, handleMsgTokenToTokenExchange exConsts exCtx exState exSameTokenMsg = some r ∧
      r.1.IsOK = true ∧
      exSameTokenMsg.SoldTokenAmount.Denom ≠ NativeToken exConsts ∧
      exSameTokenMsg.MinBoughtTokenAmount.Denom ≠ NativeToken exConsts ∧
      GetSwapTokenPair exState "xxb_tokt" = some exPool ∧
      CalculateTokenToBuy exConsts exPool exSameTokenMsg.SoldTokenAmount "tokt"
        (GetParams exState) = some (DecCoin.mk "tokt" 9066108938) ∧
      CalculateTokenToBuy exConsts exPool (DecCoin.mk "tokt" 9066108938) "xxb"
        (GetParams exState) = some (DecCoin.mk "xxb" 8289619329) ∧
      GetSwapTokenPair r.2 "xxb_tokt" =
        some (SwapTokenPair.mk (DecCoin.mk "tokt" (100000000000 + 9066108938))
          (DecCoin.mk "xxb" (100000000000 - 8289619329)) "ammswap_xxb") ∧
      GetSwapTokenPair r.2 "xxb_tokt" ≠
        some (SwapTokenPair.mk (DecCoin.mk "tokt" (100000000000 - 9066108938 + 9066108938))
          (DecCoin.mk "xxb" (100000000000 + 10000000000 - 8289619329)) "ammswap_xxb") ∧
      r.2.bal exConsts.ModuleAccount "tokt" = 100000000000 ∧
      r.2.bal exConsts.ModuleAccount "xxb" = 100000000000 + 10000000000 - 8289619329 :=
  ⟨_, rfl, rfl, by decide, by decide, rfl, by decide, by decide, by decide, by decide,
    by decide, by decide⟩

/-! ## C18: the ledger after a routed swap -/

/-- The ledger after a successful routed swap: the four single-coin transfers
    of the two legs, in order. -/
theorem routed_swap_balances {c : Consts} {ctx : Context} {k k' : State}
    {msg : MsgTokenToToken} {res : Result}
    (h : handleMsgTokenToToken c ctx k msg = some (res, k')) (hok : res.IsOK = true) :
    ∃ p1 p2 tokenNative tokenBuy,
      GetSwapTokenPair k (msg.SoldTokenAmount.Denom ++ "_" ++ c.DefaultBondDenom) = some p1 ∧
      GetSwapTokenPair k (msg.MinBoughtTokenAmount.Denom ++ "_" ++ c.DefaultBondDenom)
        = some p2 ∧
      CalculateTokenToBuy c p1 msg.SoldTokenAmount c.DefaultBondDenom (GetParams k)
        = some tokenNative ∧
      CalculateTokenToBuy c p2 tokenNative msg.MinBoughtTokenAmount.Denom (GetParams k)
        = some tokenBuy ∧
      tokenNative.Denom = c.DefaultBondDenom ∧
      tokenBuy.Denom = msg.MinBoughtTokenAmount.Denom ∧
      k'.bal =
        addBal (addBal (addBal (addBal
          (addBal (addBal (addBal (addBal k.bal
            msg.Sender msg.SoldTokenAmount.Denom (-msg.SoldTokenAmount.Amount))
            c.ModuleAccount msg.SoldTokenAmount.Denom msg.SoldTokenAmount.Amount)
            c.ModuleAccount tokenNative.Denom (-tokenNative.Amount))
            msg.Recipient tokenNative.Denom tokenNative.Amount)
          msg.Sender tokenNative.Denom (-tokenNative.Amount))
          c.ModuleAccount tokenNative.Denom tokenNative.Amount)
          c.ModuleAccount tokenBuy.Denom (-tokenBuy.Amount))
          msg.Recipient tokenBuy.Denom tokenBuy.Amount := by
  obtain ⟨p1, p2, tn, tb, k1a, k1b, k2a, k2b, hp1, hp2, hc1, hc2, hn, hb, s1, s2, t1, t2, rfl⟩ :=
    handleMsgTokenToToken_success h hok
  refine ⟨p1, p2, tn, tb, hp1, hp2, hc1, hc2, hn, hb, ?_⟩
  have e1 := swap_balances s1 s2
  have e2 := swap_balances t1 t2
  show k2b.bal = _
  rw [e2]
  show addBal (addBal (addBal (addBal k1b.bal _ _ _) _ _ _) _ _ _) _ _ _ = _
  rw [e1]

/-- The reserve-token balances after a successful routed swap whose sender,
    recipient and the pool account are three different accounts: the recipient
    gains and the sender loses the output `n` of the first leg. -/
theorem routed_swap_reserve_token {c : Consts} {ctx : Context} {k k' : State}
    {msg : MsgTokenToToken} {res : Result}
    (h : handleMsgTokenToToken c ctx k msg = some (res, k')) (hok : res.IsOK = true)
    (hA : msg.SoldTokenAmount.Denom ≠ c.DefaultBondDenom)
    (hB : msg.MinBoughtTokenAmount.Denom ≠ c.DefaultBondDenom)
    (hs : msg.Sender ≠ c.ModuleAccount) (hr : msg.Recipient ≠ c.ModuleAccount)
    (hsr : msg.Sender ≠ msg.Recipient) :
    ∃ p1 tokenNative,
      GetSwapTokenPair k (msg.SoldTokenAmount.Denom ++ "_" ++ c.DefaultBondDenom) = some p1 ∧
      CalculateTokenToBuy c p1 msg.SoldTokenAmount c.DefaultBondDenom (GetParams k)
        = some tokenNative ∧
      k'.bal msg.Recipient c.DefaultBondDenom =
        k.bal msg.Recipient c.DefaultBondDenom + tokenNative.Amount ∧
      k'.bal msg.Sender c.DefaultBondDenom =
        k.bal msg.Sender c.DefaultBondDenom - tokenNative.Amount := by
  obtain ⟨p1, p2, tn, tb, hp1, -, hc1, -, hn, hb, hbal⟩ := routed_swap_balances h hok
  refine ⟨p1, tn, hp1, hc1, ?_, ?_⟩
  · rw [hbal, hn, hb]
    simp [addBal, hA, hB, hs, hr, hsr, Ne.symm hA, Ne.symm hB, Ne.symm hsr]
  · rw [hbal, hn, hb]
    simp [addBal, hA, hB, hs, hr, hsr, Ne.symm hA, Ne.symm hB, Ne.symm hsr]
    ring

/-- C18. Routed swap net ledger effect, evaluated on a request whose sender
    and recipient differ.  On the example state with the pools `xxa_tokt` and
    `xxb_tokt`, `alice` sells 100 `xxa` for `xxb` with recipient `bob`; neither
    of them is the pool account.  The request succeeds and the first leg buys
    `n = 90.66108938` of the reserve token `tokt`.  The reserve-token balance of
    the recipient `bob` is 0 before and `n` after the request, and the one of
    the sender `alice` is 500 before and `500 - n` after it. -/
theorem C18_routed_swap_moves_reserve_token :
    ∃ r, handleMsgTokenToTokenExchange exConsts exCtx exTwoPools exRoutedMsg = some r ∧
      r.1.IsOK = true ∧
      exRoutedMsg.Sender ≠ exRoutedMsg.Recipient ∧
      exRoutedMsg.Sender ≠ exConsts.ModuleAccount ∧
      exRoutedMsg.Recipient ≠ exConsts.ModuleAccount ∧
      CalculateTokenToBuy exConsts exPoolA exRoutedMsg.SoldTokenAmount (NativeToken exConsts)
        (GetParams exTwoPools) = some (DecCoin.mk "tokt" 9066108938) ∧
      exTwoPools.bal exRoutedMsg.Recipient (NativeToken exConsts) = 0 ∧
      r.2.bal exRoutedMsg.Recipient (NativeToken exConsts) = 9066108938 ∧
      exTwoPools.bal exRoutedMsg.Sender (NativeToken exConsts) = 50000000000 ∧
      r.2.bal exRoutedMsg.Sender (NativeToken exConsts) = 50000000000 - 9066108938 :=
  ⟨_, rfl, rfl, by decide, by decide, by decide, by decide, by decide, by decide, by decide,
    by decide⟩

/-! ## C19: the divisor of the redemption -/

/-- C19, counterexample.  The example state with the empty pool `xxb_tokt`
    satisfies the pool invariant and its share supply is zero.  The withdrawal
    of a liquidity amount of zero passes the deadline check, the pool lookup and
    the check of the liquidity amount against the share supply; the divisor of
    the redemption is zero, the division fails and the handler does not
    return. -/
theorem C19_remove_liquidity_divisor_counterexample :
    PoolInvariant exEmptyState ∧
      0 ≤ exZeroWithdrawal.Liquidity ∧
      ¬ exZeroWithdrawal.Deadline < exCtx.BlockTime ∧
      GetSwapTokenPair exEmptyState exZeroWithdrawal.GetSwapTokenPair
        = some (SwapTokenPair.mk (DecCoin.mk "tokt" 0) (DecCoin.mk "xxb" 0) "ammswap_xxb") ∧
      ¬ GetPoolTokenAmount exEmptyState "ammswap_xxb" < exZeroWithdrawal.Liquidity ∧
      GetPoolTokenAmount exEmptyState "ammswap_xxb" = 0 ∧
      MulAndQuo 0 exZeroWithdrawal.Liquidity (GetPoolTokenAmount exEmptyState "ammswap_xxb")
        = none ∧
      handleMsgRemoveLiquidity exConsts exCtx exEmptyState exZeroWithdrawal = none :=
  ⟨exEmptyState_invariant, by decide, by decide, rfl, by decide, rfl, rfl, rfl⟩

/-- C19, amended.  For every state and every withdrawal with a strictly
    positive liquidity amount that passes the deadline check, the pool lookup
    and the check of the liquidity amount against the share supply: the share
    supply used as divisor of the redemption is strictly positive and both
    divisions of the redemption return their truncated quotient.  When moreover
    the reserves of the pool are non-negative and the two minimum amounts of the
    request carry the denominations of the pool, the handler returns a
    result. -/
theorem C19_remove_liquidity_divisor (c : Consts) (ctx : Context) (k : State)
    (msg : MsgRemoveLiquidity) (p : SwapTokenPair)
    (hl : 0 < msg.Liquidity)
    (hdl : ¬ msg.Deadline < ctx.BlockTime)
    (hp : GetSwapTokenPair k msg.GetSwapTokenPair = some p)
    (hchk : ¬ GetPoolTokenAmount k p.PoolTokenName < msg.Liquidity) :
    0 < GetPoolTokenAmount k p.PoolTokenName ∧
      MulAndQuo p.BasePooledCoin.Amount msg.Liquidity (GetPoolTokenAmount k p.PoolTokenName)
        = some ((p.BasePooledCoin.Amount * msg.Liquidity).tdiv
            (GetPoolTokenAmount k p.PoolTokenName)) ∧
      MulAndQuo p.QuotePooledCoin.Amount msg.Liquidity (GetPoolTokenAmount k p.PoolTokenName)
        = some ((p.QuotePooledCoin.Amount * msg.Liquidity).tdiv
            (GetPoolTokenAmount k p.PoolTokenName)) ∧
      (0 ≤ p.BasePooledCoin.Amount → 0 ≤ p.QuotePooledCoin.Amount →
        p.BasePooledCoin.Denom = msg.MinBaseAmount.Denom →
        p.QuotePooledCoin.Denom = msg.MinQuoteAmount.Denom →
        ∃ r, handleMsgRemoveLiquidity c ctx k msg = some r) := by
  have hT : 0 < GetPoolTokenAmount k p.PoolTokenName := lt_of_lt_of_le hl (not_lt.1 hchk)
  refine ⟨hT, by simp [MulAndQuo, hT.ne'], by simp [MulAndQuo, hT.ne'], ?_⟩
  intro hB hQ hdB hdQ
  have hb : ¬ (p.BasePooledCoin.Amount * msg.Liquidity).tdiv
      (GetPoolTokenAmount k p.PoolTokenName) < 0 :=
    not_lt.2 (Int.tdiv_nonneg (mul_nonneg hB hl.le) hT.le)
  have hq : ¬ (p.QuotePooledCoin.Amount * msg.Liquidity).tdiv
      (GetPoolTokenAmount k p.PoolTokenName) < 0 :=
    not_lt.2 (Int.tdiv_nonneg (mul_nonneg hQ hl.le) hT.le)
  unfold handleMsgRemoveLiquidity
  rw [if_neg hdl, hp]
  simp only [if_neg hchk, MulAndQuo, hT.ne', if_false, NewDecCoinFromDec, if_neg hb, if_neg hq,
    DecCoin.IsLT, hdB, hdQ, if_true, DecCoin.Sub, not_lt.2 hl.le, failWith]
  repeat' split
  all_goals first | exact ⟨_, rfl⟩ | simp_all

/-- C19, amended: the example withdrawal of half the share of the example
    pool.  The divisor is the share supply 1, both quotients are 500 and the
    handler returns. -/
theorem C19_remove_liquidity_divisor_witness :
    0 < GetPoolTokenAmount exState exPool.PoolTokenName ∧
      MulAndQuo exPool.BasePooledCoin.Amount exWithdrawal.Liquidity
        (GetPoolTokenAmount exState exPool.PoolTokenName) = some 50000000000 ∧
      MulAndQuo exPool.QuotePooledCoin.Amount exWithdrawal.Liquidity
        (GetPoolTokenAmount exState exPool.PoolTokenName) = some 50000000000 ∧
      ∃ r, handleMsgRemoveLiquidity exConsts exCtx exState exWithdrawal = some r :=
  have h := C19_remove_liquidity_divisor exConsts exCtx exState exWithdrawal exPool (by decide)
    (by decide) rfl (by decide)
  ⟨h.1, h.2.1, h.2.2.1, h.2.2.2 (by decide) (by decide) rfl rfl⟩

/-! ## C20: reserve bookkeeping and coin movement -/

/-- The balances after a transfer of a list of coins between two different
    accounts. -/
theorem sendCoins_balance {src dst : String} (hne : src ≠ dst) :
    ∀ (coins : DecCoins) (bal bal' : String → String → Dec),
      sendCoins bal src dst coins = some bal' →
      ∀ a d, bal' a d = bal a d + (if a = dst then coinsAmountOf coins d else 0)
        - (if a = src then coinsAmountOf coins d else 0) := by
  intro coins
  induction coins with
  | nil =>
    intro bal bal' h a d
    simp only [sendCoins, Option.some.injEq] at h
    subst h
    simp [coinsAmountOf]
  | cons coin rest ih =>
    intro bal bal' h a d
    unfold sendCoins at h
    cases h1 : sendCoin bal src dst coin with
    | none => simp [h1] at h
    | some bal1 =>
      simp only [h1] at h
      rw [ih bal1 bal' h a d]
      unfold sendCoin at h1
      split at h1
      · simp only [Option.some.injEq] at h1
        subst h1
        simp only [coinsAmountOf, List.map_cons, List.sum_cons, addBal]
        by_cases hd : d = coin.Denom
        · subst hd
          by_cases ha : a = dst
          · have hs : ¬ a = src := fun e => hne (e.symm.trans ha)
            simp [ha, hs, Ne.symm hne]
            ring
          · by_cases hs : a = src
            · simp [ha, hs, hne]
              ring
            · simp [ha, hs]
        · have hd' : ¬ coin.Denom = d := fun e => hd e.symm
          simp [hd, hd']
      · simp at h1

/-- Dropping the non-positive coins of a list of coins with non-negative
    amounts and sorting the rest keeps the amount of every denomination. -/
theorem coinsAmountOf_coinSort (coins : DecCoins) (d : String)
    (h : ∀ coin ∈ coins, 0 ≤ coin.Amount) :
    coinsAmountOf (coinSort coins) d = coinsAmountOf coins d := by
  unfold coinSort coinsAmountOf
  rw [((List.perm_insertionSort _ _).map _).sum_eq]
  induction coins with
  | nil => rfl
  | cons coin rest ih =>
    have ih1 := ih (fun x hx => h x (List.mem_cons_of_mem _ hx))
    by_cases hp : 0 < coin.Amount
    · rw [List.filter_cons_of_pos (by simpa [DecCoin.IsPositive] using hp)]
      simp only [List.map_cons, List.sum_cons, ih1]
    · rw [List.filter_cons_of_neg (by simpa [DecCoin.IsPositive] using hp)]
      have h0 : coin.Amount = 0 := le_antisymm (not_lt.1 hp) (h coin (List.mem_cons_self _ _))
      simp only [List.map_cons, List.sum_cons, ih1, h0, ite_self, zero_add]

/-- The pool account's balance after coins were sent to the pool by another
    account. -/
theorem SendCoinsToPool_balance {c : Consts} {k k1 : State} {coins : DecCoins} {addr : String}
    (h : SendCoinsToPool c k coins addr = some k1) (hne : addr ≠ c.ModuleAccount) (d : String) :
    k1.bal c.ModuleAccount d = k.bal c.ModuleAccount d + coinsAmountOf coins d := by
  unfold SendCoinsToPool at h
  cases hs : sendCoins k.bal addr c.ModuleAccount coins with
  | none => simp [hs] at h
  | some b =>
    simp only [hs, Option.some.injEq] at h
    subst h
    show b c.ModuleAccount d = _
    rw [sendCoins_balance hne coins k.bal b hs c.ModuleAccount d]
    simp [Ne.symm hne]

/-- The pool account's balance after coins were sent from the pool to another
    account. -/
theorem SendCoinsFromPoolToAccount_balance {c : Consts} {k k1 : State} {coins : DecCoins}
    {addr : String} (h : SendCoinsFromPoolToAccount c k coins addr = some k1)
    (hne : addr ≠ c.ModuleAccount) (d : String) :
    k1.bal c.ModuleAccount d = k.bal c.ModuleAccount d - coinsAmountOf coins d := by
  unfold SendCoinsFromPoolToAccount at h
  cases hs : sendCoins k.bal c.ModuleAccount addr coins with
  | none => simp [hs] at h
  | some b =>
    simp only [hs, Option.some.injEq] at h
    subst h
    show b c.ModuleAccount d = _
    rw [sendCoins_balance (Ne.symm hne) coins k.bal b hs c.ModuleAccount d]
    simp [Ne.symm hne]

/-- C20, counterexample.  The direct swap of the example with the pool account
    as recipient has positive request amounts and succeeds.  It buys
    `90.66108938` of `xxb`: the stored base reserve of the pool `xxb_tokt`
    decreases by this amount, while the pool account holds as much `xxb` after
    the swap as before it, so no `xxb` left the pool account. -/
theorem C20_reserve_bookkeeping_counterexample :
    ∃ r p', handleMsgTokenToTokenExchange exConsts exCtx exState exSwapToPoolMsg = some r ∧
      r.1.IsOK = true ∧
      0 ≤ exSwapToPoolMsg.SoldTokenAmount.Amount ∧
      0 ≤ exSwapToPoolMsg.MinBoughtTokenAmount.Amount ∧
      GetSwapTokenPair exState "xxb_tokt" = some exPool ∧
      GetSwapTokenPair r.2 "xxb_tokt" = some p' ∧
      p'.BasePooledCoin.Amount - exPool.BasePooledCoin.Amount = -9066108938 ∧
      r.2.bal exConsts.ModuleAccount "xxb" - exState.bal exConsts.ModuleAccount "xxb" = 0 ∧
      ¬ ReserveMatchesLedger exConsts exState r.2 "xxb_tokt" exPool := by
  refine ⟨_, _, rfl, rfl, by decide, by decide, rfl, rfl, by decide, by decide, ?_⟩
  rintro ⟨p', hp', hb, -⟩
  change some (SwapTokenPair.mk (DecCoin.mk "tokt" 110000000000)
    (DecCoin.mk "xxb" 90933891062) "ammswap_xxb") = some p' at hp'
  cases hp'
  change (90933891062 : Int) - 100000000000 = 100000000000 - 100000000000 at hb
  exact absurd hb (by decide)

/-- C20, amended.  For every successful `add_liquidity` with non-negative
    request amounts, every successful `remove_liquidity` and every successful
    direct swap, on a pool whose two denominations differ, with a sender (and,
    for the swap, a recipient) other than the pool account: the same pool key
    holds a pool after the operation and, for each of the pool's two
    denominations, the change of the stored reserve equals the change of the
    pool account's balance of that denomination, also when `coinSort` drops a
    zero coin from the transfer. -/
theorem C20_reserve_bookkeeping (c : Consts) (ctx : Context) (k k' : State) (res : Result)
    (p : SwapTokenPair) (hok : res.IsOK = true)
    (hden : p.BasePooledCoin.Denom ≠ p.QuotePooledCoin.Denom) :
    (∀ msg : MsgAddLiquidity,
      handleMsgAddLiquidity c ctx k msg = some (res, k') →
      GetSwapTokenPair k msg.GetSwapTokenPair = some p →
      0 ≤ msg.QuoteAmount.Amount → 0 ≤ msg.MaxBaseAmount.Amount →
      msg.Sender ≠ c.ModuleAccount →
      ReserveMatchesLedger c k k' msg.GetSwapTokenPair p) ∧
    (∀ msg : MsgRemoveLiquidity,
      handleMsgRemoveLiquidity c ctx k msg = some (res, k') →
      GetSwapTokenPair k msg.GetSwapTokenPair = some p →
      msg.Sender ≠ c.ModuleAccount →
      ReserveMatchesLedger c k k' msg.GetSwapTokenPair p) ∧
    (∀ msg : MsgTokenToToken,
      (msg.SoldTokenAmount.Denom = c.DefaultBondDenom ∨
        msg.MinBoughtTokenAmount.Denom = c.DefaultBondDenom) →
      handleMsgTokenToTokenExchange c ctx k msg = some (res, k') →
      GetSwapTokenPair k (msg.GetSwapTokenPair c) = some p →
      msg.Sender ≠ c.ModuleAccount → msg.Recipient ≠ c.ModuleAccount →
      ReserveMatchesLedger c k k' (msg.GetSwapTokenPair c) p) := by
  refine ⟨?_, ?_, ?_⟩
  · intro msg h hp hq hm hs
    obtain ⟨p0, tok, base, L, k1, -, hp0, -, hbr, -, -, -, hqd, hbd, hsend, hpairs, -, hbal, -⟩ :=
      handleMsgAddLiquidity_success h hok
    rw [hp] at hp0
    cases hp0
    have hbase : 0 ≤ base := by
      rcases hbr with ⟨-, -, rfl, -⟩ | ⟨hB, hQ, rfl, -⟩
      · exact hm
      · exact Int.tdiv_nonneg (mul_nonneg hq hB.le) hQ.le
    have hsum : ∀ d, k'.bal c.ModuleAccount d = k.bal c.ModuleAccount d +
        coinsAmountOf [msg.QuoteAmount, DecCoin.mk msg.MaxBaseAmount.Denom base] d := by
      intro d
      rw [hbal, ← coinsAmountOf_coinSort _ d (by
        intro coin hc
        simp only [List.mem_cons, List.mem_singleton, List.not_mem_nil, or_false] at hc
        rcases hc with rfl | rfl
        · exact hq
        · exact hbase), ← SendCoinsToPool_balance hsend hs d]
      simp [addBal, Ne.symm hs]
    refine ⟨addedPair p msg.QuoteAmount.Amount base, ?_, ?_, ?_⟩
    · unfold GetSwapTokenPair
      rw [hpairs]
      simp [SetSwapTokenPair]
    · rw [hsum]
      simp [coinsAmountOf, addedPair, ← hqd, ← hbd, Ne.symm hden]
    · rw [hsum]
      simp [coinsAmountOf, addedPair, ← hqd, ← hbd, hden]
  · intro msg h hp hs
    obtain ⟨p0, k1, baseDec, quoteDec, -, hp0, -, -, -, -, hb0, hq0, -, -, hsend, -, -, hpairs, -,
      hbal, -⟩ := handleMsgRemoveLiquidity_success h hok
    rw [hp] at hp0
    cases hp0
    have hsum : ∀ d, k'.bal c.ModuleAccount d = k.bal c.ModuleAccount d -
        coinsAmountOf [DecCoin.mk p.BasePooledCoin.Denom baseDec,
          DecCoin.mk p.QuotePooledCoin.Denom quoteDec] d := by
      intro d
      rw [hbal, ← coinsAmountOf_coinSort _ d (by
        intro coin hc
        simp only [List.mem_cons, List.mem_singleton, List.not_mem_nil, or_false] at hc
        rcases hc with rfl | rfl
        · exact hb0
        · exact hq0), ← SendCoinsFromPoolToAccount_balance hsend hs d]
      simp [addBal, Ne.symm hs]
    refine ⟨removedPair p quoteDec baseDec, ?_, ?_, ?_⟩
    · unfold GetSwapTokenPair
      rw [hpairs]
      simp [SetSwapTokenPair]
    · rw [hsum]
      simp [coinsAmountOf, removedPair, Ne.symm hden]
    · rw [hsum]
      simp [coinsAmountOf, removedPair, hden]
  · intro msg hdirect h hp hs hr
    have hrun : handleMsgTokenToNativeToken c ctx k msg = some (res, k') := by
      unfold handleMsgTokenToTokenExchange at h
      rw [if_neg (by
        rintro ⟨a, b⟩
        rcases hdirect with e | e
        · exact a e
        · exact b e)] at h
      exact h
    obtain ⟨p0, tokenBuy, res1, -, -, hp0, -, -, -, hsw, hok1⟩ :=
      handleMsgTokenToNativeToken_ok hrun hok
    rw [hp] at hp0
    cases hp0
    obtain ⟨k1, k2, s1, s2, rfl, hdenoms⟩ := swapTokenNativeToken_ok hsw hok1
    have hbal := swap_balances s1 s2
    refine ⟨swappedPair c p tokenBuy msg, by simp [GetSwapTokenPair, SetSwapTokenPair], ?_, ?_⟩
    · show _ = k2.bal _ _ - _
      rw [hbal]
      by_cases hd : msg.SoldTokenAmount.Denom = c.DefaultBondDenom
      · rw [if_pos hd] at hdenoms
        obtain ⟨eq1, eq2⟩ := hdenoms
        have hne : tokenBuy.Denom ≠ c.DefaultBondDenom := by
          rw [← hd, ← eq1, ← eq2]; exact hden
        simp [swappedPair, hd, addBal, eq2, hs, hr, Ne.symm hs, Ne.symm hr, hne]
      · rw [if_neg hd] at hdenoms
        obtain ⟨eq1, eq2⟩ := hdenoms
        have hne : msg.SoldTokenAmount.Denom ≠ tokenBuy.Denom := by
          rw [← eq1, ← eq2]; exact hden
        simp [swappedPair, hd, addBal, eq2, hs, hr, Ne.symm hs, Ne.symm hr, hne]
    · show _ = k2.bal _ _ - _
      rw [hbal]
      by_cases hd : msg.SoldTokenAmount.Denom = c.DefaultBondDenom
      · rw [if_pos hd] at hdenoms
        obtain ⟨eq1, eq2⟩ := hdenoms
        have hne : tokenBuy.Denom ≠ c.DefaultBondDenom := by
          rw [← hd, ← eq1, ← eq2]; exact hden
        simp [swappedPair, hd, addBal, eq1, hs, hr, Ne.symm hs, Ne.symm hr, Ne.symm hne]
      · rw [if_neg hd] at hdenoms
        obtain ⟨eq1, eq2⟩ := hdenoms
        have hne : msg.SoldTokenAmount.Denom ≠ tokenBuy.Denom := by
          rw [← eq1, ← eq2]; exact hden
        simp [swappedPair, hd, addBal, eq1, hs, hr, Ne.symm hs, Ne.symm hr, Ne.symm hne]

/-- Witness of C20 on the example state: a deposit of 1500 smallest units, the
    withdrawal of half the share, and the sale of 100 of the reserve token for
    `xxb` to `bob`; and on the example state with the empty pool the first
    deposit with a zero base amount, whose zero coin `coinSort` drops from the
    transfer. -/
theorem C20_reserve_bookkeeping_witness :
    (∃ r, handleMsgAddLiquidity exConsts exCtx exState exSmallDeposit = some r ∧
      r.1.IsOK = true ∧
      ReserveMatchesLedger exConsts exState r.2 exSmallDeposit.GetSwapTokenPair exPool) ∧
    (∃ r, handleMsgRemoveLiquidity exConsts exCtx exState exWithdrawal = some r ∧
      r.1.IsOK = true ∧
      ReserveMatchesLedger exConsts exState r.2 exWithdrawal.GetSwapTokenPair exPool) ∧
    (∃ r, handleMsgTokenToTokenExchange exConsts exCtx exState exSwapMsg = some r ∧
      r.1.IsOK = true ∧
      ReserveMatchesLedger exConsts exState r.2 (exSwapMsg.GetSwapTokenPair exConsts)
        exPool) ∧
    (∃ r, handleMsgAddLiquidity exConsts exCtx exEmptyState exOneSidedDeposit = some r ∧
      r.1.IsOK = true ∧
      coinSort [exOneSidedDeposit.QuoteAmount, exOneSidedDeposit.MaxBaseAmount]
        = [exOneSidedDeposit.QuoteAmount] ∧
      ReserveMatchesLedger exConsts exEmptyState r.2 exOneSidedDeposit.GetSwapTokenPair
        (SwapTokenPair.mk (DecCoin.mk "tokt" 0) (DecCoin.mk "xxb" 0) "ammswap_xxb")) := by
  refine ⟨?_, ?_, ?_, ?_⟩
  · obtain ⟨r, hr, hok⟩ : ∃ r, handleMsgAddLiquidity exConsts exCtx exState exSmallDeposit
        = some r ∧ r.1.IsOK = true := ⟨_, rfl, rfl⟩
    exact ⟨r, hr, hok, (C20_reserve_bookkeeping exConsts exCtx exState r.2 r.1 exPool hok
      (by decide)).1 exSmallDeposit hr rfl (by decide) (by decide) (by decide)⟩
  · obtain ⟨r, hr, hok⟩ : ∃ r, handleMsgRemoveLiquidity exConsts exCtx exState exWithdrawal
        = some r ∧ r.1.IsOK = true := ⟨_, rfl, rfl⟩
    exact ⟨r, hr, hok, (C20_reserve_bookkeeping exConsts exCtx exState r.2 r.1 exPool hok
      (by decide)).2.1 exWithdrawal hr rfl (by decide)⟩
  · obtain ⟨r, hr, hok⟩ : ∃ r, handleMsgTokenToTokenExchange exConsts exCtx exState exSwapMsg
        = some r ∧ r.1.IsOK = true := ⟨_, rfl, rfl⟩
    exact ⟨r, hr, hok, (C20_reserve_bookkeeping exConsts exCtx exState r.2 r.1 exPool hok
      (by decide)).2.2 exSwapMsg (by decide) hr rfl (by decide) (by decide)⟩
  · obtain ⟨r, hr, hok⟩ : ∃ r, handleMsgAddLiquidity exConsts exCtx exEmptyState
        exOneSidedDeposit = some r ∧ r.1.IsOK = true := ⟨_, rfl, rfl⟩
    exact ⟨r, hr, hok, by decide, (C20_reserve_bookkeeping exConsts exCtx exEmptyState r.2 r.1
      (SwapTokenPair.mk (DecCoin.mk "tokt" 0) (DecCoin.mk "xxb" 0) "ammswap_xxb") hok
      (by decide)).1 exOneSidedDeposit hr rfl (by decide) (by decide) (by decide)⟩

/-! ## C21: the mint-failure boundary of a deposit -/

/-- With the modelled ledger mint the parametrised deposit handler is
    `handleMsgAddLiquidity`. -/
theorem handleMsgAddLiquidityWith_model (c : Consts) (ctx : Context) (k : State)
    (msg : MsgAddLiquidity) :
    handleMsgAddLiquidityWith MintPoolCoinsToUser c ctx k msg =
      handleMsgAddLiquidity c ctx k msg := rfl

/-- With the modelled ledger mint, which refuses only non-positive amounts,
    the mint of a deposit never fails: every failed deposit returns the state
    it was called on. -/
theorem handleMsgAddLiquidity_fail_unchanged {c : Consts} {ctx : Context} {k k' : State}
    {msg : MsgAddLiquidity} {res : Result}
    (h : handleMsgAddLiquidity c ctx k msg = some (res, k')) (hno : res.IsOK = false) :
    k' = k := by
  rcases handleMsgAddLiquidity_cases h with ⟨-, e⟩ |
    ⟨p, poolToken, baseAmount, liquidity, -, -, -, hbranch, hfin⟩
  · exact e
  rcases addLiquidityFinish_cases hfin with ⟨-, e⟩ | ⟨k1, -, -, -, -, -, hl0, hmint⟩
  · exact e
  rcases hmint with ⟨-, hnone, -⟩ | ⟨hok, -⟩
  · have hle := MintPoolCoinsToUser_none hnone
    have hzero : liquidity = 0 := le_antisymm hle hl0
    rcases hbranch with ⟨-, -, -, hone⟩ | ⟨-, -, -, -, -, hne⟩
    · have := NewDec_one_pos c
      rw [← hone, hzero] at this
      exact absurd this (lt_irrefl _)
    · exact absurd hzero hne
  · rw [hok] at hno
    exact absurd hno (by decide)

/-- C21. Mint-failure boundary of add_liquidity.  For every ledger mint and
    every add-liquidity request on which the deadline check, the pool and share
    token lookups, the computation of the amounts (base amount and liquidity,
    for an unfunded or an active pool), the two threshold checks and the coin
    transfer to the pool succeed, and the mint of the share token fails: the
    handler returns the failed result `failed to mint pool token`; the state it
    returns holds the pool with reserves
    `(base_reserve + base_required, quote_reserve + quote_amount)`, its total
    supplies are the ones before the request and its balances are the ones
    after the transfer to the pool. -/
theorem C21_mint_failure_boundary (mint : State → DecCoins → String → Option State)
    (c : Consts) (ctx : Context) (k k1 : State) (msg : MsgAddLiquidity) (p : SwapTokenPair)
    (poolToken : Token) (baseAmount liquidity : Dec)
    (hdl : ¬ msg.Deadline < ctx.BlockTime)
    (hp : GetSwapTokenPair k msg.GetSwapTokenPair = some p)
    (ht : GetPoolTokenInfo k p.PoolTokenName = some poolToken)
    (hamounts :
      (p.QuotePooledCoin.Amount = 0 ∧ p.BasePooledCoin.Amount = 0 ∧
        baseAmount = msg.MaxBaseAmount.Amount ∧ liquidity = NewDec c 1) ∨
      (0 < p.BasePooledCoin.Amount ∧ 0 < p.QuotePooledCoin.Amount ∧
        baseAmount =
          (msg.QuoteAmount.Amount * p.BasePooledCoin.Amount).tdiv p.QuotePooledCoin.Amount ∧
        GetPoolTokenAmount k p.PoolTokenName ≠ 0 ∧
        liquidity =
          (msg.QuoteAmount.Amount * GetPoolTokenAmount k p.PoolTokenName).tdiv
            p.QuotePooledCoin.Amount ∧
        liquidity ≠ 0))
    (hmax : baseAmount ≤ msg.MaxBaseAmount.Amount) (hmin : msg.MinLiquidity ≤ liquidity)
    (hl0 : 0 ≤ liquidity)
    (hqd : p.QuotePooledCoin.Denom = msg.QuoteAmount.Denom)
    (hbd : p.BasePooledCoin.Denom = msg.MaxBaseAmount.Denom)
    (hsend : SendCoinsToPool c k
      (coinSort [msg.QuoteAmount, DecCoin.mk msg.MaxBaseAmount.Denom baseAmount])
      msg.Sender = some k1)
    (hmint : mint
      (SetSwapTokenPair k1 msg.GetSwapTokenPair (addedPair p msg.QuoteAmount.Amount baseAmount))
      [DecCoin.mk poolToken.Symbol liquidity] msg.Sender = none) :
    ∃ res k', handleMsgAddLiquidityWith mint c ctx k msg = some (res, k') ∧
      res = { Code := CodeType.CodeInternal, Log := "failed to mint pool token" } ∧
      res.IsOK = false ∧
      GetSwapTokenPair k' msg.GetSwapTokenPair =
        some (SwapTokenPair.mk
          (DecCoin.mk p.QuotePooledCoin.Denom
            (p.QuotePooledCoin.Amount + msg.QuoteAmount.Amount))
          (DecCoin.mk p.BasePooledCoin.Denom (p.BasePooledCoin.Amount + baseAmount))
          p.PoolTokenName) ∧
      k'.supply = k.supply ∧ k'.bal = k1.bal := by
  have hfin : addLiquidityFinishWith mint c k msg p poolToken
        (DecCoin.mk msg.MaxBaseAmount.Denom baseAmount) liquidity =
      some ({ Code := CodeType.CodeInternal, Log := "failed to mint pool token" },
        SetSwapTokenPair k1 msg.GetSwapTokenPair
          (addedPair p msg.QuoteAmount.Amount baseAmount)) := by
    unfold addLiquidityFinishWith
    rw [if_neg (not_lt.2 hmax), if_neg (not_lt.2 hmin)]
    simp only [hsend, DecCoin.Add, hqd, hbd, if_true, NewDecCoinFromDec, if_neg (not_lt.2 hl0)]
    rw [addedPair_eq p _ _ hqd hbd]
    simp only [hmint, failWith]
  refine ⟨_, SetSwapTokenPair k1 msg.GetSwapTokenPair
    (addedPair p msg.QuoteAmount.Amount baseAmount), ?_, rfl, rfl, ?_, ?_, rfl⟩
  · unfold handleMsgAddLiquidityWith
    rw [if_neg hdl]
    simp only [hp, ht]
    rcases hamounts with ⟨hQ, hB, rfl, rfl⟩ | ⟨hB, hQ, rfl, hT, rfl, hL⟩
    · rw [if_pos ⟨hQ, hB⟩]
      exact hfin
    · rw [if_neg (by intro h; exact hQ.ne' h.1), if_pos (by simp [DecCoin.IsPositive, hB, hQ])]
      simp only [MulAndQuo, hQ.ne', if_false, hT, hL]
      exact hfin
  · simp [GetSwapTokenPair, SetSwapTokenPair, addedPair]
  · exact (SendCoinsToPool_frame hsend).2.2.1

/-- Witness of C21: on the example state, with a ledger that refuses every
    mint, the deposit of 1500 smallest units of each token is reported failed;
    the stored reserves have grown by 1500 each and the share supply is still
    1. -/
theorem C21_mint_failure_boundary_witness :
    ∃ res k', handleMsgAddLiquidityWith exRefusingMint exConsts exCtx exState exSmallDeposit
        = some (res, k') ∧
      res.IsOK = false ∧
      GetSwapTokenPair k' "xxb_tokt" =
        some (SwapTokenPair.mk (DecCoin.mk "tokt" (100000000000 + 1500))
          (DecCoin.mk "xxb" (100000000000 + 1500)) "ammswap_xxb") ∧
      GetPoolTokenAmount k' "ammswap_xxb" = GetPoolTokenAmount exState "ammswap_xxb" := by
  obtain ⟨k1, hk1⟩ : ∃ k1, SendCoinsToPool exConsts exState
      (coinSort [exSmallDeposit.QuoteAmount,
        DecCoin.mk exSmallDeposit.MaxBaseAmount.Denom 1500]) exSmallDeposit.Sender = some k1 :=
    ⟨_, rfl⟩
  obtain ⟨res, k', hrun, -, hno, hpair, hsup, -⟩ :=
    C21_mint_failure_boundary exRefusingMint exConsts exCtx exState k1 exSmallDeposit exPool
      { Symbol := "ammswap_xxb", OriginalSymbol := "ammswap_xxb", TokenType := 2 } 1500 1
      (by decide) rfl rfl
      (Or.inr ⟨by decide, by decide, by decide, by decide, by decide, by decide⟩)
      (by decide) (by decide) (by decide) rfl rfl hk1 rfl
  exact ⟨res, k', hrun, hno, hpair, by rw [GetPoolTokenAmount, hsup]; rfl⟩

/-! ## C22: an active pool stays active -/

/-- The pool a swap leg stores has positive reserves when the pool it was
    priced on has, the fee rate is in `[0,1)` and the sold amount is
    positive. -/
theorem swappedPair_pos {c : Consts} {params : Params} {p : SwapTokenPair}
    {msg : MsgTokenToToken} {tokenBuy : DecCoin} {denom : String}
    (hf0 : 0 ≤ params.FeeRate) (hf1 : params.FeeRate < OneDec c)
    (hB : 0 < p.BasePooledCoin.Amount) (hQ : 0 < p.QuotePooledCoin.Amount)
    (hs : 0 < msg.SoldTokenAmount.Amount)
    (hcalc : CalculateTokenToBuy c p msg.SoldTokenAmount denom params = some tokenBuy) :
    0 < (swappedPair c p tokenBuy msg).BasePooledCoin.Amount ∧
      0 < (swappedPair c p tokenBuy msg).QuotePooledCoin.Amount := by
  rw [CalculateTokenToBuy_eq] at hcalc
  by_cases hd : msg.SoldTokenAmount.Denom = c.DefaultBondDenom
  · obtain ⟨bought, hg, -, hlt, -⟩ := GetInputPrice_spec c hQ hB hf0 hf1 hs.le
    simp only [reserveIn, reserveOut, hd, if_true, hg, Option.map_some',
      Option.some.injEq] at hcalc
    subst hcalc
    simp only [swappedPair, hd, if_true]
    constructor <;> linarith
  · obtain ⟨bought, hg, -, hlt, -⟩ := GetInputPrice_spec c hB hQ hf0 hf1 hs.le
    simp only [reserveIn, reserveOut, hd, if_false, hg, Option.map_some',
      Option.some.injEq] at hcalc
    subst hcalc
    simp only [swappedPair, hd, if_false]
    constructor <;> linarith

/-- C22, counterexample.  The example pool has both reserves strictly
    positive; the withdrawal of the whole share supply by its only holder
    succeeds and the stored reserves are both zero afterwards. -/
theorem C22_active_pool_counterexample :
    ∃ r, handleMsgRemoveLiquidity exConsts exCtx exState exFullWithdrawal = some r ∧
      r.1.IsOK = true ∧
      GetSwapTokenPair exState exFullWithdrawal.GetSwapTokenPair = some exPool ∧
      0 < exPool.BasePooledCoin.Amount ∧ 0 < exPool.QuotePooledCoin.Amount ∧
      exFullWithdrawal.Liquidity = GetPoolTokenAmount exState exPool.PoolTokenName ∧
      GetSwapTokenPair r.2 exFullWithdrawal.GetSwapTokenPair =
        some (SwapTokenPair.mk (DecCoin.mk "tokt" 0) (DecCoin.mk "xxb" 0) "ammswap_xxb") :=
  ⟨_, rfl, rfl, rfl, by decide, by decide, by decide, by decide⟩

/-- C22, amended.  On a state within the ranges of the data model (reserves
    and share supplies non-negative, fee rate in `[0,1)`), every successful
    request (create_pool, add_liquidity, remove_liquidity, direct or routed
    swap) other than the withdrawal of a pool's whole share supply leaves every
    pool whose reserves are both strictly positive with both stored reserves
    strictly positive. -/
theorem C22_active_pool_stays_active (c : Consts) (ctx : Context) (k k' : State) (m : Msg)
    (res : Result) (n : String) (hwf : WellFormed c k) (hpart : m.PartialWithdrawal k)
    (hrun : NewHandler c ctx k m = some (res, k')) (hok : res.IsOK = true)
    (hact : ActivePool k n) : ActivePool k' n := by
  obtain ⟨p, hp, hB, hQ⟩ := hact
  obtain ⟨-, hsup, hf0, hf1⟩ := hwf
  cases m with
  | AddLiquidity msg =>
    obtain ⟨p0, tok, base, L, k1, -, hp0, -, hbr, -, -, hL, -, -, hsend, hpairs, -⟩ :=
      handleMsgAddLiquidity_success hrun hok
    have hk1 := (SendCoinsToPool_frame hsend).1
    by_cases hn : n = msg.GetSwapTokenPair
    · subst hn
      rw [hp] at hp0
      cases hp0
      obtain ⟨hbase, hLeq⟩ : base =
            (msg.QuoteAmount.Amount * p.BasePooledCoin.Amount).tdiv p.QuotePooledCoin.Amount ∧
          L = (msg.QuoteAmount.Amount * GetPoolTokenAmount k p.PoolTokenName).tdiv
            p.QuotePooledCoin.Amount := by
        rcases hbr with ⟨h0, -⟩ | ⟨-, -, e1, -, e2⟩
        · exact absurd h0 hQ.ne'
        · exact ⟨e1, e2⟩
      rw [hLeq] at hL
      have hqT := pos_of_tdiv_pos hQ hL
      have hq : 0 < msg.QuoteAmount.Amount := by
        by_contra hc
        push_neg at hc
        have hT : 0 ≤ GetPoolTokenAmount k p.PoolTokenName := hsup p.PoolTokenName
        have := mul_nonpos_of_nonpos_of_nonneg hc hT
        linarith
      have hb0 : 0 ≤ base := by
        rw [hbase]
        exact Int.tdiv_nonneg (mul_nonneg hq.le hB.le) hQ.le
      refine ⟨addedPair p msg.QuoteAmount.Amount base, ?_, ?_, ?_⟩
      · simp [GetSwapTokenPair, hpairs, SetSwapTokenPair]
      · simp only [addedPair]
        linarith
      · simp only [addedPair]
        linarith
    · refine ⟨p, ?_, hB, hQ⟩
      simp only [GetSwapTokenPair, hpairs, SetSwapTokenPair, if_neg hn, hk1]
      exact hp
  | RemoveLiquidity msg =>
    obtain ⟨p0, k1, baseDec, quoteDec, -, hp0, -, -, hb, hq, -, -, -, -, hsend, hl, -, hpairs,
      -⟩ := handleMsgRemoveLiquidity_success hrun hok
    have hk1 := (SendCoinsFromPoolToAccount_frame hsend).1
    have hlt := hpart p0 hp0
    by_cases hn : n = msg.GetSwapTokenPair
    · subst hn
      rw [hp] at hp0
      cases hp0
      have hT : 0 < GetPoolTokenAmount k p.PoolTokenName := lt_trans hl hlt
      obtain ⟨-, hb1, -⟩ := tdiv_bounds (mul_nonneg hB.le hl.le) hT
      obtain ⟨-, hq1, -⟩ := tdiv_bounds (mul_nonneg hQ.le hl.le) hT
      rw [← hb] at hb1
      rw [← hq] at hq1
      refine ⟨removedPair p quoteDec baseDec, ?_, ?_, ?_⟩
      · simp [GetSwapTokenPair, hpairs, SetSwapTokenPair]
      · simp only [removedPair]
        by_contra hc
        push_neg at hc
        have h1 : p.BasePooledCoin.Amount * GetPoolTokenAmount k p.PoolTokenName ≤
            baseDec * GetPoolTokenAmount k p.PoolTokenName :=
          mul_le_mul_of_nonneg_right (by linarith) hT.le
        have h2 : p.BasePooledCoin.Amount * msg.Liquidity <
            p.BasePooledCoin.Amount * GetPoolTokenAmount k p.PoolTokenName :=
          mul_lt_mul_of_pos_left hlt hB
        linarith
      · simp only [removedPair]
        by_contra hc
        push_neg at hc
        have h1 : p.QuotePooledCoin.Amount * GetPoolTokenAmount k p.PoolTokenName ≤
            quoteDec * GetPoolTokenAmount k p.PoolTokenName :=
          mul_le_mul_of_nonneg_right (by linarith) hT.le
        have h2 : p.QuotePooledCoin.Amount * msg.Liquidity <
            p.QuotePooledCoin.Amount * GetPoolTokenAmount k p.PoolTokenName :=
          mul_lt_mul_of_pos_left hlt hQ
        linarith
    · refine ⟨p, ?_, hB, hQ⟩
      simp only [GetSwapTokenPair, hpairs, SetSwapTokenPair, if_neg hn, hk1]
      exact hp
  | CreateExchange msg =>
    rcases handleMsgCreateExchange_cases hrun with ⟨hno, -⟩ | ⟨-, -, hnone, -, rfl⟩
    · rw [hok] at hno
      exact absurd hno (by decide)
    · have hn : n ≠ msg.Token ++ "_" ++ NativeToken c := by
        rintro rfl
        rw [hp] at hnone
        exact absurd hnone (by simp)
      refine ⟨p, ?_, hB, hQ⟩
      simp only [GetSwapTokenPair, SetSwapTokenPair, if_neg hn, NewPoolToken]
      exact hp
  | TokenToToken msg =>
    simp only [NewHandler, handleMsgTokenToTokenExchange] at hrun
    split at hrun
    · obtain ⟨p1, p2, tn, tb, k1a, k1b, k2a, k2b, hp1, hp2, hc1, hc2, hnd, -, s1, s2, t1, t2,
        rfl⟩ := handleMsgTokenToToken_success hrun hok
      rename_i hrouted
      have hs := (SendCoinsToPool_single s1).1
      have hsn := (SendCoinsToPool_single t1).1
      have e1 := (SendCoinsToPool_frame s1).1
      have e2 := (SendCoinsFromPoolToAccount_frame s2).1
      have e3 := (SendCoinsToPool_frame t1).1
      have e4 := (SendCoinsFromPoolToAccount_frame t2).1
      rw [msgOne_pair c msg hrouted.1] at e3
      by_cases hn2 : n = msg.MinBoughtTokenAmount.Denom ++ "_" ++ c.DefaultBondDenom
      · subst hn2
        rw [hp] at hp2
        cases hp2
        have hpos := @swappedPair_pos c (GetParams k) p (msgTwo msg tn) tb
          msg.MinBoughtTokenAmount.Denom hf0 hf1 hB hQ hsn hc2
        refine ⟨_, ?_, hpos.1, hpos.2⟩
        rw [GetSwapTokenPair_Set, msgTwo_pair c msg tn hnd, if_pos rfl]
      · by_cases hn1 : n = msg.SoldTokenAmount.Denom ++ "_" ++ c.DefaultBondDenom
        · subst hn1
          rw [hp] at hp1
          cases hp1
          have hpos := @swappedPair_pos c (GetParams k) p (msgOne c msg) tn
            c.DefaultBondDenom hf0 hf1 hB hQ hs hc1
          refine ⟨_, ?_, hpos.1, hpos.2⟩
          rw [GetSwapTokenPair_Set, msgTwo_pair c msg tn hnd, if_neg hn2]
          simp only [GetSwapTokenPair, e4, e3, SetSwapTokenPair, if_true]
        · refine ⟨p, ?_, hB, hQ⟩
          rw [GetSwapTokenPair_Set, msgTwo_pair c msg tn hnd, if_neg hn2]
          simp only [GetSwapTokenPair, e4, e3, SetSwapTokenPair, if_neg hn1, e2, e1]
          exact hp
    · obtain ⟨p0, tb, res1, -, -, hp0, hcalc, -, -, hsw, hok1⟩ :=
        handleMsgTokenToNativeToken_ok hrun hok
      obtain ⟨k1, k2, s1, s2, rfl, -⟩ := swapTokenNativeToken_ok hsw hok1
      have hs := (SendCoinsToPool_single s1).1
      have e1 := (SendCoinsToPool_frame s1).1
      have e2 := (SendCoinsFromPoolToAccount_frame s2).1
      by_cases hn : n = msg.GetSwapTokenPair c
      · subst hn
        rw [hp] at hp0
        cases hp0
        have hpos := @swappedPair_pos c (GetParams k) p msg tb
          msg.MinBoughtTokenAmount.Denom hf0 hf1 hB hQ hs hcalc
        refine ⟨_, ?_, hpos.1, hpos.2⟩
        rw [GetSwapTokenPair_Set, if_pos rfl]
      · refine ⟨p, ?_, hB, hQ⟩
        rw [GetSwapTokenPair_Set, if_neg hn]
        simp only [GetSwapTokenPair, e2, e1]
        exact hp

/-- Witness of C22: the withdrawal of half the share supply of the example
    pool leaves both reserves positive. -/
theorem C22_active_pool_stays_active_witness :
    ∃ r, NewHandler exConsts exCtx exState (Msg.RemoveLiquidity exWithdrawal) = some r ∧
      r.1.IsOK = true ∧ ActivePool exState "xxb_tokt" ∧ ActivePool r.2 "xxb_tokt" := by
  obtain ⟨r, hr, hok⟩ : ∃ r, NewHandler exConsts exCtx exState
      (Msg.RemoveLiquidity exWithdrawal) = some r ∧ r.1.IsOK = true := ⟨_, rfl, rfl⟩
  have hact : ActivePool exState "xxb_tokt" := ⟨exPool, rfl, by decide, by decide⟩
  have hpart : (Msg.RemoveLiquidity exWithdrawal).PartialWithdrawal exState := by
    intro p hp
    obtain rfl : exPool = p := by
      have : GetSwapTokenPair exState exWithdrawal.GetSwapTokenPair = some exPool := rfl
      rw [this] at hp
      simpa using hp
    decide
  exact ⟨r, hr, hok, hact,
    C22_active_pool_stays_active exConsts exCtx exState r.2 (Msg.RemoveLiquidity exWithdrawal)
      r.1 "xxb_tokt" exState_wellFormed hpart hr hok hact⟩

/-! ## C23: corrupted pools -/

/-- C23. Corrupted pool rejection.  On a pool whose reserves are both positive
    while the total supply of its share token is zero, and on a pool in which
    exactly one of the two reserves is zero, the add-liquidity handler returns
    a failed result together with the state it was called on: no ledger
    transfer, no reserve change and no mint. -/
theorem C23_corrupted_pool_rejection (c : Consts) (ctx : Context) (k : State)
    (msg : MsgAddLiquidity) (p : SwapTokenPair)
    (hp : GetSwapTokenPair k msg.GetSwapTokenPair = some p)
    (hcorrupt :
      (0 < p.BasePooledCoin.Amount ∧ 0 < p.QuotePooledCoin.Amount ∧
        GetPoolTokenAmount k p.PoolTokenName = 0) ∨
      (p.BasePooledCoin.Amount = 0 ∧ p.QuotePooledCoin.Amount ≠ 0) ∨
      (p.BasePooledCoin.Amount ≠ 0 ∧ p.QuotePooledCoin.Amount = 0)) :
    ∃ res, handleMsgAddLiquidity c ctx k msg = some (res, k) ∧ res.IsOK = false := by
  unfold handleMsgAddLiquidity
  by_cases hdl : msg.Deadline < ctx.BlockTime
  · rw [if_pos hdl]; exact failWith_fails _ _ _ (by decide)
  rw [if_neg hdl]
  simp only [hp]
  cases ht : GetPoolTokenInfo k p.PoolTokenName with
  | none => exact failWith_fails _ _ _ (by decide)
  | some poolToken =>
    simp only []
    rcases hcorrupt with ⟨hB, hQ, hT⟩ | ⟨hB, hQ⟩ | ⟨hB, hQ⟩
    · rw [if_neg (by intro h; exact hQ.ne' h.1),
        if_pos (by simp [DecCoin.IsPositive, hB, hQ])]
      simp only [MulAndQuo, hQ.ne', if_false, hT, if_true]
      exact failWith_fails _ _ _ (by decide)
    · rw [if_neg (by intro h; exact hQ h.1),
        if_neg (by simp [DecCoin.IsPositive, hB])]
      exact failWith_fails _ _ _ (by decide)
    · rw [if_neg (by intro h; exact hB h.2),
        if_neg (by simp [DecCoin.IsPositive, hQ])]
      exact failWith_fails _ _ _ (by decide)

/-- Witness of C23: the example deposit on the example pool with a share supply
    of zero, and on the pool whose base reserve alone is zero. -/
theorem C23_corrupted_pool_rejection_witness :
    (∃ res, handleMsgAddLiquidity exConsts exCtx exNoSupply exSmallDeposit
        = some (res, exNoSupply) ∧ res.IsOK = false) ∧
    (∃ res, handleMsgAddLiquidity exConsts exCtx exOneSidedPool exSmallDeposit
        = some (res, exOneSidedPool) ∧ res.IsOK = false) :=
  ⟨C23_corrupted_pool_rejection exConsts exCtx exNoSupply exSmallDeposit exPool rfl
      (Or.inl ⟨by decide, by decide, rfl⟩),
    C23_corrupted_pool_rejection exConsts exCtx exOneSidedPool exSmallDeposit
      (SwapTokenPair.mk (DecCoin.mk "tokt" 50000000000) (DecCoin.mk "xxb" 0) "ammswap_xxb") rfl
      (Or.inr (Or.inl ⟨rfl, by decide⟩))⟩

/-! ## C24: the quote reserve per share -/

/-- C24. Liquidity operations never dilute the quote reserve per share.  For
    every pool with a positive quote reserve `Q` (in particular every active
    pool) and share supply `T > 0`, every successful add-liquidity and every
    successful remove-liquidity request on it stores a quote reserve `Q'` and
    leaves a share supply `T'` with `Q' * T >= Q * T'`. -/
theorem C24_quote_reserve_per_share (c : Consts) (ctx : Context) (k k' : State) (res : Result)
    (p : SwapTokenPair) (hQ : 0 < p.QuotePooledCoin.Amount)
    (hT : 0 < GetPoolTokenAmount k p.PoolTokenName) (hok : res.IsOK = true) :
    (∀ msg : MsgAddLiquidity,
      handleMsgAddLiquidity c ctx k msg = some (res, k') →
      GetSwapTokenPair k msg.GetSwapTokenPair = some p →
      ∃ p', GetSwapTokenPair k' msg.GetSwapTokenPair = some p' ∧
        p.QuotePooledCoin.Amount * GetPoolTokenAmount k' p.PoolTokenName ≤
          p'.QuotePooledCoin.Amount * GetPoolTokenAmount k p.PoolTokenName) ∧
    (∀ msg : MsgRemoveLiquidity,
      handleMsgRemoveLiquidity c ctx k msg = some (res, k') →
      GetSwapTokenPair k msg.GetSwapTokenPair = some p →
      ∃ p', GetSwapTokenPair k' msg.GetSwapTokenPair = some p' ∧
        p.QuotePooledCoin.Amount * GetPoolTokenAmount k' p.PoolTokenName ≤
          p'.QuotePooledCoin.Amount * GetPoolTokenAmount k p.PoolTokenName) := by
  constructor
  · intro msg hrun hp
    obtain ⟨p0, tok, base, L, k1, -, hp0, -, hbr, -, -, hL, -, -, -, hpairs, hsupply, -⟩ :=
      handleMsgAddLiquidity_success hrun hok
    rw [hp] at hp0
    cases hp0
    have hLeq : L = (msg.QuoteAmount.Amount * GetPoolTokenAmount k p.PoolTokenName).tdiv
        p.QuotePooledCoin.Amount := by
      rcases hbr with ⟨h0, -⟩ | ⟨-, -, -, -, e2⟩
      · exact absurd h0 hQ.ne'
      · exact e2
    have hqT : 0 < msg.QuoteAmount.Amount * GetPoolTokenAmount k p.PoolTokenName := by
      rw [hLeq] at hL
      exact pos_of_tdiv_pos hQ hL
    obtain ⟨-, hle, -⟩ := tdiv_bounds hqT.le hQ
    rw [← hLeq] at hle
    refine ⟨addedPair p msg.QuoteAmount.Amount base, ?_, ?_⟩
    · simp [GetSwapTokenPair, hpairs, SetSwapTokenPair]
    · simp only [addedPair, GetPoolTokenAmount, hsupply] at hle hqT ⊢
      split <;> nlinarith
  · intro msg hrun hp
    obtain ⟨p0, k1, baseDec, quoteDec, -, hp0, -, -, -, hq, -, -, -, -, -, hl, -, hpairs,
      hsupply, -⟩ := handleMsgRemoveLiquidity_success hrun hok
    rw [hp] at hp0
    cases hp0
    obtain ⟨-, hle, -⟩ := tdiv_bounds (mul_nonneg hQ.le hl.le) hT
    rw [← hq] at hle
    refine ⟨removedPair p quoteDec baseDec, ?_, ?_⟩
    · simp [GetSwapTokenPair, hpairs, SetSwapTokenPair]
    · simp only [removedPair, GetPoolTokenAmount, hsupply, if_true] at hle ⊢
      nlinarith

/-- Witness of C24 on the example pool (quote reserve 1000, share supply 1):
    the deposit of 1500 smallest units and the withdrawal of half the
    share. -/
theorem C24_quote_reserve_per_share_witness :
    (∃ r p', handleMsgAddLiquidity exConsts exCtx exState exSmallDeposit = some r ∧
      r.1.IsOK = true ∧
      GetSwapTokenPair r.2 exSmallDeposit.GetSwapTokenPair = some p' ∧
      exPool.QuotePooledCoin.Amount * GetPoolTokenAmount r.2 exPool.PoolTokenName ≤
        p'.QuotePooledCoin.Amount * GetPoolTokenAmount exState exPool.PoolTokenName) ∧
    (∃ r p', handleMsgRemoveLiquidity exConsts exCtx exState exWithdrawal = some r ∧
      r.1.IsOK = true ∧
      GetSwapTokenPair r.2 exWithdrawal.GetSwapTokenPair = some p' ∧
      exPool.QuotePooledCoin.Amount * GetPoolTokenAmount r.2 exPool.PoolTokenName ≤
        p'.QuotePooledCoin.Amount * GetPoolTokenAmount exState exPool.PoolTokenName) := by
  constructor
  · obtain ⟨r, hr, hok⟩ : ∃ r, handleMsgAddLiquidity exConsts exCtx exState exSmallDeposit
        = some r ∧ r.1.IsOK = true := ⟨_, rfl, rfl⟩
    obtain ⟨p', h1, h2⟩ := (C24_quote_reserve_per_share exConsts exCtx exState r.2 r.1 exPool
      (by decide) (by decide) hok).1 exSmallDeposit hr rfl
    exact ⟨r, p', hr, hok, h1, h2⟩
  · obtain ⟨r, hr, hok⟩ : ∃ r, handleMsgRemoveLiquidity exConsts exCtx exState exWithdrawal
        = some r ∧ r.1.IsOK = true := ⟨_, rfl, rfl⟩
    obtain ⟨p', h1, h2⟩ := (C24_quote_reserve_per_share exConsts exCtx exState r.2 r.1 exPool
      (by decide) (by decide) hok).2 exWithdrawal hr rfl
    exact ⟨r, p', hr, hok, h1, h2⟩

/-! ## C25: threshold rejection of a withdrawal -/

/-- C25. Remove liquidity threshold rejection.  On an existing pool with a
    non-zero share supply, with the redemption amounts
    `base_out = trunc(B * l / T)` and `quote_out = trunc(Q * l / T)`
    non-negative and the two minimum amounts of the request in the
    denominations of the pool: whenever `base_out` is less than the minimal base
    amount or `quote_out` is less than the minimal quote amount, the handler
    returns a failed result together with the state it was called on (no
    transfer, no reserve change, no burn); and when both are at least their
    minimums, no result of the handler is one of the two threshold
    rejections. -/
theorem C25_remove_liquidity_threshold (c : Consts) (ctx : Context) (k : State)
    (msg : MsgRemoveLiquidity) (p : SwapTokenPair)
    (hp : GetSwapTokenPair k msg.GetSwapTokenPair = some p)
    (hT : GetPoolTokenAmount k p.PoolTokenName ≠ 0)
    (hb0 : 0 ≤ (p.BasePooledCoin.Amount * msg.Liquidity).tdiv
      (GetPoolTokenAmount k p.PoolTokenName))
    (hq0 : 0 ≤ (p.QuotePooledCoin.Amount * msg.Liquidity).tdiv
      (GetPoolTokenAmount k p.PoolTokenName))
    (hbd : p.BasePooledCoin.Denom = msg.MinBaseAmount.Denom)
    (hqd : p.QuotePooledCoin.Denom = msg.MinQuoteAmount.Denom) :
    (((p.BasePooledCoin.Amount * msg.Liquidity).tdiv (GetPoolTokenAmount k p.PoolTokenName)
          < msg.MinBaseAmount.Amount ∨
        (p.QuotePooledCoin.Amount * msg.Liquidity).tdiv (GetPoolTokenAmount k p.PoolTokenName)
          < msg.MinQuoteAmount.Amount) →
      ∃ res, handleMsgRemoveLiquidity c ctx k msg = some (res, k) ∧ res.IsOK = false) ∧
    (msg.MinBaseAmount.Amount ≤
        (p.BasePooledCoin.Amount * msg.Liquidity).tdiv (GetPoolTokenAmount k p.PoolTokenName) →
      msg.MinQuoteAmount.Amount ≤
        (p.QuotePooledCoin.Amount * msg.Liquidity).tdiv (GetPoolTokenAmount k p.PoolTokenName) →
      ∀ res k', handleMsgRemoveLiquidity c ctx k msg = some (res, k') →
        res.Log ≠ "Failed: The available base Amount are less than min base Amount" ∧
        res.Log ≠ "Failed: available quote amount are less than least quote amount") := by
  constructor
  · intro hlt
    unfold handleMsgRemoveLiquidity
    by_cases hdl : msg.Deadline < ctx.BlockTime
    · rw [if_pos hdl]; exact failWith_fails _ _ _ (by decide)
    rw [if_neg hdl]
    simp only [hp]
    by_cases hchk : GetPoolTokenAmount k p.PoolTokenName < msg.Liquidity
    · rw [if_pos hchk]; exact failWith_fails _ _ _ (by decide)
    rw [if_neg hchk]
    simp only [MulAndQuo, hT, if_false, NewDecCoinFromDec, if_neg (not_lt.2 hb0),
      if_neg (not_lt.2 hq0), DecCoin.IsLT, hbd, hqd, if_true]
    by_cases hb : (p.BasePooledCoin.Amount * msg.Liquidity).tdiv
        (GetPoolTokenAmount k p.PoolTokenName) < msg.MinBaseAmount.Amount
    · simp only [hb, decide_True]
      exact failWith_fails _ _ _ (by decide)
    · have hq := hlt.resolve_left hb
      simp only [hb, hq, decide_True, decide_False]
      exact failWith_fails _ _ _ (by decide)
  · intro hb hq res k' hrun
    unfold handleMsgRemoveLiquidity at hrun
    simp only [hp, MulAndQuo, hT, if_false, NewDecCoinFromDec, if_neg (not_lt.2 hb0),
      if_neg (not_lt.2 hq0), DecCoin.IsLT, hbd, hqd, if_true, not_lt.2 hb, not_lt.2 hq,
      decide_False, DecCoin.Sub, failWith] at hrun
    repeat' split at hrun
    all_goals first
      | (simp only [Option.some.injEq, Prod.mk.injEq] at hrun
         rw [← hrun.1]
         exact ⟨by decide, by decide⟩)
      | simp at hrun

/-- Witness of C25 on the example pool: the withdrawal of half the share that
    asks for at least 600 of `xxb` (the redemption gives 500) is rejected with
    the state unchanged; the same withdrawal with minimums of zero is not
    rejected by the threshold checks. -/
theorem C25_remove_liquidity_threshold_witness :
    (∃ res, handleMsgRemoveLiquidity exConsts exCtx exState exGreedyWithdrawal
        = some (res, exState) ∧ res.IsOK = false) ∧
    (∃ r, handleMsgRemoveLiquidity exConsts exCtx exState exWithdrawal = some r ∧
      r.1.Log ≠ "Failed: The available base Amount are less than min base Amount" ∧
      r.1.Log ≠ "Failed: available quote amount are less than least quote amount") := by
  constructor
  · exact (C25_remove_liquidity_threshold exConsts exCtx exState exGreedyWithdrawal exPool rfl
      (by decide) (by decide) (by decide) rfl rfl).1 (Or.inl (by decide))
  · obtain ⟨r, hr⟩ : ∃ r, handleMsgRemoveLiquidity exConsts exCtx exState exWithdrawal
        = some r := ⟨_, rfl⟩
    exact ⟨r, hr, (C25_remove_liquidity_threshold exConsts exCtx exState exWithdrawal exPool
      rfl (by decide) (by decide) (by decide) rfl rfl).2 (by decide) (by decide) r.1 r.2 hr⟩

/-! ## C26: coin canonicalization -/

/-- The result of `IsTokenExits` on a heap on which the token keeper's pointers
    are allocated: an error for every token that does not exist and `nil` for
    every token that exists, whatever the value of its type. -/
theorem IsTokenExits_result (h : BigIntHeap) (tk : TokenKeeper) (token : String)
    (halloc : tk.Allocated h) :
    (tk.tokens token = none → (IsTokenExits h tk token).1 = some "Failed: token not exits") ∧
    (∀ t, tk.tokens token = some t → (IsTokenExits h tk token).1 = none) := by
  constructor
  · intro hn
    simp [IsTokenExits, TokenKeeper.TokenExist, hn]
  · intro t ht
    have hlt := halloc token t ht
    have hne : ¬ t.TokenType.i = h.next := hlt.ne
    simp [IsTokenExits, TokenKeeper.TokenExist, TokenKeeper.GetTokenInfo, ht, SdkInt.goEq,
      NewInt, hne]

/-- C27. Token eligibility check, evaluated on an existing token of the
    pool-token kind.  In the example token keeper the token `ammswap_xxb`
    exists and the value of its type is 2; its type points to an allocated big
    integer.  `sdk.NewInt(2)` allocates a new big integer, the comparison `==`
    of the two structs compares the two pointers and fails, and `IsTokenExits`
    returns `nil`. -/
theorem C27_IsTokenExits_accepts_pool_token :
    exTokenKeeper.TokenExist "ammswap_xxb" = true ∧
      (exTokenKeeper.GetTokenInfo "ammswap_xxb").TokenType.val exHeap = 2 ∧
      exTokenKeeper.Allocated exHeap ∧
      (NewInt exHeap 2).1.val (NewInt exHeap 2).2 = 2 ∧
      (exTokenKeeper.GetTokenInfo "ammswap_xxb").TokenType.goEq (NewInt exHeap 2).1 = false ∧
      (IsTokenExits exHeap exTokenKeeper "ammswap_xxb").1 = none := by
  refine ⟨by decide, by decide, ?_, by decide, by decide, by decide⟩
  intro token t ht
  simp only [exTokenKeeper] at ht
  split at ht
  · cases ht; decide
  · split at ht
    · cases ht; decide
    · simp at ht

/-! ## C28: signature values -/

/-- C28. Validation of signature values.  For all `v`, `r` and `s`,
    `ValidateSignatureValues` returns true if and only if `1 <= r < N`,
    `1 <= s <= floor(N/2)` and `v` is 0 or 1, where `N` is the order of the
    secp256k1 group; in particular every `s` above `floor(N/2)` is rejected. -/
theorem C28_signature_values (v : Nat) (r s : Int) :
    (ValidateSignatureValues v r s = true ↔
      (1 ≤ r ∧ r < secp256k1N) ∧ (1 ≤ s ∧ s ≤ secp256k1N / 2) ∧ (v = 0 ∨ v = 1)) ∧
    (secp256k1N / 2 < s → ValidateSignatureValues v r s = false) ∧
    secp256k1N =
      115792089237316195423570985008687907852837564279074904382605163141518161494337 := by
  have hhalf : secp256k1halfN = secp256k1N / 2 := rfl
  have hlt : secp256k1N / 2 < secp256k1N := by
    unfold secp256k1N
    norm_num
  refine ⟨?_, ?_, by unfold secp256k1N; norm_num⟩
  · unfold ValidateSignatureValues
    rw [hhalf]
    by_cases h1 : r < 1 ∨ s < 1
    · rw [if_pos h1]
      constructor
      · intro h; exact absurd h (by decide)
      · rintro ⟨⟨hr, -⟩, ⟨hs, -⟩, -⟩
        rcases h1 with h | h <;> omega
    · rw [if_neg h1]
      push_neg at h1
      by_cases h2 : secp256k1N / 2 < s
      · rw [if_pos h2]
        constructor
        · intro h; exact absurd h (by decide)
        · rintro ⟨-, ⟨-, hs⟩, -⟩
          omega
      · rw [if_neg h2]
        push_neg at h2
        have hsN : s < secp256k1N := lt_of_le_of_lt h2 hlt
        simp only [Bool.and_eq_true, Bool.or_eq_true, decide_eq_true_eq]
        constructor
        · rintro ⟨⟨hr, -⟩, hv⟩
          exact ⟨⟨h1.1, hr⟩, ⟨h1.2, h2⟩, hv⟩
        · rintro ⟨⟨-, hr⟩, -, hv⟩
          exact ⟨⟨hr, hsN⟩, hv⟩
  · intro h
    unfold ValidateSignatureValues
    rw [hhalf]
    by_cases h1 : r < 1 ∨ s < 1
    · rw [if_pos h1]
    · rw [if_neg h1, if_pos h]

/-! ## C29: the output of the modular exponentiation contract -/

theorem SetBytes_append_singleton (bs : List Byte) (b : Byte) :
    SetBytes (bs ++ [b]) = SetBytes bs * 256 + b.val := by
  simp [SetBytes, List.foldl_append]

/-- The big-endian value is the value of the little-endian digits. -/
theorem SetBytes_eq_ofDigits (bs : List Byte) :
    SetBytes bs = Nat.ofDigits 256 (bs.reverse.map Fin.val) := by
  induction bs using List.reverseRecOn with
  | nil => rfl
  | append_singleton bs b ih =>
    rw [SetBytes_append_singleton, ih]
    simp [Nat.ofDigits_cons]
    ring

theorem SetBytes_lt (bs : List Byte) : SetBytes bs < 256 ^ bs.length := by
  rw [SetBytes_eq_ofDigits]
  have h := @Nat.ofDigits_lt_base_pow_length 256 (bs.reverse.map Fin.val) (by norm_num)
    (by
      intro x hx
      simp only [List.mem_map] at hx
      obtain ⟨b, -, rfl⟩ := hx
      exact b.isLt)
  simpa using h

theorem SetBytes_append (a b : List Byte) :
    SetBytes (a ++ b) = SetBytes a * 256 ^ b.length + SetBytes b := by
  rw [SetBytes_eq_ofDigits, SetBytes_eq_ofDigits, SetBytes_eq_ofDigits]
  simp only [List.reverse_append, List.map_append, Nat.ofDigits_append, List.length_map,
    List.length_reverse]
  ring

theorem SetBytes_replicate_zero (n : Nat) : SetBytes (List.replicate n (0 : Byte)) = 0 := by
  induction n with
  | zero => rfl
  | succ n ih =>
    rw [List.replicate_succ', SetBytes_append_singleton, ih]
    rfl

theorem SetBytes_Bytes (n : Nat) : SetBytes (Bytes n) = n := by
  rw [SetBytes_eq_ofDigits]
  unfold Bytes
  rw [← List.map_reverse, List.reverse_reverse, List.map_map]
  have hmap : (Nat.digits 256 n).map (Fin.val ∘ fun d => (Fin.ofNat d : Byte)) =
      Nat.digits 256 n := by
    conv_rhs => rw [← List.map_id (Nat.digits 256 n)]
    apply List.map_congr_left
    intro d hd
    have hlt : d < 256 := Nat.digits_lt_base (by norm_num) hd
    simp [Fin.ofNat, Nat.mod_eq_of_lt hlt]
  rw [hmap, Nat.ofDigits_digits]

theorem Bytes_length_le {n L : Nat} (h : n < 256 ^ L) : (Bytes n).length ≤ L := by
  unfold Bytes
  rw [List.length_map, List.length_reverse]
  by_cases hn : n = 0
  · subst hn
    simp
  by_contra hc
  push_neg at hc
  have h1 := Nat.base_pow_length_digits_le 256 n (by norm_num) hn
  have h2 : 256 ^ (L + 1) ≤ 256 ^ (Nat.digits 256 n).length :=
    Nat.pow_le_pow_right (by norm_num) hc
  rw [pow_succ] at h2
  omega

theorem readPadded_length (data : List Byte) (start size : Nat) :
    (readPadded data start size).length = size := by
  simp [readPadded]

/-- Without overflow of the indices `getData` is the read from the
    zero-right-padded byte string. -/
theorem getData_eq_readPadded {data : List Byte} {start size : Nat}
    (hlen : data.length < 2 ^ 63) (hsize : size < 2 ^ 63) :
    getData data start size = some (readPadded data start size) := by
  have hmod : (min start data.length + size) % 2 ^ 64 = min start data.length + size := by
    apply Nat.mod_eq_of_lt
    have : min start data.length ≤ data.length := Nat.min_le_right _ _
    omega
  unfold getData
  rw [hmod, if_neg (by
    have : min start data.length ≤ data.length := Nat.min_le_right _ _
    omega)]
  congr 1
  unfold RightPadBytes intOfUint64 readPadded
  rw [if_pos hsize]
  by_cases hs : start ≤ data.length
  · rw [Nat.min_eq_left hs]
    by_cases he : start + size ≤ data.length
    · rw [Nat.min_eq_left he]
      have hl : ((data.take (start + size)).drop start).length = size := by
        simp
        omega
      rw [if_pos (by rw [hl])]
      rw [List.take_append_of_le_length (by simp; omega)]
      rw [List.drop_take]
      simp
    · push_neg at he
      rw [Nat.min_eq_right he.le, List.take_length]
      have hl : (data.drop start).length = data.length - start := by simp
      rw [if_neg (by rw [hl]; omega)]
      rw [List.take_append_eq_append_take, List.take_of_length_le (by omega)]
      congr 1
      rw [List.take_replicate, hl]
      congr 1
      simp
  · push_neg at hs
    rw [Nat.min_eq_right hs.le]
    have hm : min (data.length + size) data.length = data.length := by omega
    rw [hm, List.take_length, List.drop_length, List.drop_eq_nil_of_le hs.le]
    simp

theorem LeftPadBytes_spec {bs : List Byte} {L : Nat} (hL : L < 2 ^ 63) (hbs : bs.length ≤ L) :
    (LeftPadBytes bs (intOfUint64 L)).length = L ∧
      SetBytes (LeftPadBytes bs (intOfUint64 L)) = SetBytes bs := by
  unfold LeftPadBytes intOfUint64
  rw [if_pos hL]
  by_cases h : (L : Int) ≤ bs.length
  · rw [if_pos h]
    exact ⟨by omega, rfl⟩
  · rw [if_neg h]
    constructor
    · simp
      omega
    · rw [SetBytes_append, SetBytes_replicate_zero]
      simp

/-- C29. Output of `bigModExp.Run`.  For every input (a Go slice, so of a
    length below `2^63`) whose three declared lengths `baseLen`, `expLen` and
    `modLen` are below `2^63` (they fit the index type `int`), `Run` returns,
    without panic and with a `nil` error, a byte string of exactly `modLen`
    bytes whose big-endian value is `base ^ exp mod m` when the modulus `m` is
    not zero and 0 when it is zero, with `base`, `exp` and `m` read from the
    zero-right-padded input after the 96-byte header; the output is empty when
    `baseLen` and `modLen` are both zero. -/
theorem C29_bigModExp_output (input : List Byte) (hlen : input.length < 2 ^ 63)
    (hb : modExpBaseLen input < 2 ^ 63) (he : modExpExpLen input < 2 ^ 63)
    (hm : modExpModLen input < 2 ^ 63) :
    ∃ out, bigModExp.Run input = some (Except.ok out) ∧
      out.length = modExpModLen input ∧
      SetBytes out =
        (if modExpMod input = 0 then 0
         else modExpBase input ^ modExpExp input % modExpMod input) ∧
      (modExpBaseLen input = 0 → modExpModLen input = 0 → out = []) := by
  have h32 : (32 : Nat) < 2 ^ 63 := by norm_num
  have hbody : (if 96 < input.length then input.drop 96 else []) = input.drop 96 := by
    split
    · rfl
    · rw [List.drop_eq_nil_of_le (by omega)]
  have hblen : (input.drop 96).length < 2 ^ 63 := by
    rw [List.length_drop]
    omega
  have hu : ∀ n, n < 2 ^ 63 → Uint64 n = n := by
    intro n hn
    unfold Uint64
    exact Nat.mod_eq_of_lt (by omega)
  unfold bigModExp.Run
  simp only [getData_eq_readPadded hlen h32, hbody]
  change ∃ out, bigModExp.runOperands (input.drop 96) (Uint64 (modExpBaseLen input))
    (Uint64 (modExpExpLen input)) (Uint64 (modExpModLen input)) = some (Except.ok out) ∧ _
  rw [hu _ hb, hu _ he, hu _ hm]
  unfold bigModExp.runOperands
  by_cases h0 : modExpBaseLen input = 0 ∧ modExpModLen input = 0
  · rw [if_pos h0]
    refine ⟨[], rfl, h0.2.symm, ?_, fun _ _ => rfl⟩
    have hmod : modExpMod input = 0 := by
      unfold modExpMod
      rw [h0.2]
      rfl
    rw [if_pos hmod]
    rfl
  · rw [if_neg h0]
    have hsum : (modExpBaseLen input + modExpExpLen input) % 2 ^ 64 =
        modExpBaseLen input + modExpExpLen input := Nat.mod_eq_of_lt (by omega)
    simp only [getData_eq_readPadded hblen hb, getData_eq_readPadded hblen he,
      getData_eq_readPadded hblen hm, hsum]
    change ∃ out, (if modExpMod input = 0 then
        some (Except.ok (LeftPadBytes [] (intOfUint64 (modExpModLen input))))
      else some (Except.ok (LeftPadBytes
        (Bytes (bigIntExp (modExpBase input) (modExpExp input) (modExpMod input)))
        (intOfUint64 (modExpModLen input))))) = some (Except.ok out) ∧ _
    by_cases hz : modExpMod input = 0
    · rw [if_pos hz, if_pos hz]
      obtain ⟨h1, h2⟩ := @LeftPadBytes_spec [] (modExpModLen input) hm (Nat.zero_le _)
      exact ⟨_, rfl, h1, h2, fun a b => absurd ⟨a, b⟩ h0⟩
    · rw [if_neg hz, if_neg hz]
      have hlt : bigIntExp (modExpBase input) (modExpExp input) (modExpMod input) <
          256 ^ modExpModLen input := by
        unfold bigIntExp
        rw [if_neg hz]
        have h1 : modExpBase input ^ modExpExp input % modExpMod input < modExpMod input :=
          Nat.mod_lt _ (Nat.pos_of_ne_zero hz)
        have h2 : modExpMod input < 256 ^ modExpModLen input := by
          have := SetBytes_lt (readPadded (input.drop 96)
            (modExpBaseLen input + modExpExpLen input) (modExpModLen input))
          rw [readPadded_length] at this
          exact this
        exact lt_trans h1 h2
      obtain ⟨h1, h2⟩ := LeftPadBytes_spec hm (Bytes_length_le hlt)
      refine ⟨_, rfl, h1, ?_, fun a b => absurd ⟨a, b⟩ h0⟩
      rw [h2, SetBytes_Bytes]
      simp [bigIntExp, hz]

/-- Witness of C29: the header declares one byte each, the operands are 3, 4
    and 5, and the output is the single byte `3 ^ 4 mod 5 = 1`. -/
theorem C29_bigModExp_output_witness :
    ∃ out, bigModExp.Run exModExpInput = some (Except.ok out) ∧
      out.length = 1 ∧ SetBytes out = 3 ^ 4 % 5 := by
  obtain ⟨out, h1, h2, h3, -⟩ := C29_bigModExp_output exModExpInput (by decide) (by decide)
    (by decide) (by decide)
  exact ⟨out, h1, h2, h3⟩

/-- A declared modulus length of `2^63` does not fit `int`: the conversion
    `int(modLen)` is negative, `LeftPadBytes` pads nothing and `Run` returns the
    empty byte string. -/
theorem bigModExp_Run_large_modLen :
    modExpBaseLen exLargeModLenInput = 0 ∧ modExpExpLen exLargeModLenInput = 0 ∧
      modExpModLen exLargeModLenInput = 2 ^ 63 ∧
      intOfUint64 (modExpModLen exLargeModLenInput) < 0 ∧
      bigModExp.Run exLargeModLenInput = some (Except.ok []) := by
  refine ⟨by decide, by decide, by decide, by decide, rfl⟩

end Ammswap
